import Mathlib

/-!
# SVFIR: statement construction, field-object resolution and base recovery

A shallow embedding of `lib/MemoryModel/SVFIR.cpp`.

* Pointers to statements become positions in the edge arena `SVFIR.edges`
  (edges are only ever appended, so a position is a stable identity).
* Fatal assertions and lookups of unregistered nodes become `none`.
* The graph substrate (`getGNode`, `hasNonlabeledEdge`, `hasLabeledEdge`,
  `addEdge`, `addToStmt2TypeMap`, incoming-edge queries), `LocationSet`,
  `MemObj`, `getModulusOffset` and the identifier allocator are declared
  outside `SVFIR.cpp`; they are modelled from the specification and marked so.
* The static attributes of a node (`isPointer`, `isTopLevelPtr`, its value) and
  `ArgInNoCallerFunction` are parameters, collected in `VarAttrs`.
-/

namespace SVF

/-! ## Data model -/

abbrev NodeID := Nat

/-- Modelled from the spec: `LocationSet` is declared outside SVFIR.cpp.  It is
the accumulated field offset, with addition composing nested offsets and
decidable equality so that it can be a map key.  Offsets are natural numbers. -/
structure LocationSet where
  fldIdx : Nat
deriving DecidableEq, Repr

namespace LocationSet

def getOffset (ls : LocationSet) : Nat := ls.fldIdx

instance : Add LocationSet := ⟨fun a b => ⟨a.fldIdx + b.fldIdx⟩⟩

end LocationSet

/-- Modelled from the spec: `MemObj` is declared outside SVFIR.cpp.  It carries
the object identifier, the field-insensitivity flag and the per-object
maximum field count. -/
structure MemObj where
  getId : NodeID
  isFieldInsensitive : Bool
  getMaxFieldOffsetLimit : Nat
deriving DecidableEq, Repr

/-- Modelled from the spec: the node kinds (`SVFVar::PNODEK`, declared in the
header) that SVFIR.cpp distinguishes: value nodes and the three object
variants of the data model (field object, field-insensitive object, dummy
object). -/
inductive PNODEK where
  | ValNode | RetNode | VarargNode | GepValNode | GepObjNode
  | FIObjNode | DummyValNode | DummyObjNode
deriving DecidableEq, Repr

/-- Modelled from the spec: a node (`SVFVar`, declared in the header).
`memObj` is the memory object of an object node and `ls` the location set of a
field-object node. -/
structure SVFVar where
  kind : PNODEK
  memObj : Option MemObj := none
  ls : LocationSet := ⟨0⟩
deriving DecidableEq, Repr

/-- Modelled from the spec: the statement kinds (`SVFStmt::PEDGEK`, declared in
the header) that SVFIR.cpp constructs. -/
inductive PEDGEK where
  | Addr | Copy | Store | Load | Call | Ret | NormalGep | VariantGep
  | Phi | Cmp | BinaryOp | UnaryOp | Branch | ThreadFork | ThreadJoin
deriving DecidableEq, Repr

/-- Modelled from the spec: the additional label of an edge, none, an ICFG node
(store instruction or call site), or a second operand node (the label
SVFIR.cpp passes to `hasLabeledEdge` for compare and binary operations). -/
inductive EdgeLabel where
  | unlabeled
  | icfgNode (n : Nat)
  | opnd (v : NodeID)
deriving DecidableEq, Repr

/-- Modelled from the spec: a statement (`SVFStmt` and its subclasses, declared
in the header).  `opVars` are the operands of a multi-operand statement,
`opcode` the predicate or opcode, `ls` the location set of a Normal-Gep and
`successors` the successor set of a branch. -/
structure SVFStmt where
  kind : PEDGEK
  src : NodeID
  dst : NodeID
  label : EdgeLabel := EdgeLabel.unlabeled
  opVars : List NodeID := []
  opcode : Nat := 0
  ls : LocationSet := ⟨0⟩
  successors : List Nat := []
deriving DecidableEq, Repr

abbrev NodeBS := Finset NodeID

/-- Modelled from the spec: the graph with the maps of the SVFIR class (declared
in the header) that SVFIR.cpp reads and writes, and the options and special
node identifiers it consults.  `edges` is the arena of all statements; a
position in it is the identity of a statement. -/
structure SVFIR where
  IDToNodeMap : List (NodeID × SVFVar) := []
  edges : List SVFStmt := []
  KindToSVFStmtSetMap : List (PEDGEK × Nat) := []
  phiNodeMap : List (NodeID × Nat) := []
  GepObjVarMap : List ((NodeID × LocationSet) × NodeID) := []
  memToFieldsMap : List (NodeID × NodeBS) := []
  candidatePointers : Finset NodeID := ∅
  HandBlackHole : Bool := true
  FirstFieldEqBase : Bool := false
  maxFieldLimit : Nat := 512
  blackHoleNode : NodeID := 0
  nullPtr : NodeID := 3
deriving DecidableEq

namespace SVFIR

/-! ## Substrate primitives -/

/-- Modelled from the spec: `getNode(id)`, failing when `id` is unregistered. -/
def getGNode (s : SVFIR) (id : NodeID) : Option SVFVar :=
  s.IDToNodeMap.lookup id

/-- Modelled from the spec: node registration of the substrate. -/
def addGNode (s : SVFIR) (i : NodeID) (node : SVFVar) : SVFIR :=
  { s with IDToNodeMap := (i, node) :: s.IDToNodeMap }

/-- Modelled from the spec: `findEdge(kind, src, dst)`; the result is the
identity of the first matching edge. -/
def hasNonlabeledEdge (s : SVFIR) (src dst : NodeID) (kind : PEDGEK) : Option Nat :=
  s.edges.findIdx? (fun e => decide (e.kind = kind ∧ e.src = src ∧ e.dst = dst))

/-- Modelled from the spec: `findLabeledEdge(kind, src, dst, label)`. -/
def hasLabeledEdge (s : SVFIR) (src dst : NodeID) (kind : PEDGEK) (label : EdgeLabel) :
    Option Nat :=
  s.edges.findIdx?
    (fun e => decide (e.kind = kind ∧ e.src = src ∧ e.dst = dst ∧ e.label = label))

/-- Modelled from the spec: registration of a new edge in the kind index. -/
def addToStmt2TypeMap (s : SVFIR) (kind : PEDGEK) (edge : Nat) : SVFIR :=
  { s with KindToSVFStmtSetMap := s.KindToSVFStmtSetMap ++ [(kind, edge)] }

/-- Modelled from the spec: `insertEdge(kind, src, dst, edge)`; the edge goes to
the end of the arena, as an out-edge of `src` and an in-edge of `dst`. -/
def addEdge (s : SVFIR) (src dst : NodeID) (edge : SVFStmt) : SVFIR :=
  { s with edges := s.edges ++ [{ edge with src := src, dst := dst }] }

/-- Modelled from the spec: `incomingEdges(node, kind)`. -/
def getIncomingEdges (s : SVFIR) (node : NodeID) (kind : PEDGEK) : List SVFStmt :=
  s.edges.filter (fun e => decide (e.dst = node ∧ e.kind = kind))

/-- Modelled from the spec: whether `incomingEdges(node, kind)` is non-empty. -/
def hasIncomingEdges (s : SVFIR) (node : NodeID) (kind : PEDGEK) : Bool :=
  !(s.getIncomingEdges node kind).isEmpty

/-- Modelled from the spec: whether the node has an incoming Variant-Gep edge. -/
def hasIncomingVariantGepEdge (s : SVFIR) (node : NodeID) : Bool :=
  s.hasIncomingEdges node PEDGEK.VariantGep

/-- The statement behind an edge identity. -/
def getStmt (s : SVFIR) (edge : Nat) : Option SVFStmt := s.edges[edge]?

/-- Number of edges of a kind between an ordered node pair. -/
def countEdges (s : SVFIR) (kind : PEDGEK) (src dst : NodeID) : Nat :=
  (s.edges.filter (fun e => decide (e.kind = kind ∧ e.src = src ∧ e.dst = dst))).length

/-- Number of edges of a kind between an ordered node pair with a given label. -/
def countLabeledEdges (s : SVFIR) (kind : PEDGEK) (src dst : NodeID) (label : EdgeLabel) :
    Nat :=
  (s.edges.filter
    (fun e => decide (e.kind = kind ∧ e.src = src ∧ e.dst = dst ∧ e.label = label))).length

/-! ## Statement constructors (SVFIR.cpp, lines 51-300) -/

/-- Add Address edge. -/
def addAddrStmt (s : SVFIR) (src dst : NodeID) : Option (Nat × SVFIR) :=
  match s.getGNode src, s.getGNode dst with
  | some _, some _ =>
    match s.hasNonlabeledEdge src dst PEDGEK.Addr with
    | some edge => some (edge, s)
    | none =>
      let addrPE : SVFStmt := { kind := PEDGEK.Addr, src := src, dst := dst }
      let ref := s.edges.length
      some (ref, (s.addToStmt2TypeMap PEDGEK.Addr ref).addEdge src dst addrPE)
  | _, _ => none

/-- Add Copy edge. -/
def addCopyStmt (s : SVFIR) (src dst : NodeID) : Option (Nat × SVFIR) :=
  match s.getGNode src, s.getGNode dst with
  | some _, some _ =>
    match s.hasNonlabeledEdge src dst PEDGEK.Copy with
    | some edge => some (edge, s)
    | none =>
      let copyPE : SVFStmt := { kind := PEDGEK.Copy, src := src, dst := dst }
      let ref := s.edges.length
      some (ref, (s.addToStmt2TypeMap PEDGEK.Copy ref).addEdge src dst copyPE)
  | _, _ => none

/-- Modelled from the spec: `PhiStmt::addOpVar` appends an operand. -/
def addOpVar (phi : SVFStmt) (op : NodeID) : SVFStmt :=
  { phi with opVars := phi.opVars ++ [op] }

/-- Add Phi statement. -/
def addPhiStmt (s : SVFIR) (res opnd : NodeID) : Option (Nat × SVFIR) :=
  match s.getGNode opnd, s.getGNode res with
  | some _, some _ =>
    match s.phiNodeMap.lookup res with
    | none =>
      let phi : SVFStmt := { kind := PEDGEK.Phi, src := opnd, dst := res, opVars := [opnd] }
      let ref := s.edges.length
      let s1 := (s.addToStmt2TypeMap PEDGEK.Phi ref).addEdge opnd res phi
      some (ref, { s1 with phiNodeMap := (res, ref) :: s1.phiNodeMap })
    | some it =>
      match s.edges[it]? with
      | some phi => some (it, { s with edges := s.edges.set it (addOpVar phi opnd) })
      | none => none
  | _, _ => none

/-- Add Compare edge. -/
def addCmpStmt (s : SVFIR) (op1 op2 dst : NodeID) (predicate : Nat) : Option (Nat × SVFIR) :=
  match s.getGNode op1, s.getGNode op2, s.getGNode dst with
  | some _, some _, some _ =>
    match s.hasLabeledEdge op1 dst PEDGEK.Cmp (EdgeLabel.opnd op2) with
    | some edge => some (edge, s)
    | none =>
      let cmp : SVFStmt :=
        { kind := PEDGEK.Cmp, src := op1, dst := dst, label := EdgeLabel.opnd op2,
          opVars := [op1, op2], opcode := predicate }
      let ref := s.edges.length
      some (ref, (s.addToStmt2TypeMap PEDGEK.Cmp ref).addEdge op1 dst cmp)
  | _, _, _ => none

/-- Add BinaryOp edge. -/
def addBinaryOPStmt (s : SVFIR) (op1 op2 dst : NodeID) (opcode : Nat) :
    Option (Nat × SVFIR) :=
  match s.getGNode op1, s.getGNode op2, s.getGNode dst with
  | some _, some _, some _ =>
    match s.hasLabeledEdge op1 dst PEDGEK.BinaryOp (EdgeLabel.opnd op2) with
    | some edge => some (edge, s)
    | none =>
      let binaryOP : SVFStmt :=
        { kind := PEDGEK.BinaryOp, src := op1, dst := dst, label := EdgeLabel.opnd op2,
          opVars := [op1, op2], opcode := opcode }
      let ref := s.edges.length
      some (ref, (s.addToStmt2TypeMap PEDGEK.BinaryOp ref).addEdge op1 dst binaryOP)
  | _, _, _ => none

/-- Add Unary edge. -/
def addUnaryOPStmt (s : SVFIR) (src dst : NodeID) (opcode : Nat) : Option (Nat × SVFIR) :=
  match s.getGNode src, s.getGNode dst with
  | some _, some _ =>
    match s.hasNonlabeledEdge src dst PEDGEK.UnaryOp with
    | some edge => some (edge, s)
    | none =>
      let unaryOP : SVFStmt :=
        { kind := PEDGEK.UnaryOp, src := src, dst := dst, opcode := opcode }
      let ref := s.edges.length
      some (ref, (s.addToStmt2TypeMap PEDGEK.UnaryOp ref).addEdge src dst unaryOP)
  | _, _ => none

/-- Add BranchStmt: the edge runs from the condition to the branch node. -/
def addBranchStmt (s : SVFIR) (br cond : NodeID) (succs : List Nat) : Option (Nat × SVFIR) :=
  match s.getGNode br, s.getGNode cond with
  | some _, some _ =>
    match s.hasNonlabeledEdge cond br PEDGEK.Branch with
    | some edge => some (edge, s)
    | none =>
      let branch : SVFStmt :=
        { kind := PEDGEK.Branch, src := cond, dst := br, successors := succs }
      let ref := s.edges.length
      some (ref, (s.addToStmt2TypeMap PEDGEK.Branch ref).addEdge cond br branch)
  | _, _ => none

/-- Add Load edge. -/
def addLoadStmt (s : SVFIR) (src dst : NodeID) : Option (Nat × SVFIR) :=
  match s.getGNode src, s.getGNode dst with
  | some _, some _ =>
    match s.hasNonlabeledEdge src dst PEDGEK.Load with
    | some edge => some (edge, s)
    | none =>
      let loadPE : SVFStmt := { kind := PEDGEK.Load, src := src, dst := dst }
      let ref := s.edges.length
      some (ref, (s.addToStmt2TypeMap PEDGEK.Load ref).addEdge src dst loadPE)
  | _, _ => none

/-- Add Store edge, labeled by the originating instruction `curVal`. -/
def addStoreStmt (s : SVFIR) (src dst : NodeID) (curVal : Nat) : Option (Nat × SVFIR) :=
  match s.getGNode src, s.getGNode dst with
  | some _, some _ =>
    match s.hasLabeledEdge src dst PEDGEK.Store (EdgeLabel.icfgNode curVal) with
    | some edge => some (edge, s)
    | none =>
      let storePE : SVFStmt :=
        { kind := PEDGEK.Store, src := src, dst := dst, label := EdgeLabel.icfgNode curVal }
      let ref := s.edges.length
      some (ref, (s.addToStmt2TypeMap PEDGEK.Store ref).addEdge src dst storePE)
  | _, _ => none

/-- Add Call edge, labeled by the call site `cs`. -/
def addCallPE (s : SVFIR) (src dst : NodeID) (cs : Nat) : Option (Nat × SVFIR) :=
  match s.getGNode src, s.getGNode dst with
  | some _, some _ =>
    match s.hasLabeledEdge src dst PEDGEK.Call (EdgeLabel.icfgNode cs) with
    | some edge => some (edge, s)
    | none =>
      let callPE : SVFStmt :=
        { kind := PEDGEK.Call, src := src, dst := dst, label := EdgeLabel.icfgNode cs }
      let ref := s.edges.length
      some (ref, (s.addToStmt2TypeMap PEDGEK.Call ref).addEdge src dst callPE)
  | _, _ => none

/-- Add Return edge, labeled by the call site `cs`. -/
def addRetPE (s : SVFIR) (src dst : NodeID) (cs : Nat) : Option (Nat × SVFIR) :=
  match s.getGNode src, s.getGNode dst with
  | some _, some _ =>
    match s.hasLabeledEdge src dst PEDGEK.Ret (EdgeLabel.icfgNode cs) with
    | some edge => some (edge, s)
    | none =>
      let retPE : SVFStmt :=
        { kind := PEDGEK.Ret, src := src, dst := dst, label := EdgeLabel.icfgNode cs }
      let ref := s.edges.length
      some (ref, (s.addToStmt2TypeMap PEDGEK.Ret ref).addEdge src dst retPE)
  | _, _ => none

/-- Add blackhole/constant edge. -/
def addBlackHoleAddrStmt (s : SVFIR) (node : NodeID) : Option (Nat × SVFIR) :=
  if s.HandBlackHole then s.addAddrStmt s.blackHoleNode node
  else s.addCopyStmt s.nullPtr node

/-- Add Thread fork edge, labeled by the call site `cs`. -/
def addThreadForkPE (s : SVFIR) (src dst : NodeID) (cs : Nat) : Option (Nat × SVFIR) :=
  match s.getGNode src, s.getGNode dst with
  | some _, some _ =>
    match s.hasLabeledEdge src dst PEDGEK.ThreadFork (EdgeLabel.icfgNode cs) with
    | some edge => some (edge, s)
    | none =>
      let forkPE : SVFStmt :=
        { kind := PEDGEK.ThreadFork, src := src, dst := dst, label := EdgeLabel.icfgNode cs }
      let ref := s.edges.length
      some (ref, (s.addToStmt2TypeMap PEDGEK.ThreadFork ref).addEdge src dst forkPE)
  | _, _ => none

/-- Add Thread join edge, labeled by the call site `cs`. -/
def addThreadJoinPE (s : SVFIR) (src dst : NodeID) (cs : Nat) : Option (Nat × SVFIR) :=
  match s.getGNode src, s.getGNode dst with
  | some _, some _ =>
    match s.hasLabeledEdge src dst PEDGEK.ThreadJoin (EdgeLabel.icfgNode cs) with
    | some edge => some (edge, s)
    | none =>
      let joinPE : SVFStmt :=
        { kind := PEDGEK.ThreadJoin, src := src, dst := dst, label := EdgeLabel.icfgNode cs }
      let ref := s.edges.length
      some (ref, (s.addToStmt2TypeMap PEDGEK.ThreadJoin ref).addEdge src dst joinPE)
  | _, _ => none

/-! ## Pointer arithmetic: base recovery and Gep construction (lines 303-361, 500-543) -/

/-- Get a base pointer given a pointer: the source of its single incoming gep
edge if it has one, otherwise the node itself. -/
def getBaseValVar (s : SVFIR) (nodeId : NodeID) : Option NodeID :=
  match s.getGNode nodeId with
  | none => none
  | some _ =>
    if s.hasIncomingEdges nodeId PEDGEK.NormalGep || s.hasIncomingEdges nodeId PEDGEK.VariantGep
    then
      let ngeps := s.getIncomingEdges nodeId PEDGEK.NormalGep
      let vgeps := s.getIncomingEdges nodeId PEDGEK.VariantGep
      if ngeps.length + vgeps.length = 1 then
        match (if !ngeps.isEmpty then ngeps.head? else vgeps.head?) with
        | some it => some it.src
        | none => none
      else none
    else some nodeId

/-- Get the location set of the incoming normal gep edge, or the zero location
set if the node is already a base node. -/
def getLocationSetFromBaseNode (s : SVFIR) (nodeId : NodeID) : Option LocationSet :=
  match s.getGNode nodeId with
  | none => none
  | some _ =>
    let geps := s.getIncomingEdges nodeId PEDGEK.NormalGep
    if geps.isEmpty then some ⟨0⟩
    else if geps.length = 1 then
      match geps.head? with
      | some gepEdge => some gepEdge.ls
      | none => none
    else none

/-- Add normal (Gep) edge. -/
def addNormalGepStmt (s : SVFIR) (src dst : NodeID) (ls : LocationSet) :
    Option (Nat × SVFIR) :=
  match s.getLocationSetFromBaseNode src with
  | none => none
  | some baseLS =>
    match s.getBaseValVar src with
    | none => none
    | some base =>
      match s.getGNode base, s.getGNode dst with
      | some _, some _ =>
        match s.hasNonlabeledEdge base dst PEDGEK.NormalGep with
        | some edge => some (edge, s)
        | none =>
          let gepPE : SVFStmt :=
            { kind := PEDGEK.NormalGep, src := base, dst := dst, ls := ls + baseLS }
          let ref := s.edges.length
          some (ref, (s.addToStmt2TypeMap PEDGEK.NormalGep ref).addEdge base dst gepPE)
      | _, _ => none

/-- Add variant (Gep) edge. -/
def addVariantGepStmt (s : SVFIR) (src dst : NodeID) : Option (Nat × SVFIR) :=
  match s.getBaseValVar src with
  | none => none
  | some base =>
    match s.getGNode base, s.getGNode dst with
    | some _, some _ =>
      match s.hasNonlabeledEdge base dst PEDGEK.VariantGep with
      | some edge => some (edge, s)
      | none =>
        let gepPE : SVFStmt := { kind := PEDGEK.VariantGep, src := base, dst := dst }
        let ref := s.edges.length
        some (ref, (s.addToStmt2TypeMap PEDGEK.VariantGep ref).addEdge base dst gepPE)
    | _, _ => none

/-- Add Offset (Gep) edge. -/
def addGepStmt (s : SVFIR) (src dst : NodeID) (ls : LocationSet) (constGep : Bool) :
    Option (Nat × SVFIR) :=
  match s.getGNode src with
  | none => none
  | some _ =>
    if !constGep || s.hasIncomingVariantGepEdge src then s.addVariantGepStmt src dst
    else s.addNormalGepStmt src dst ls

/-! ## Field-sensitive object resolution (lines 380-493) -/

/-- Modelled from the spec: `SymbolTableInfo::getModulusOffset` is not in
SVFIR.cpp; the offset is normalized modulo the object's maximum field count
(the comment above `getGepObjVar` states the same formula). -/
def getModulusOffset (obj : MemObj) (ls : LocationSet) : LocationSet :=
  ⟨ls.fldIdx % obj.getMaxFieldOffsetLimit⟩

/-- Modelled from the spec: `getFIObjVar` is declared in the header; the single
field-insensitive node of an object carries the object's own identifier (the
identifier `addFIObjNode` registers it under). -/
def getFIObjVar (obj : MemObj) : NodeID := obj.getId

/-- The entry `memToFieldsMap[base]`, empty when absent. -/
def memToFields (s : SVFIR) (base : NodeID) : NodeBS :=
  (s.memToFieldsMap.lookup base).getD ∅

/-- The update `memToFieldsMap[base].set(id)`. -/
def setMemToFields (s : SVFIR) (base id : NodeID) : SVFIR :=
  { s with memToFieldsMap := (base, insert id (s.memToFields base)) :: s.memToFieldsMap }

/-- Modelled from the spec: `addObjNode` registers the node under `i` and returns `i`. -/
def addObjNode (s : SVFIR) (node : SVFVar) (i : NodeID) : NodeID × SVFIR :=
  (i, s.addGNode i node)

/-- Add a field obj node; only invoked by `getGepObjVar`.  The identifier
allocator `NodeIDAllocator::allocateGepObjectId` is a parameter. -/
def addGepObjNode (allocateGepObjectId : NodeID → Nat → Nat → NodeID) (s : SVFIR)
    (obj : MemObj) (ls : LocationSet) : Option (NodeID × SVFIR) :=
  let base := obj.getId
  if (s.GepObjVarMap.lookup (base, ls)).isSome then none
  else
    let gepId := allocateGepObjectId base ls.getOffset s.maxFieldLimit
    let s1 := { s with GepObjVarMap := ((base, ls), gepId) :: s.GepObjVarMap }
    let node : SVFVar := { kind := PNODEK.GepObjNode, memObj := some obj, ls := ls }
    let s2 := s1.setMemToFields base gepId
    some (s2.addObjNode node gepId)

/-- Get a field obj node according to base mem obj and offset. -/
def getGepObjVar (allocateGepObjectId : NodeID → Nat → Nat → NodeID) (s : SVFIR)
    (obj : MemObj) (ls : LocationSet) : Option (NodeID × SVFIR) :=
  let base := obj.getId
  if obj.isFieldInsensitive then some (getFIObjVar obj, s)
  else
    let newLS := getModulusOffset obj ls
    if s.FirstFieldEqBase && newLS.getOffset == 0 then some (base, s)
    else
      match s.GepObjVarMap.lookup (base, newLS) with
      | none => addGepObjNode allocateGepObjectId s obj newLS
      | some id => some (id, s)

/-- Given an object node, find its field object node. -/
def getGepObjVarById (allocateGepObjectId : NodeID → Nat → Nat → NodeID) (s : SVFIR)
    (id : NodeID) (ls : LocationSet) : Option (NodeID × SVFIR) :=
  match s.getGNode id with
  | none => none
  | some node =>
    match node.kind, node.memObj with
    | PNODEK.GepObjNode, some mem => getGepObjVar allocateGepObjectId s mem (node.ls + ls)
    | PNODEK.FIObjNode, some mem => getGepObjVar allocateGepObjectId s mem ls
    | PNODEK.DummyObjNode, some mem => getGepObjVar allocateGepObjectId s mem ls
    | _, _ => none

/-- Add a field-insensitive node. -/
def addFIObjNode (s : SVFIR) (obj : MemObj) : NodeID × SVFIR :=
  let base := obj.getId
  let s1 := s.setMemToFields base obj.getId
  let node : SVFVar := { kind := PNODEK.FIObjNode, memObj := some obj }
  s1.addObjNode node obj.getId

/-- Get all fields object nodes of an object. -/
def getAllFieldsObjVars (s : SVFIR) (obj : MemObj) : NodeBS :=
  s.memToFields obj.getId

/-- Whether a node is an object node (`isa<ObjVar>`). -/
def isObjVar (node : SVFVar) : Bool :=
  match node.kind with
  | PNODEK.GepObjNode | PNODEK.FIObjNode | PNODEK.DummyObjNode => true
  | _ => false

/-- Get all fields object nodes of the object behind a node. -/
def getAllFieldsObjVarsById (s : SVFIR) (id : NodeID) : Option NodeBS :=
  match s.getGNode id with
  | none => none
  | some node =>
    if isObjVar node then
      match node.memObj with
      | some mem => some (s.getAllFieldsObjVars mem)
      | none => none
    else none

/-- Get all fields object nodes of an object; if the object is collapsed into
one field-insensitive object, only that object is returned. -/
def getFieldsAfterCollapse (s : SVFIR) (id : NodeID) : Option NodeBS :=
  match s.getGNode id with
  | none => none
  | some node =>
    if isObjVar node then
      match node.memObj with
      | some mem =>
        if mem.isFieldInsensitive then some {getFIObjVar mem}
        else some (s.getAllFieldsObjVars mem)
      | none => none
    else none

/-- Whether to handle blackhole edge. -/
def handleBlackHole (s : SVFIR) (b : Bool) : SVFIR :=
  { s with HandBlackHole := b }

/-! ## Candidate pointers (lines 645-682) -/

/-- Modelled from the spec: the static attributes of nodes that SVFIR.cpp reads
through methods of `SVFVar` declared in the header (`isPointer`,
`isTopLevelPtr`, `hasValue` and `getValue`, the latter two as an optional
value), given per node identifier, and `SVFUtil::ArgInNoCallerFunction`, which
tells whether a value is a formal parameter of a function without caller. -/
structure VarAttrs where
  isPointer : NodeID → Bool
  isTopLevelPtr : NodeID → Bool
  getValue : NodeID → Option Nat
  ArgInNoCallerFunction : Nat → Bool

/-- Modelled from the spec: all incoming edges of a node, of every kind. -/
def getInEdges (s : SVFIR) (node : NodeID) : List SVFStmt :=
  s.edges.filter (fun e => decide (e.dst = node))

/-- Modelled from the spec: all outgoing edges of a node, of every kind. -/
def getOutEdges (s : SVFIR) (node : NodeID) : List SVFStmt :=
  s.edges.filter (fun e => decide (e.src = node))

/-- Whether a node is a valid pointer: not isolated, and classified as a pointer. -/
def isValidPointer (attrs : VarAttrs) (s : SVFIR) (nodeId : NodeID) : Option Bool :=
  match s.getGNode nodeId with
  | none => none
  | some _ =>
    if (s.getInEdges nodeId).isEmpty && (s.getOutEdges nodeId).isEmpty then some false
    else some (attrs.isPointer nodeId)

/-- The loop of `initialiseCandidatePointers` over the registered nodes. -/
def initialiseCandidatePointersLoop (attrs : VarAttrs) :
    List (NodeID × SVFVar) → SVFIR → Option SVFIR
  | [], s => some s
  | (nodeId, _) :: rest, s =>
    match s.isValidPointer attrs nodeId with
    | none => none
    | some false => initialiseCandidatePointersLoop attrs rest s
    | some true =>
      initialiseCandidatePointersLoop attrs rest
        { s with candidatePointers := insert nodeId s.candidatePointers }

/-- Initialize candidate pointers. -/
def initialiseCandidatePointers (attrs : VarAttrs) (s : SVFIR) : Option SVFIR :=
  initialiseCandidatePointersLoop attrs s.IDToNodeMap s

/-- Whether a node is a valid top-level pointer. -/
def isValidTopLevelPtr (attrs : VarAttrs) (s : SVFIR) (node : NodeID) : Option Bool :=
  if attrs.isTopLevelPtr node then
    match s.isValidPointer attrs node with
    | none => none
    | some valid =>
      match attrs.getValue node with
      | some value =>
        if valid then
          if attrs.ArgInNoCallerFunction value then some false else some true
        else some false
      | none => some false
  else some false

/-! ## Reachable states -/

/-- The common shape of the lookup-or-create constructors: return the edge
found by the lookup, or append `e` and register it in the kind index. -/
def lookupOrCreate (s : SVFIR) (found : Option Nat) (e : SVFStmt) : Nat × SVFIR :=
  match found with
  | some edge => (edge, s)
  | none => (s.edges.length, (s.addToStmt2TypeMap e.kind s.edges.length).addEdge e.src e.dst e)

/-- States reachable from a graph without edges through node registration and
the construction calls of SVFIR.cpp. -/
inductive Reachable : SVFIR → Prop
  | init (s : SVFIR) (hE : s.edges = []) (hP : s.phiNodeMap = [])
      (hK : s.KindToSVFStmtSetMap = []) : Reachable s
  | node {s : SVFIR} (i : NodeID) (n : SVFVar) : Reachable s → Reachable (s.addGNode i n)
  | addr {s t : SVFIR} {e : Nat} (a b : NodeID) :
      Reachable s → s.addAddrStmt a b = some (e, t) → Reachable t
  | copy {s t : SVFIR} {e : Nat} (a b : NodeID) :
      Reachable s → s.addCopyStmt a b = some (e, t) → Reachable t
  | phi {s t : SVFIR} {e : Nat} (res op : NodeID) :
      Reachable s → s.addPhiStmt res op = some (e, t) → Reachable t
  | cmp {s t : SVFIR} {e : Nat} (a b d p : Nat) :
      Reachable s → s.addCmpStmt a b d p = some (e, t) → Reachable t
  | binary {s t : SVFIR} {e : Nat} (a b d p : Nat) :
      Reachable s → s.addBinaryOPStmt a b d p = some (e, t) → Reachable t
  | unary {s t : SVFIR} {e : Nat} (a b p : Nat) :
      Reachable s → s.addUnaryOPStmt a b p = some (e, t) → Reachable t
  | branch {s t : SVFIR} {e : Nat} (br cond : NodeID) (succs : List Nat) :
      Reachable s → s.addBranchStmt br cond succs = some (e, t) → Reachable t
  | load {s t : SVFIR} {e : Nat} (a b : NodeID) :
      Reachable s → s.addLoadStmt a b = some (e, t) → Reachable t
  | store {s t : SVFIR} {e : Nat} (a b l : Nat) :
      Reachable s → s.addStoreStmt a b l = some (e, t) → Reachable t
  | call {s t : SVFIR} {e : Nat} (a b l : Nat) :
      Reachable s → s.addCallPE a b l = some (e, t) → Reachable t
  | ret {s t : SVFIR} {e : Nat} (a b l : Nat) :
      Reachable s → s.addRetPE a b l = some (e, t) → Reachable t
  | blackHole {s t : SVFIR} {e : Nat} (n : NodeID) :
      Reachable s → s.addBlackHoleAddrStmt n = some (e, t) → Reachable t
  | fork {s t : SVFIR} {e : Nat} (a b l : Nat) :
      Reachable s → s.addThreadForkPE a b l = some (e, t) → Reachable t
  | join {s t : SVFIR} {e : Nat} (a b l : Nat) :
      Reachable s → s.addThreadJoinPE a b l = some (e, t) → Reachable t
  | gep {s t : SVFIR} {e : Nat} (a b : NodeID) (ls : LocationSet) (c : Bool) :
      Reachable s → s.addGepStmt a b ls c = some (e, t) → Reachable t
  | normalGep {s t : SVFIR} {e : Nat} (a b : NodeID) (ls : LocationSet) :
      Reachable s → s.addNormalGepStmt a b ls = some (e, t) → Reachable t
  | variantGep {s t : SVFIR} {e : Nat} (a b : NodeID) :
      Reachable s → s.addVariantGepStmt a b = some (e, t) → Reachable t
  | gepObj {s t : SVFIR} {i : NodeID} (al : NodeID → Nat → Nat → NodeID) (obj : MemObj)
      (ls : LocationSet) : Reachable s → getGepObjVar al s obj ls = some (i, t) → Reachable t
  | fiObj {s : SVFIR} (obj : MemObj) : Reachable s → Reachable (s.addFIObjNode obj).2
  | blackHoleFlag {s : SVFIR} (b : Bool) : Reachable s → Reachable (s.handleBlackHole b)

/-! ## Specification predicates -/

/-- Calling `f` twice in a row returns the same edge identity both times, the
second call leaves the whole graph unchanged (so it adds no edge), and the
edge is a `kind` edge from `src` to `dst`. -/
def SameEdgeTwice (f : SVFIR → Option (Nat × SVFIR)) (s : SVFIR) (kind : PEDGEK)
    (src dst : NodeID) : Prop :=
  ∃ i t st, f s = some (i, t) ∧ f t = some (i, t) ∧ t.getStmt i = some st ∧
    st.kind = kind ∧ st.src = src ∧ st.dst = dst

/-- Like `SameEdgeTwice`, for an edge that also carries `label`. -/
def SameLabeledEdgeTwice (f : SVFIR → Option (Nat × SVFIR)) (s : SVFIR) (kind : PEDGEK)
    (src dst : NodeID) (label : EdgeLabel) : Prop :=
  ∃ i t st, f s = some (i, t) ∧ f t = some (i, t) ∧ t.getStmt i = some st ∧
    st.kind = kind ∧ st.src = src ∧ st.dst = dst ∧ st.label = label

/-- Calling `f` with label `l1` and then with label `l2` yields two different
edges of the given kind between `src` and `dst`, carrying `l1` and `l2`. -/
def DistinctEdgesForLabels (f : Nat → SVFIR → Option (Nat × SVFIR)) (s : SVFIR)
    (kind : PEDGEK) (src dst : NodeID) (l1 l2 : Nat) : Prop :=
  ∃ i1 t1 i2 t2 st1 st2, f l1 s = some (i1, t1) ∧ f l2 t1 = some (i2, t2) ∧ i1 ≠ i2 ∧
    t2.getStmt i1 = some st1 ∧ t2.getStmt i2 = some st2 ∧
    st1.kind = kind ∧ st1.src = src ∧ st1.dst = dst ∧ st1.label = EdgeLabel.icfgNode l1 ∧
    st2.kind = kind ∧ st2.src = src ∧ st2.dst = dst ∧ st2.label = EdgeLabel.icfgNode l2

/-- The statement kinds whose constructors look an edge up by kind and node
pair alone (`hasNonlabeledEdge`). -/
def isUnlabeledKind : PEDGEK → Bool
  | PEDGEK.Addr | PEDGEK.Copy | PEDGEK.UnaryOp | PEDGEK.Branch | PEDGEK.Load
  | PEDGEK.NormalGep | PEDGEK.VariantGep => true
  | _ => false

/-- The part of a statement that the edge lookups inspect. -/
def edgeKey (e : SVFStmt) : PEDGEK × NodeID × NodeID × EdgeLabel :=
  (e.kind, e.src, e.dst, e.label)

/-- How a construction call may change the edge arena: the lookup keys of all
edges stay as they are, or one edge is appended whose lookup had failed (or
which is a Phi edge). -/
def EdgeStep (s t : SVFIR) : Prop :=
  t.edges.map edgeKey = s.edges.map edgeKey ∨
  ∃ st, t.edges = s.edges ++ [st] ∧
    (st.kind = PEDGEK.Phi ∨
      (isUnlabeledKind st.kind = true ∧ s.hasNonlabeledEdge st.src st.dst st.kind = none) ∨
      (isUnlabeledKind st.kind = false ∧
        s.hasLabeledEdge st.src st.dst st.kind st.label = none))

/-- At most one edge per lookup key: per (kind, pair) for the unlabeled kinds,
per (kind, pair, label) for the other kinds except Phi. -/
def UniqueEdges (s : SVFIR) : Prop :=
  (∀ k a b, isUnlabeledKind k = true → s.countEdges k a b ≤ 1) ∧
  (∀ k a b l, isUnlabeledKind k = false → k ≠ PEDGEK.Phi → s.countLabeledEdges k a b l ≤ 1)

/-- Every entry of the field-object map was produced by the allocator `al`
from its key; `addGepObjNode`, the only writer of the map, keeps this. -/
def GepMapAllocated (al : NodeID → Nat → Nat → NodeID) (s : SVFIR) : Prop :=
  ∀ base ls id, s.GepObjVarMap.lookup (base, ls) = some id →
    id = al base ls.getOffset s.maxFieldLimit

/-- The identifier that `getGepObjVar` yields for a field-sensitive object in
a state whose field-object map was filled by the allocator `al`: the base
identifier for the first field under FirstFieldEqBase, otherwise the allocated
identifier of the normalized offset. -/
def fieldObjId (al : NodeID → Nat → Nat → NodeID) (s : SVFIR) (obj : MemObj)
    (ls : LocationSet) : NodeID :=
  if (s.FirstFieldEqBase && (getModulusOffset obj ls).getOffset == 0) = true then obj.getId
  else al obj.getId (getModulusOffset obj ls).getOffset s.maxFieldLimit

/-- Calling `f` and then `g` (the same constructor with the same lookup key
but another payload) returns the same edge both times and the second call
leaves the whole graph unchanged; if the first call built the edge (`fresh`),
the edge carries the payload of the first call. -/
def PayloadIgnored (f g : SVFIR → Option (Nat × SVFIR)) (s : SVFIR) (fresh : Prop)
    (payload : SVFStmt → Prop) : Prop :=
  ∃ e t st, f s = some (e, t) ∧ g t = some (e, t) ∧ t.getStmt e = some st ∧
    (fresh → payload st)

/-- Calling `f` and then `g` (the same constructor with another second
operand) yields two different edges of the given kind between `src` and
`dst`, so at least two such edges exist afterwards. -/
def SecondOperandSeparates (f g : SVFIR → Option (Nat × SVFIR)) (s : SVFIR) (kind : PEDGEK)
    (src dst : NodeID) : Prop :=
  ∃ e1 t1 e2 t2 st1 st2, f s = some (e1, t1) ∧ g t1 = some (e2, t2) ∧ e1 ≠ e2 ∧
    t2.getStmt e1 = some st1 ∧ t2.getStmt e2 = some st2 ∧
    st1.kind = kind ∧ st1.src = src ∧ st1.dst = dst ∧
    st2.kind = kind ∧ st2.src = src ∧ st2.dst = dst ∧
    2 ≤ t2.countEdges kind src dst

/-- A sequence of calls addPhiStmt(res, op) for the operands `ops`, in order,
collecting the returned edge identities. -/
def addPhiStmts (s : SVFIR) (res : NodeID) : List NodeID → Option (List Nat × SVFIR)
  | [] => some ([], s)
  | op :: ops =>
    match s.addPhiStmt res op with
    | none => none
    | some (e, t) =>
      match addPhiStmts t res ops with
      | none => none
      | some (es, u) => some (e :: es, u)

/-! ## Example graphs -/

/-- A field-sensitive object with identifier 10 and at most four fields. -/
def demoObj : MemObj := { getId := 10, isFieldInsensitive := false, getMaxFieldOffsetLimit := 4 }

/-- A field-insensitive object with identifier 11. -/
def demoFIObj : MemObj := { getId := 11, isFieldInsensitive := true, getMaxFieldOffsetLimit := 4 }

/-- A graph with value nodes 1..6, the object nodes 10 and 11 of `demoObj` and
`demoFIObj`, and no edge. -/
def demo : SVFIR :=
  { IDToNodeMap := [(1, { kind := PNODEK.ValNode }), (2, { kind := PNODEK.ValNode }),
      (3, { kind := PNODEK.ValNode }), (4, { kind := PNODEK.ValNode }),
      (5, { kind := PNODEK.ValNode }), (6, { kind := PNODEK.ValNode }),
      (10, { kind := PNODEK.FIObjNode, memObj := some demoObj }),
      (11, { kind := PNODEK.FIObjNode, memObj := some demoFIObj })] }

/-- The graph `demo` with the FirstFieldEqBase policy switched on. -/
def demoFirstField : SVFIR := { demo with FirstFieldEqBase := true }

/-- The graph `demo` after addCmpStmt(1, 2, 4, 0). -/
def demoOneCmp : SVFIR :=
  { demo with
    edges := [{ kind := PEDGEK.Cmp, src := 1, dst := 4, label := EdgeLabel.opnd 2,
                opVars := [1, 2], opcode := 0 }]
    KindToSVFStmtSetMap := [(PEDGEK.Cmp, 0)] }

/-- The graph `demoOneCmp` after addCmpStmt(1, 3, 4, 0): two Compare edges 1->4. -/
def demoTwoCmp : SVFIR :=
  { demo with
    edges := [{ kind := PEDGEK.Cmp, src := 1, dst := 4, label := EdgeLabel.opnd 2,
                opVars := [1, 2], opcode := 0 },
              { kind := PEDGEK.Cmp, src := 1, dst := 4, label := EdgeLabel.opnd 3,
                opVars := [1, 3], opcode := 0 }]
    KindToSVFStmtSetMap := [(PEDGEK.Cmp, 0), (PEDGEK.Cmp, 1)] }

/-- The graph `demo` after addGepStmt(1, 2, 2, true) and addGepStmt(1, 3, 7, false):
a Normal-Gep edge 1->2 with offset 2 and a Variant-Gep edge 1->3. -/
def demoGeps : SVFIR :=
  { demo with
    edges := [{ kind := PEDGEK.NormalGep, src := 1, dst := 2, ls := ⟨2⟩ },
              { kind := PEDGEK.VariantGep, src := 1, dst := 3 }]
    KindToSVFStmtSetMap := [(PEDGEK.NormalGep, 0), (PEDGEK.VariantGep, 1)] }

/-- The graph `demo` after addGepStmt(1, 3, 2, true) and addGepStmt(2, 3, 5, true):
two Normal-Gep edges into node 3, from the bases 1 and 2. -/
def demoTwoGeps : SVFIR :=
  { demo with
    edges := [{ kind := PEDGEK.NormalGep, src := 1, dst := 3, ls := ⟨2⟩ },
              { kind := PEDGEK.NormalGep, src := 2, dst := 3, ls := ⟨5⟩ }]
    KindToSVFStmtSetMap := [(PEDGEK.NormalGep, 0), (PEDGEK.NormalGep, 1)] }

/-- The black-hole object, with identifier 0. -/
def demoBlackHoleObj : MemObj :=
  { getId := 0, isFieldInsensitive := true, getMaxFieldOffsetLimit := 0 }

/-- A graph with the black-hole object node 0, the null-pointer node 3, the
value node 5 and no edge; HandBlackHole is on. -/
def demoBlackHole : SVFIR :=
  { IDToNodeMap := [(0, { kind := PNODEK.DummyObjNode, memObj := some demoBlackHoleObj }),
      (3, { kind := PNODEK.DummyValNode }), (5, { kind := PNODEK.ValNode })] }

/-- Node attributes for the example graphs: every node but 2 is a pointer, the
value nodes other than 2 are top-level pointers, every node but 11 carries a
value (its own number), and value 3 is a formal parameter of a function
without caller. -/
def demoAttrs : VarAttrs :=
  { isPointer := fun n => n != 2
    isTopLevelPtr := fun n => decide (n < 10) && n != 2
    getValue := fun n => if n = 11 then none else some n
    ArgInNoCallerFunction := fun v => v == 3 }

/-- The graph `demo` after addAddrStmt(10, 1): an Address-of edge from the
object node 10 to the value node 1. -/
def demoAddr : SVFIR :=
  { demo with
    edges := [{ kind := PEDGEK.Addr, src := 10, dst := 1 }]
    KindToSVFStmtSetMap := [(PEDGEK.Addr, 0)] }

/-- The graph `demo` after getGepObjVar(demoObj, 1) with the allocator
`(offset + 1) * 1000 + base`: the field node 2010 of `demoObj` at offset 1. -/
def demoField : SVFIR :=
  { demo with
    IDToNodeMap := (2010, { kind := PNODEK.GepObjNode, memObj := some demoObj, ls := ⟨1⟩ })
      :: demo.IDToNodeMap
    GepObjVarMap := [((10, ⟨1⟩), 2010)]
    memToFieldsMap := [(10, {2010})] }

/-- An allocator in the style of the spec: the identifier is a function of
base and offset, `(offset + 1) * 1000 + base`. -/
def demoAlloc (base offset _maxFieldLimit : Nat) : NodeID := (offset + 1) * 1000 + base

end SVFIR

/-! ## Basic facts about the substrate -/

namespace SVFIR

theorem getGNode_lookupOrCreate (s : SVFIR) (found : Option Nat) (e : SVFStmt) (i : NodeID) :
    (s.lookupOrCreate found e).2.getGNode i = s.getGNode i := by
  cases found <;> rfl

theorem edges_lookupOrCreate_none (s : SVFIR) (e : SVFStmt) :
    (s.lookupOrCreate none e).2.edges = s.edges ++ [e] := rfl

theorem lookupOrCreate_some (s : SVFIR) (i : Nat) (e : SVFStmt) :
    s.lookupOrCreate (some i) e = (i, s) := rfl

/-- After a lookup-or-create keyed by kind and node pair, the lookup finds the
returned edge. -/
theorem hasNonlabeledEdge_lookupOrCreate (s : SVFIR) (e : SVFStmt) :
    (s.lookupOrCreate (s.hasNonlabeledEdge e.src e.dst e.kind) e).2.hasNonlabeledEdge
        e.src e.dst e.kind
      = some (s.lookupOrCreate (s.hasNonlabeledEdge e.src e.dst e.kind) e).1 := by
  cases h : s.hasNonlabeledEdge e.src e.dst e.kind with
  | some i => simpa [lookupOrCreate] using h
  | none =>
    rw [hasNonlabeledEdge] at h
    simp only [lookupOrCreate, hasNonlabeledEdge, addEdge, addToStmt2TypeMap,
      List.findIdx?_append, h]
    simp

/-- After a lookup-or-create keyed by kind, node pair and label, the labeled
lookup finds the returned edge. -/
theorem hasLabeledEdge_lookupOrCreate (s : SVFIR) (e : SVFStmt) :
    (s.lookupOrCreate (s.hasLabeledEdge e.src e.dst e.kind e.label) e).2.hasLabeledEdge
        e.src e.dst e.kind e.label
      = some (s.lookupOrCreate (s.hasLabeledEdge e.src e.dst e.kind e.label) e).1 := by
  cases h : s.hasLabeledEdge e.src e.dst e.kind e.label with
  | some i => simpa [lookupOrCreate] using h
  | none =>
    rw [hasLabeledEdge] at h
    simp only [lookupOrCreate, hasLabeledEdge, addEdge, addToStmt2TypeMap,
      List.findIdx?_append, h]
    simp

/-- The edge returned by an unlabeled lookup-or-create has the requested kind
and end points. -/
theorem getStmt_lookupOrCreate_nonlabeled (s : SVFIR) (e : SVFStmt) :
    ∃ st, (s.lookupOrCreate (s.hasNonlabeledEdge e.src e.dst e.kind) e).2.getStmt
        (s.lookupOrCreate (s.hasNonlabeledEdge e.src e.dst e.kind) e).1 = some st ∧
      st.kind = e.kind ∧ st.src = e.src ∧ st.dst = e.dst := by
  cases h : s.hasNonlabeledEdge e.src e.dst e.kind with
  | some i =>
    rw [hasNonlabeledEdge, List.findIdx?_eq_some_iff_getElem] at h
    obtain ⟨hi, hp, -⟩ := h
    refine ⟨s.edges[i], ?_, ?_⟩
    · simp [lookupOrCreate, getStmt, hi]
    · simpa using hp
  | none =>
    refine ⟨e, ?_, rfl, rfl, rfl⟩
    simp [lookupOrCreate, getStmt, addEdge, addToStmt2TypeMap]

/-- The edge returned by a labeled lookup-or-create has the requested kind,
end points and label. -/
theorem getStmt_lookupOrCreate_labeled (s : SVFIR) (e : SVFStmt) :
    ∃ st, (s.lookupOrCreate (s.hasLabeledEdge e.src e.dst e.kind e.label) e).2.getStmt
        (s.lookupOrCreate (s.hasLabeledEdge e.src e.dst e.kind e.label) e).1 = some st ∧
      st.kind = e.kind ∧ st.src = e.src ∧ st.dst = e.dst ∧ st.label = e.label := by
  cases h : s.hasLabeledEdge e.src e.dst e.kind e.label with
  | some i =>
    rw [hasLabeledEdge, List.findIdx?_eq_some_iff_getElem] at h
    obtain ⟨hi, hp, -⟩ := h
    refine ⟨s.edges[i], ?_, ?_⟩
    · simp [lookupOrCreate, getStmt, hi]
    · simpa using hp
  | none =>
    refine ⟨e, ?_, rfl, rfl, rfl, rfl⟩
    simp [lookupOrCreate, getStmt, addEdge, addToStmt2TypeMap]

/-! ### The constructors in lookup-or-create form -/

theorem addAddrStmt_eq (s : SVFIR) (src dst : NodeID) :
    s.addAddrStmt src dst =
      if (s.getGNode src).isSome ∧ (s.getGNode dst).isSome then
        some (s.lookupOrCreate (s.hasNonlabeledEdge src dst PEDGEK.Addr)
          { kind := PEDGEK.Addr, src := src, dst := dst })
      else none := by
  unfold addAddrStmt lookupOrCreate
  cases s.getGNode src <;> cases s.getGNode dst <;> simp
  cases s.hasNonlabeledEdge src dst PEDGEK.Addr <;> rfl

theorem addCopyStmt_eq (s : SVFIR) (src dst : Nat) :
    s.addCopyStmt src dst =
      if (s.getGNode src).isSome ∧ (s.getGNode dst).isSome then
        some (s.lookupOrCreate (s.hasNonlabeledEdge src dst PEDGEK.Copy)
          { kind := PEDGEK.Copy, src := src, dst := dst })
      else none := by
  unfold addCopyStmt lookupOrCreate
  cases s.getGNode src <;> cases s.getGNode dst <;> simp
  cases s.hasNonlabeledEdge src dst PEDGEK.Copy <;> rfl

theorem addCmpStmt_eq (s : SVFIR) (op1 op2 dst code : Nat) :
    s.addCmpStmt op1 op2 dst code =
      if (s.getGNode op1).isSome ∧ (s.getGNode op2).isSome ∧ (s.getGNode dst).isSome then
        some (s.lookupOrCreate (s.hasLabeledEdge op1 dst PEDGEK.Cmp (EdgeLabel.opnd op2))
          { kind := PEDGEK.Cmp, src := op1, dst := dst, label := EdgeLabel.opnd op2,
            opVars := [op1, op2], opcode := code })
      else none := by
  unfold addCmpStmt lookupOrCreate
  cases s.getGNode op1 <;> cases s.getGNode op2 <;> cases s.getGNode dst <;> simp
  cases s.hasLabeledEdge op1 dst PEDGEK.Cmp (EdgeLabel.opnd op2) <;> rfl

theorem addBinaryOPStmt_eq (s : SVFIR) (op1 op2 dst code : Nat) :
    s.addBinaryOPStmt op1 op2 dst code =
      if (s.getGNode op1).isSome ∧ (s.getGNode op2).isSome ∧ (s.getGNode dst).isSome then
        some (s.lookupOrCreate (s.hasLabeledEdge op1 dst PEDGEK.BinaryOp (EdgeLabel.opnd op2))
          { kind := PEDGEK.BinaryOp, src := op1, dst := dst, label := EdgeLabel.opnd op2,
            opVars := [op1, op2], opcode := code })
      else none := by
  unfold addBinaryOPStmt lookupOrCreate
  cases s.getGNode op1 <;> cases s.getGNode op2 <;> cases s.getGNode dst <;> simp
  cases s.hasLabeledEdge op1 dst PEDGEK.BinaryOp (EdgeLabel.opnd op2) <;> rfl

theorem addUnaryOPStmt_eq (s : SVFIR) (src dst opcode : Nat) :
    s.addUnaryOPStmt src dst opcode =
      if (s.getGNode src).isSome ∧ (s.getGNode dst).isSome then
        some (s.lookupOrCreate (s.hasNonlabeledEdge src dst PEDGEK.UnaryOp)
          { kind := PEDGEK.UnaryOp, src := src, dst := dst, opcode := opcode })
      else none := by
  unfold addUnaryOPStmt lookupOrCreate
  cases s.getGNode src <;> cases s.getGNode dst <;> simp
  cases s.hasNonlabeledEdge src dst PEDGEK.UnaryOp <;> rfl

theorem addBranchStmt_eq (s : SVFIR) (br cond : Nat) (succs : List Nat) :
    s.addBranchStmt br cond succs =
      if (s.getGNode cond).isSome ∧ (s.getGNode br).isSome then
        some (s.lookupOrCreate (s.hasNonlabeledEdge cond br PEDGEK.Branch)
          { kind := PEDGEK.Branch, src := cond, dst := br, successors := succs })
      else none := by
  unfold addBranchStmt lookupOrCreate
  cases s.getGNode cond <;> cases s.getGNode br <;> simp
  cases s.hasNonlabeledEdge cond br PEDGEK.Branch <;> rfl

theorem addLoadStmt_eq (s : SVFIR) (src dst : Nat) :
    s.addLoadStmt src dst =
      if (s.getGNode src).isSome ∧ (s.getGNode dst).isSome then
        some (s.lookupOrCreate (s.hasNonlabeledEdge src dst PEDGEK.Load)
          { kind := PEDGEK.Load, src := src, dst := dst })
      else none := by
  unfold addLoadStmt lookupOrCreate
  cases s.getGNode src <;> cases s.getGNode dst <;> simp
  cases s.hasNonlabeledEdge src dst PEDGEK.Load <;> rfl

theorem addStoreStmt_eq (s : SVFIR) (src dst cs : Nat) :
    s.addStoreStmt src dst cs =
      if (s.getGNode src).isSome ∧ (s.getGNode dst).isSome then
        some (s.lookupOrCreate (s.hasLabeledEdge src dst PEDGEK.Store (EdgeLabel.icfgNode cs))
          { kind := PEDGEK.Store, src := src, dst := dst, label := EdgeLabel.icfgNode cs })
      else none := by
  unfold addStoreStmt lookupOrCreate
  cases s.getGNode src <;> cases s.getGNode dst <;> simp
  cases s.hasLabeledEdge src dst PEDGEK.Store (EdgeLabel.icfgNode cs) <;> rfl

theorem addCallPE_eq (s : SVFIR) (src dst cs : Nat) :
    s.addCallPE src dst cs =
      if (s.getGNode src).isSome ∧ (s.getGNode dst).isSome then
        some (s.lookupOrCreate (s.hasLabeledEdge src dst PEDGEK.Call (EdgeLabel.icfgNode cs))
          { kind := PEDGEK.Call, src := src, dst := dst, label := EdgeLabel.icfgNode cs })
      else none := by
  unfold addCallPE lookupOrCreate
  cases s.getGNode src <;> cases s.getGNode dst <;> simp
  cases s.hasLabeledEdge src dst PEDGEK.Call (EdgeLabel.icfgNode cs) <;> rfl

theorem addRetPE_eq (s : SVFIR) (src dst cs : Nat) :
    s.addRetPE src dst cs =
      if (s.getGNode src).isSome ∧ (s.getGNode dst).isSome then
        some (s.lookupOrCreate (s.hasLabeledEdge src dst PEDGEK.Ret (EdgeLabel.icfgNode cs))
          { kind := PEDGEK.Ret, src := src, dst := dst, label := EdgeLabel.icfgNode cs })
      else none := by
  unfold addRetPE lookupOrCreate
  cases s.getGNode src <;> cases s.getGNode dst <;> simp
  cases s.hasLabeledEdge src dst PEDGEK.Ret (EdgeLabel.icfgNode cs) <;> rfl

theorem addThreadForkPE_eq (s : SVFIR) (src dst cs : Nat) :
    s.addThreadForkPE src dst cs =
      if (s.getGNode src).isSome ∧ (s.getGNode dst).isSome then
        some (s.lookupOrCreate (s.hasLabeledEdge src dst PEDGEK.ThreadFork (EdgeLabel.icfgNode cs))
          { kind := PEDGEK.ThreadFork, src := src, dst := dst, label := EdgeLabel.icfgNode cs })
      else none := by
  unfold addThreadForkPE lookupOrCreate
  cases s.getGNode src <;> cases s.getGNode dst <;> simp
  cases s.hasLabeledEdge src dst PEDGEK.ThreadFork (EdgeLabel.icfgNode cs) <;> rfl

theorem addThreadJoinPE_eq (s : SVFIR) (src dst cs : Nat) :
    s.addThreadJoinPE src dst cs =
      if (s.getGNode src).isSome ∧ (s.getGNode dst).isSome then
        some (s.lookupOrCreate (s.hasLabeledEdge src dst PEDGEK.ThreadJoin (EdgeLabel.icfgNode cs))
          { kind := PEDGEK.ThreadJoin, src := src, dst := dst, label := EdgeLabel.icfgNode cs })
      else none := by
  unfold addThreadJoinPE lookupOrCreate
  cases s.getGNode src <;> cases s.getGNode dst <;> simp
  cases s.hasLabeledEdge src dst PEDGEK.ThreadJoin (EdgeLabel.icfgNode cs) <;> rfl

/-- Two successive calls of a constructor of unlabeled lookup-or-create form
return the same edge, and the second call leaves the graph as it is. -/
theorem twice_nonlabeled (f : SVFIR → Option (Nat × SVFIR)) (reg : SVFIR → Prop)
    [DecidablePred reg] (e : SVFStmt)
    (hreg : ∀ (u : SVFIR) (found : Option Nat), reg (u.lookupOrCreate found e).2 ↔ reg u)
    (hf : ∀ u : SVFIR, f u =
      if reg u then some (u.lookupOrCreate (u.hasNonlabeledEdge e.src e.dst e.kind) e)
      else none)
    (s : SVFIR) (hs : reg s) :
    ∃ i t st, f s = some (i, t) ∧ f t = some (i, t) ∧ t.getStmt i = some st ∧
      st.kind = e.kind ∧ st.src = e.src ∧ st.dst = e.dst := by
  obtain ⟨st, hst, hk⟩ := getStmt_lookupOrCreate_nonlabeled s e
  refine ⟨_, _, st, ?_, ?_, hst, hk⟩
  · rw [hf s, if_pos hs]
  · rw [hf, if_pos ((hreg s _).2 hs), hasNonlabeledEdge_lookupOrCreate, lookupOrCreate_some]

/-- Two successive calls of a constructor of labeled lookup-or-create form
return the same edge, and the second call leaves the graph as it is. -/
theorem twice_labeled (f : SVFIR → Option (Nat × SVFIR)) (reg : SVFIR → Prop)
    [DecidablePred reg] (e : SVFStmt)
    (hreg : ∀ (u : SVFIR) (found : Option Nat), reg (u.lookupOrCreate found e).2 ↔ reg u)
    (hf : ∀ u : SVFIR, f u =
      if reg u then some (u.lookupOrCreate (u.hasLabeledEdge e.src e.dst e.kind e.label) e)
      else none)
    (s : SVFIR) (hs : reg s) :
    ∃ i t st, f s = some (i, t) ∧ f t = some (i, t) ∧ t.getStmt i = some st ∧
      st.kind = e.kind ∧ st.src = e.src ∧ st.dst = e.dst ∧ st.label = e.label := by
  obtain ⟨st, hst, hk⟩ := getStmt_lookupOrCreate_labeled s e
  refine ⟨_, _, st, ?_, ?_, hst, hk⟩
  · rw [hf s, if_pos hs]
  · rw [hf, if_pos ((hreg s _).2 hs), hasLabeledEdge_lookupOrCreate, lookupOrCreate_some]

theorem addCopyStmt_twice (s : SVFIR) (src dst : NodeID)
    (hsrc : (s.getGNode src).isSome) (hdst : (s.getGNode dst).isSome) :
    SameEdgeTwice (fun u => u.addCopyStmt src dst) s PEDGEK.Copy src dst :=
  twice_nonlabeled (fun u => u.addCopyStmt src dst)
    (fun u => (u.getGNode src).isSome ∧ (u.getGNode dst).isSome)
    { kind := PEDGEK.Copy, src := src, dst := dst }
    (fun u found => by simp only [getGNode_lookupOrCreate])
    (fun u => addCopyStmt_eq u src dst) s ⟨hsrc, hdst⟩

/-! ## C1: idempotent construction -/

/-- On a graph without edges, AddrOf(o1,v1), Copy(v1,v2), Copy(v1,v2) leave
exactly one Copy edge v1->v2 and exactly one Address-of edge o1->v1. -/
theorem addr_copy_copy_fresh (s : SVFIR) (o1 v1 v2 : NodeID)
    (ho1 : (s.getGNode o1).isSome) (hv1 : (s.getGNode v1).isSome)
    (hv2 : (s.getGNode v2).isSome) (hE : s.edges = []) :
    ∃ e1 e2 t1 t2, s.addAddrStmt o1 v1 = some (e1, t1) ∧
      t1.addCopyStmt v1 v2 = some (e2, t2) ∧ t2.addCopyStmt v1 v2 = some (e2, t2) ∧
      t2.countEdges PEDGEK.Copy v1 v2 = 1 ∧ t2.countEdges PEDGEK.Addr o1 v1 = 1 := by
  have h1 : s.addAddrStmt o1 v1 = some (0, (s.addToStmt2TypeMap PEDGEK.Addr 0).addEdge o1 v1
      { kind := PEDGEK.Addr, src := o1, dst := v1 }) := by
    rw [addAddrStmt_eq, if_pos ⟨ho1, hv1⟩]
    simp [lookupOrCreate, hasNonlabeledEdge, hE]
  obtain ⟨e2, t2, st, h2, h3, -⟩ := addCopyStmt_twice
    ((s.addToStmt2TypeMap PEDGEK.Addr 0).addEdge o1 v1
      { kind := PEDGEK.Addr, src := o1, dst := v1 }) v1 v2 hv1 hv2
  simp only at h2 h3
  refine ⟨_, e2, _, t2, h1, h2, h3, ?_⟩
  rw [addCopyStmt_eq, if_pos ⟨hv1, hv2⟩] at h2
  simp only [lookupOrCreate, hasNonlabeledEdge, addEdge, addToStmt2TypeMap, hE, List.nil_append,
    List.findIdx?_cons, List.findIdx?_nil] at h2
  simp at h2
  obtain ⟨-, rfl⟩ := h2
  simp [countEdges, hE]

/-- C1. Idempotent construction: for every graph state and registered nodes,
calling addAddrStmt, addCopyStmt, addLoadStmt, addUnaryOPStmt or addBranchStmt
twice with identical arguments returns the same edge both times and the second
call changes nothing; and on a graph without edges AddrOf(src,dst),
Copy(dst,v2), Copy(dst,v2) leave exactly one Copy edge dst->v2 and exactly one
Address-of edge src->dst. -/
theorem idempotent_unlabeled_construction (s : SVFIR) (src dst v2 opcode : Nat)
    (succs : List Nat) (hsrc : (s.getGNode src).isSome) (hdst : (s.getGNode dst).isSome)
    (hv2 : (s.getGNode v2).isSome) :
    SameEdgeTwice (fun u => u.addAddrStmt src dst) s PEDGEK.Addr src dst ∧
    SameEdgeTwice (fun u => u.addCopyStmt src dst) s PEDGEK.Copy src dst ∧
    SameEdgeTwice (fun u => u.addLoadStmt src dst) s PEDGEK.Load src dst ∧
    SameEdgeTwice (fun u => u.addUnaryOPStmt src dst opcode) s PEDGEK.UnaryOp src dst ∧
    SameEdgeTwice (fun u => u.addBranchStmt dst src succs) s PEDGEK.Branch src dst ∧
    (s.edges = [] →
      ∃ e1 e2 t1 t2, s.addAddrStmt src dst = some (e1, t1) ∧
        t1.addCopyStmt dst v2 = some (e2, t2) ∧ t2.addCopyStmt dst v2 = some (e2, t2) ∧
        t2.countEdges PEDGEK.Copy dst v2 = 1 ∧ t2.countEdges PEDGEK.Addr src dst = 1) := by
  have hreg : ∀ (e : SVFStmt) (u : SVFIR) (found : Option Nat),
      ((u.lookupOrCreate found e).2.getGNode src).isSome ∧
        ((u.lookupOrCreate found e).2.getGNode dst).isSome ↔
      (u.getGNode src).isSome ∧ (u.getGNode dst).isSome := by
    intro e u found
    simp only [getGNode_lookupOrCreate]
  refine ⟨?_, addCopyStmt_twice s src dst hsrc hdst, ?_, ?_, ?_,
    addr_copy_copy_fresh s src dst v2 hsrc hdst hv2⟩
  · exact twice_nonlabeled (fun u => u.addAddrStmt src dst)
      (fun u => (u.getGNode src).isSome ∧ (u.getGNode dst).isSome)
      { kind := PEDGEK.Addr, src := src, dst := dst } (hreg _)
      (fun u => addAddrStmt_eq u src dst) s ⟨hsrc, hdst⟩
  · exact twice_nonlabeled (fun u => u.addLoadStmt src dst)
      (fun u => (u.getGNode src).isSome ∧ (u.getGNode dst).isSome)
      { kind := PEDGEK.Load, src := src, dst := dst } (hreg _)
      (fun u => addLoadStmt_eq u src dst) s ⟨hsrc, hdst⟩
  · exact twice_nonlabeled (fun u => u.addUnaryOPStmt src dst opcode)
      (fun u => (u.getGNode src).isSome ∧ (u.getGNode dst).isSome)
      { kind := PEDGEK.UnaryOp, src := src, dst := dst, opcode := opcode } (hreg _)
      (fun u => addUnaryOPStmt_eq u src dst opcode) s ⟨hsrc, hdst⟩
  · exact twice_nonlabeled (fun u => u.addBranchStmt dst src succs)
      (fun u => (u.getGNode src).isSome ∧ (u.getGNode dst).isSome)
      { kind := PEDGEK.Branch, src := src, dst := dst, successors := succs } (hreg _)
      (fun u => addBranchStmt_eq u dst src succs) s ⟨hsrc, hdst⟩

/-- C1 at the graph `demo`, with nodes 1, 2, 3, opcode 7 and successors [0, 1]. -/
theorem idempotent_unlabeled_construction_witness :
    (demo.getGNode 1).isSome ∧ (demo.getGNode 2).isSome ∧ (demo.getGNode 3).isSome ∧
    demo.edges = [] ∧
    SameEdgeTwice (fun u => u.addAddrStmt 1 2) demo PEDGEK.Addr 1 2 ∧
    SameEdgeTwice (fun u => u.addCopyStmt 1 2) demo PEDGEK.Copy 1 2 ∧
    SameEdgeTwice (fun u => u.addLoadStmt 1 2) demo PEDGEK.Load 1 2 ∧
    SameEdgeTwice (fun u => u.addUnaryOPStmt 1 2 7) demo PEDGEK.UnaryOp 1 2 ∧
    SameEdgeTwice (fun u => u.addBranchStmt 2 1 [0, 1]) demo PEDGEK.Branch 1 2 ∧
    (∃ e1 e2 t1 t2, demo.addAddrStmt 1 2 = some (e1, t1) ∧
        t1.addCopyStmt 2 3 = some (e2, t2) ∧ t2.addCopyStmt 2 3 = some (e2, t2) ∧
        t2.countEdges PEDGEK.Copy 2 3 = 1 ∧ t2.countEdges PEDGEK.Addr 1 2 = 1) :=
  have h := idempotent_unlabeled_construction demo 1 2 3 7 [0, 1] (by decide) (by decide)
    (by decide)
  ⟨by decide, by decide, by decide, rfl, h.1, h.2.1, h.2.2.1, h.2.2.2.1, h.2.2.2.2.1,
    h.2.2.2.2.2 rfl⟩

/-! ## C2: label discrimination -/

theorem getStmt_lookupOrCreate_of_getStmt (s : SVFIR) (found : Option Nat) (e st : SVFStmt)
    (i : Nat) (h : s.getStmt i = some st) : (s.lookupOrCreate found e).2.getStmt i = some st := by
  cases found with
  | some j => exact h
  | none =>
    simp only [getStmt] at h
    have hi : i < s.edges.length := (List.getElem?_eq_some_iff.1 h).1
    simp only [lookupOrCreate, getStmt, addEdge, addToStmt2TypeMap]
    rw [List.getElem?_append_left hi]
    exact h

/-- Two calls of a labeled lookup-or-create constructor with different labels
yield two different edges. -/
theorem distinct_labeled (f : Nat → SVFIR → Option (Nat × SVFIR)) (reg : SVFIR → Prop)
    [DecidablePred reg] (kind : PEDGEK) (src dst : NodeID) (mk : Nat → SVFStmt)
    (hmk : ∀ l, (mk l).kind = kind ∧ (mk l).src = src ∧ (mk l).dst = dst ∧
      (mk l).label = EdgeLabel.icfgNode l)
    (hreg : ∀ (u : SVFIR) (found : Option Nat) (e : SVFStmt),
      reg (u.lookupOrCreate found e).2 ↔ reg u)
    (hf : ∀ (l : Nat) (u : SVFIR), f l u =
      if reg u then
        some (u.lookupOrCreate (u.hasLabeledEdge src dst kind (EdgeLabel.icfgNode l)) (mk l))
      else none)
    (s : SVFIR) (hs : reg s) (l1 l2 : Nat) (hne : l1 ≠ l2) :
    DistinctEdgesForLabels f s kind src dst l1 l2 := by
  obtain ⟨hk1, hs1, hd1, hl1⟩ := hmk l1
  obtain ⟨hk2, hs2, hd2, hl2⟩ := hmk l2
  obtain ⟨st1, hst1, h1⟩ := getStmt_lookupOrCreate_labeled s (mk l1)
  rw [hk1, hs1, hd1, hl1] at hst1 h1
  obtain ⟨st2, hst2, h2⟩ := getStmt_lookupOrCreate_labeled
    (s.lookupOrCreate (s.hasLabeledEdge src dst kind (EdgeLabel.icfgNode l1)) (mk l1)).2 (mk l2)
  rw [hk2, hs2, hd2, hl2] at hst2 h2
  have hst1' := getStmt_lookupOrCreate_of_getStmt _
    ((s.lookupOrCreate (s.hasLabeledEdge src dst kind (EdgeLabel.icfgNode l1)) (mk l1)).2.hasLabeledEdge
      src dst kind (EdgeLabel.icfgNode l2)) (mk l2) st1 _ hst1
  refine ⟨_, (s.lookupOrCreate (s.hasLabeledEdge src dst kind (EdgeLabel.icfgNode l1)) (mk l1)).2,
    _, _, st1, st2, ?_, ?_, ?_, hst1', hst2, h1.1, h1.2.1, h1.2.2.1, h1.2.2.2,
    h2.1, h2.2.1, h2.2.2.1, h2.2.2.2⟩
  · rw [hf l1 s, if_pos hs]
  · rw [hf l2, if_pos ((hreg s _ _).2 hs)]
  · intro hEq
    rw [hEq, hst2] at hst1'
    have hlab : st2.label = st1.label := by rw [Option.some.inj hst1']
    rw [h1.2.2.2, h2.2.2.2] at hlab
    exact hne (by injection hlab with h; exact h.symm)

/-- C2. Label discrimination: for every graph state and registered nodes src,
dst, addStoreStmt with two different labels yields two distinct Store edges
between src and dst, while a second call with the same label returns the first
edge and changes nothing; the same holds for addCallPE, addRetPE,
addThreadForkPE and addThreadJoinPE with the call site as the label. -/
theorem label_discrimination (s : SVFIR) (src dst l1 l2 : Nat)
    (hsrc : (s.getGNode src).isSome) (hdst : (s.getGNode dst).isSome) (hne : l1 ≠ l2) :
    (DistinctEdgesForLabels (fun l u => u.addStoreStmt src dst l) s PEDGEK.Store src dst l1 l2 ∧
      SameLabeledEdgeTwice (fun u => u.addStoreStmt src dst l1) s PEDGEK.Store src dst
        (EdgeLabel.icfgNode l1)) ∧
    (DistinctEdgesForLabels (fun l u => u.addCallPE src dst l) s PEDGEK.Call src dst l1 l2 ∧
      SameLabeledEdgeTwice (fun u => u.addCallPE src dst l1) s PEDGEK.Call src dst
        (EdgeLabel.icfgNode l1)) ∧
    (DistinctEdgesForLabels (fun l u => u.addRetPE src dst l) s PEDGEK.Ret src dst l1 l2 ∧
      SameLabeledEdgeTwice (fun u => u.addRetPE src dst l1) s PEDGEK.Ret src dst
        (EdgeLabel.icfgNode l1)) ∧
    (DistinctEdgesForLabels (fun l u => u.addThreadForkPE src dst l) s PEDGEK.ThreadFork src dst l1 l2 ∧
      SameLabeledEdgeTwice (fun u => u.addThreadForkPE src dst l1) s PEDGEK.ThreadFork src dst
        (EdgeLabel.icfgNode l1)) ∧
    (DistinctEdgesForLabels (fun l u => u.addThreadJoinPE src dst l) s PEDGEK.ThreadJoin src dst l1 l2 ∧
      SameLabeledEdgeTwice (fun u => u.addThreadJoinPE src dst l1) s PEDGEK.ThreadJoin src dst
        (EdgeLabel.icfgNode l1)) := by
  have hreg : ∀ (u : SVFIR) (found : Option Nat) (e : SVFStmt),
      ((u.lookupOrCreate found e).2.getGNode src).isSome ∧
        ((u.lookupOrCreate found e).2.getGNode dst).isSome ↔
      (u.getGNode src).isSome ∧ (u.getGNode dst).isSome := by
    intro u found e
    simp only [getGNode_lookupOrCreate]
  refine ⟨?_, ?_, ?_, ?_, ?_⟩
  · exact ⟨distinct_labeled (fun l u => u.addStoreStmt src dst l)
        (fun u => (u.getGNode src).isSome ∧ (u.getGNode dst).isSome) PEDGEK.Store src dst
        (fun l => { kind := PEDGEK.Store, src := src, dst := dst, label := EdgeLabel.icfgNode l })
        (fun l => ⟨rfl, rfl, rfl, rfl⟩) hreg (fun l u => addStoreStmt_eq u src dst l) s ⟨hsrc, hdst⟩
        l1 l2 hne,
      twice_labeled (fun u => u.addStoreStmt src dst l1)
        (fun u => (u.getGNode src).isSome ∧ (u.getGNode dst).isSome)
        { kind := PEDGEK.Store, src := src, dst := dst, label := EdgeLabel.icfgNode l1 }
        (fun u found => hreg u found _) (fun u => addStoreStmt_eq u src dst l1) s ⟨hsrc, hdst⟩⟩
  · exact ⟨distinct_labeled (fun l u => u.addCallPE src dst l)
        (fun u => (u.getGNode src).isSome ∧ (u.getGNode dst).isSome) PEDGEK.Call src dst
        (fun l => { kind := PEDGEK.Call, src := src, dst := dst, label := EdgeLabel.icfgNode l })
        (fun l => ⟨rfl, rfl, rfl, rfl⟩) hreg (fun l u => addCallPE_eq u src dst l) s ⟨hsrc, hdst⟩
        l1 l2 hne,
      twice_labeled (fun u => u.addCallPE src dst l1)
        (fun u => (u.getGNode src).isSome ∧ (u.getGNode dst).isSome)
        { kind := PEDGEK.Call, src := src, dst := dst, label := EdgeLabel.icfgNode l1 }
        (fun u found => hreg u found _) (fun u => addCallPE_eq u src dst l1) s ⟨hsrc, hdst⟩⟩
  · exact ⟨distinct_labeled (fun l u => u.addRetPE src dst l)
        (fun u => (u.getGNode src).isSome ∧ (u.getGNode dst).isSome) PEDGEK.Ret src dst
        (fun l => { kind := PEDGEK.Ret, src := src, dst := dst, label := EdgeLabel.icfgNode l })
        (fun l => ⟨rfl, rfl, rfl, rfl⟩) hreg (fun l u => addRetPE_eq u src dst l) s ⟨hsrc, hdst⟩
        l1 l2 hne,
      twice_labeled (fun u => u.addRetPE src dst l1)
        (fun u => (u.getGNode src).isSome ∧ (u.getGNode dst).isSome)
        { kind := PEDGEK.Ret, src := src, dst := dst, label := EdgeLabel.icfgNode l1 }
        (fun u found => hreg u found _) (fun u => addRetPE_eq u src dst l1) s ⟨hsrc, hdst⟩⟩
  · exact ⟨distinct_labeled (fun l u => u.addThreadForkPE src dst l)
        (fun u => (u.getGNode src).isSome ∧ (u.getGNode dst).isSome) PEDGEK.ThreadFork src dst
        (fun l => { kind := PEDGEK.ThreadFork, src := src, dst := dst, label := EdgeLabel.icfgNode l })
        (fun l => ⟨rfl, rfl, rfl, rfl⟩) hreg (fun l u => addThreadForkPE_eq u src dst l) s ⟨hsrc, hdst⟩
        l1 l2 hne,
      twice_labeled (fun u => u.addThreadForkPE src dst l1)
        (fun u => (u.getGNode src).isSome ∧ (u.getGNode dst).isSome)
        { kind := PEDGEK.ThreadFork, src := src, dst := dst, label := EdgeLabel.icfgNode l1 }
        (fun u found => hreg u found _) (fun u => addThreadForkPE_eq u src dst l1) s ⟨hsrc, hdst⟩⟩
  · exact ⟨distinct_labeled (fun l u => u.addThreadJoinPE src dst l)
        (fun u => (u.getGNode src).isSome ∧ (u.getGNode dst).isSome) PEDGEK.ThreadJoin src dst
        (fun l => { kind := PEDGEK.ThreadJoin, src := src, dst := dst, label := EdgeLabel.icfgNode l })
        (fun l => ⟨rfl, rfl, rfl, rfl⟩) hreg (fun l u => addThreadJoinPE_eq u src dst l) s ⟨hsrc, hdst⟩
        l1 l2 hne,
      twice_labeled (fun u => u.addThreadJoinPE src dst l1)
        (fun u => (u.getGNode src).isSome ∧ (u.getGNode dst).isSome)
        { kind := PEDGEK.ThreadJoin, src := src, dst := dst, label := EdgeLabel.icfgNode l1 }
        (fun u found => hreg u found _) (fun u => addThreadJoinPE_eq u src dst l1) s ⟨hsrc, hdst⟩⟩

/-- C2 at the graph `demo`, with nodes 1, 2 and labels 7, 8. -/
theorem label_discrimination_witness :
    (demo.getGNode 1).isSome ∧ (demo.getGNode 2).isSome ∧ (7 : Nat) ≠ 8 ∧
    (DistinctEdgesForLabels (fun l u => u.addStoreStmt 1 2 l) demo PEDGEK.Store 1 2 7 8 ∧
      SameLabeledEdgeTwice (fun u => u.addStoreStmt 1 2 7) demo PEDGEK.Store 1 2
        (EdgeLabel.icfgNode 7)) ∧
    (DistinctEdgesForLabels (fun l u => u.addCallPE 1 2 l) demo PEDGEK.Call 1 2 7 8 ∧
      SameLabeledEdgeTwice (fun u => u.addCallPE 1 2 7) demo PEDGEK.Call 1 2
        (EdgeLabel.icfgNode 7)) ∧
    (DistinctEdgesForLabels (fun l u => u.addRetPE 1 2 l) demo PEDGEK.Ret 1 2 7 8 ∧
      SameLabeledEdgeTwice (fun u => u.addRetPE 1 2 7) demo PEDGEK.Ret 1 2
        (EdgeLabel.icfgNode 7)) ∧
    (DistinctEdgesForLabels (fun l u => u.addThreadForkPE 1 2 l) demo PEDGEK.ThreadFork 1 2 7 8 ∧
      SameLabeledEdgeTwice (fun u => u.addThreadForkPE 1 2 7) demo PEDGEK.ThreadFork 1 2
        (EdgeLabel.icfgNode 7)) ∧
    (DistinctEdgesForLabels (fun l u => u.addThreadJoinPE 1 2 l) demo PEDGEK.ThreadJoin 1 2 7 8 ∧
      SameLabeledEdgeTwice (fun u => u.addThreadJoinPE 1 2 7) demo PEDGEK.ThreadJoin 1 2
        (EdgeLabel.icfgNode 7)) :=
  ⟨by decide, by decide, by decide,
    label_discrimination demo 1 2 7 8 (by decide) (by decide) (by decide)⟩

/-! ## C3: Phi accumulation -/

theorem addPhiStmt_first (s : SVFIR) (res a : NodeID)
    (hres : (s.getGNode res).isSome) (ha : (s.getGNode a).isSome)
    (hphi : s.phiNodeMap.lookup res = none) :
    ∃ t, s.addPhiStmt res a = some (s.edges.length, t) ∧
      t.edges = s.edges ++ [{ kind := PEDGEK.Phi, src := a, dst := res, opVars := [a] }] ∧
      t.phiNodeMap = (res, s.edges.length) :: s.phiNodeMap ∧
      t.IDToNodeMap = s.IDToNodeMap := by
  obtain ⟨nr, hnr⟩ := Option.isSome_iff_exists.1 hres
  obtain ⟨na, hna⟩ := Option.isSome_iff_exists.1 ha
  have h : s.addPhiStmt res a = some (s.edges.length,
      { s with
        edges := s.edges ++ [{ kind := PEDGEK.Phi, src := a, dst := res, opVars := [a] }]
        KindToSVFStmtSetMap := s.KindToSVFStmtSetMap ++ [(PEDGEK.Phi, s.edges.length)]
        phiNodeMap := (res, s.edges.length) :: s.phiNodeMap }) := by
    simp [addPhiStmt, hnr, hna, hphi, addEdge, addToStmt2TypeMap]
  exact ⟨_, h, rfl, rfl, rfl⟩

theorem addPhiStmt_next (s : SVFIR) (res b p : NodeID) (phi : SVFStmt)
    (hres : (s.getGNode res).isSome) (hb : (s.getGNode b).isSome)
    (hphi : s.phiNodeMap.lookup res = some p) (hp : s.edges[p]? = some phi) :
    ∃ t, s.addPhiStmt res b = some (p, t) ∧ t.edges = s.edges.set p (addOpVar phi b) ∧
      t.phiNodeMap = s.phiNodeMap ∧ t.IDToNodeMap = s.IDToNodeMap := by
  obtain ⟨nr, hnr⟩ := Option.isSome_iff_exists.1 hres
  obtain ⟨nb, hnb⟩ := Option.isSome_iff_exists.1 hb
  have h : s.addPhiStmt res b =
      some (p, { s with edges := s.edges.set p (addOpVar phi b) }) := by
    simp [addPhiStmt, hnr, hnb, hphi, hp]
  exact ⟨_, h, rfl, rfl, rfl⟩

/-- C3. Phi accumulation: for a result node res without a Phi statement and
registered operands a, b, c, the calls addPhiStmt(res,a), addPhiStmt(res,b),
addPhiStmt(res,c) all return the same statement, a Phi edge into res whose
operand list is exactly [a, b, c]; the first call adds one edge and the second
and third add none. -/
theorem phi_accumulation (s : SVFIR) (res a b c : NodeID)
    (hres : (s.getGNode res).isSome) (ha : (s.getGNode a).isSome)
    (hb : (s.getGNode b).isSome) (hc : (s.getGNode c).isSome)
    (hphi : s.phiNodeMap.lookup res = none) :
    ∃ p t1 t2 t3 phi, s.addPhiStmt res a = some (p, t1) ∧ t1.addPhiStmt res b = some (p, t2) ∧
      t2.addPhiStmt res c = some (p, t3) ∧ t3.getStmt p = some phi ∧
      phi.kind = PEDGEK.Phi ∧ phi.dst = res ∧ phi.opVars = [a, b, c] ∧
      t1.edges.length = s.edges.length + 1 ∧ t2.edges.length = t1.edges.length ∧
      t3.edges.length = t2.edges.length := by
  obtain ⟨t1, h1, e1, m1, n1⟩ := addPhiStmt_first s res a hres ha hphi
  have reg1 : ∀ i, t1.getGNode i = s.getGNode i := fun i => by simp only [getGNode, n1]
  obtain ⟨t2, h2, e2, m2, n2⟩ := addPhiStmt_next t1 res b s.edges.length
    { kind := PEDGEK.Phi, src := a, dst := res, opVars := [a] }
    (by rw [reg1]; exact hres) (by rw [reg1]; exact hb) (by simp [m1]) (by simp [e1])
  have reg2 : ∀ i, t2.getGNode i = s.getGNode i := fun i => by simp only [getGNode, n2, n1]
  obtain ⟨t3, h3, e3, -, -⟩ := addPhiStmt_next t2 res c s.edges.length
    { kind := PEDGEK.Phi, src := a, dst := res, opVars := [a, b] }
    (by rw [reg2]; exact hres) (by rw [reg2]; exact hc) (by simp [m2, m1])
    (by simp [e2, e1, addOpVar])
  refine ⟨_, t1, t2, t3, { kind := PEDGEK.Phi, src := a, dst := res, opVars := [a, b, c] },
    h1, h2, h3, ?_, rfl, rfl, rfl, ?_, ?_, ?_⟩
  · simp [getStmt, e3, e2, e1, addOpVar]
  · simp [e1]
  · simp [e2]
  · simp [e3]

/-- C3 at the graph `demo`: result node 4 and operands 1, 2, 3. -/
theorem phi_accumulation_witness :
    (demo.getGNode 4).isSome ∧ (demo.getGNode 1).isSome ∧ (demo.getGNode 2).isSome ∧
    (demo.getGNode 3).isSome ∧ demo.phiNodeMap.lookup 4 = none ∧
    ∃ p t1 t2 t3 phi, demo.addPhiStmt 4 1 = some (p, t1) ∧ t1.addPhiStmt 4 2 = some (p, t2) ∧
      t2.addPhiStmt 4 3 = some (p, t3) ∧ t3.getStmt p = some phi ∧
      phi.kind = PEDGEK.Phi ∧ phi.dst = 4 ∧ phi.opVars = [1, 2, 3] ∧
      t1.edges.length = demo.edges.length + 1 ∧ t2.edges.length = t1.edges.length ∧
      t3.edges.length = t2.edges.length :=
  ⟨by decide, by decide, by decide, by decide, by decide,
    phi_accumulation demo 4 1 2 3 (by decide) (by decide) (by decide) (by decide) (by decide)⟩

/-! ## C4: uniqueness of edges per lookup key -/

theorem of_ite_some {α : Type} {c : Prop} [Decidable c] {x y : α}
    (h : (if c then some x else none) = some y) : c ∧ x = y := by
  by_cases hc : c
  · rw [if_pos hc] at h
    exact ⟨hc, Option.some.inj h⟩
  · rw [if_neg hc] at h
    cases h

theorem map_edgeKey_set (l : List SVFStmt) (i : Nat) (x : SVFStmt) (op : NodeID)
    (h : l[i]? = some x) : (l.set i (addOpVar x op)).map edgeKey = l.map edgeKey := by
  induction l generalizing i with
  | nil => simp
  | cons y ys ih =>
    cases i with
    | zero =>
      simp only [List.getElem?_cons_zero, Option.some.injEq] at h
      subst h
      simp [edgeKey, addOpVar]
    | succ n =>
      simp only [List.getElem?_cons_succ] at h
      simp [ih n h]

theorem countEdges_eq_key (s : SVFIR) (k : PEDGEK) (a b : NodeID) :
    s.countEdges k a b =
      ((s.edges.map edgeKey).filter
        (fun x => decide (x.1 = k ∧ x.2.1 = a ∧ x.2.2.1 = b))).length := by
  simp only [countEdges, List.filter_map, List.length_map]
  rfl

theorem countLabeledEdges_eq_key (s : SVFIR) (k : PEDGEK) (a b : NodeID) (l : EdgeLabel) :
    s.countLabeledEdges k a b l =
      ((s.edges.map edgeKey).filter
        (fun x => decide (x.1 = k ∧ x.2.1 = a ∧ x.2.2.1 = b ∧ x.2.2.2 = l))).length := by
  simp only [countLabeledEdges, List.filter_map, List.length_map]
  rfl

theorem countEdges_zero_of_none (s : SVFIR) (k : PEDGEK) (a b : NodeID)
    (h : s.hasNonlabeledEdge a b k = none) : s.countEdges k a b = 0 := by
  rw [hasNonlabeledEdge, List.findIdx?_eq_none_iff] at h
  simp only [countEdges, List.length_eq_zero, List.filter_eq_nil_iff]
  intro x hx
  simpa using h x hx

theorem countLabeledEdges_zero_of_none (s : SVFIR) (k : PEDGEK) (a b : NodeID) (l : EdgeLabel)
    (h : s.hasLabeledEdge a b k l = none) : s.countLabeledEdges k a b l = 0 := by
  rw [hasLabeledEdge, List.findIdx?_eq_none_iff] at h
  simp only [countLabeledEdges, List.length_eq_zero, List.filter_eq_nil_iff]
  intro x hx
  simpa using h x hx

/-- Uniqueness per lookup key survives every edge step. -/
theorem UniqueEdges.step {s t : SVFIR} (hs : UniqueEdges s) (h : EdgeStep s t) :
    UniqueEdges t := by
  rcases h with h | ⟨st, hst, hnew⟩
  · constructor
    · intro k a b hk
      rw [countEdges_eq_key, h, ← countEdges_eq_key]
      exact hs.1 k a b hk
    · intro k a b l hk hphi
      rw [countLabeledEdges_eq_key, h, ← countLabeledEdges_eq_key]
      exact hs.2 k a b l hk hphi
  · constructor
    · intro k a b hk
      have hold := hs.1 k a b hk
      simp only [countEdges, hst, List.filter_append, List.length_append] at hold ⊢
      by_cases hm : st.kind = k ∧ st.src = a ∧ st.dst = b
      · obtain ⟨rfl, rfl, rfl⟩ := hm
        rcases hnew with hp | ⟨-, hn⟩ | ⟨hu, -⟩
        · rw [hp] at hk; cases hk
        · have hz := countEdges_zero_of_none s _ _ _ hn
          simp only [countEdges] at hz
          rw [hz, Nat.zero_add]
          exact List.length_filter_le _ _
        · rw [hu] at hk; cases hk
      · have hnil : List.filter (fun e => decide (e.kind = k ∧ e.src = a ∧ e.dst = b)) [st]
            = [] := by simp [hm]
        rw [hnil, List.length_nil, Nat.add_zero]
        exact hold
    · intro k a b l hk hphi
      have hold := hs.2 k a b l hk hphi
      simp only [countLabeledEdges, hst, List.filter_append, List.length_append] at hold ⊢
      by_cases hm : st.kind = k ∧ st.src = a ∧ st.dst = b ∧ st.label = l
      · obtain ⟨rfl, rfl, rfl, rfl⟩ := hm
        rcases hnew with hp | ⟨hu, -⟩ | ⟨-, hn⟩
        · exact absurd hp hphi
        · rw [hu] at hk; cases hk
        · have hz := countLabeledEdges_zero_of_none s _ _ _ _ hn
          simp only [countLabeledEdges] at hz
          rw [hz, Nat.zero_add]
          exact List.length_filter_le _ _
      · have hnil : List.filter
            (fun e => decide (e.kind = k ∧ e.src = a ∧ e.dst = b ∧ e.label = l)) [st] = [] := by
          simp [hm]
        rw [hnil, List.length_nil, Nat.add_zero]
        exact hold

theorem EdgeStep.of_edges_eq {s t : SVFIR} (h : t.edges = s.edges) : EdgeStep s t :=
  Or.inl (by rw [h])

theorem edgeStep_lookupOrCreate_nonlabeled (s : SVFIR) (e : SVFStmt)
    (hU : isUnlabeledKind e.kind = true) :
    EdgeStep s (s.lookupOrCreate (s.hasNonlabeledEdge e.src e.dst e.kind) e).2 := by
  cases h : s.hasNonlabeledEdge e.src e.dst e.kind with
  | some i => exact EdgeStep.of_edges_eq rfl
  | none => exact Or.inr ⟨e, rfl, Or.inr (Or.inl ⟨hU, h⟩)⟩

theorem edgeStep_lookupOrCreate_labeled (s : SVFIR) (e : SVFStmt)
    (hU : isUnlabeledKind e.kind = false) :
    EdgeStep s (s.lookupOrCreate (s.hasLabeledEdge e.src e.dst e.kind e.label) e).2 := by
  cases h : s.hasLabeledEdge e.src e.dst e.kind e.label with
  | some i => exact EdgeStep.of_edges_eq rfl
  | none => exact Or.inr ⟨e, rfl, Or.inr (Or.inr ⟨hU, h⟩)⟩

theorem edgeStep_addAddrStmt {s t : SVFIR} {e : Nat} (src dst : Nat)
    (h : s.addAddrStmt src dst = some (e, t)) : EdgeStep s t := by
  rw [addAddrStmt_eq] at h
  obtain ⟨-, ht⟩ := of_ite_some h
  have := edgeStep_lookupOrCreate_nonlabeled s
    { kind := PEDGEK.Addr, src := src, dst := dst } rfl
  rw [ht] at this
  exact this

theorem edgeStep_addCopyStmt {s t : SVFIR} {e : Nat} (src dst : Nat)
    (h : s.addCopyStmt src dst = some (e, t)) : EdgeStep s t := by
  rw [addCopyStmt_eq] at h
  obtain ⟨-, ht⟩ := of_ite_some h
  have := edgeStep_lookupOrCreate_nonlabeled s
    { kind := PEDGEK.Copy, src := src, dst := dst } rfl
  rw [ht] at this
  exact this

theorem edgeStep_addCmpStmt {s t : SVFIR} {e : Nat} (op1 op2 dst code : Nat)
    (h : s.addCmpStmt op1 op2 dst code = some (e, t)) : EdgeStep s t := by
  rw [addCmpStmt_eq] at h
  obtain ⟨-, ht⟩ := of_ite_some h
  have := edgeStep_lookupOrCreate_labeled s
    { kind := PEDGEK.Cmp, src := op1, dst := dst, label := EdgeLabel.opnd op2, opVars := [op1, op2], opcode := code } rfl
  rw [ht] at this
  exact this

theorem edgeStep_addBinaryOPStmt {s t : SVFIR} {e : Nat} (op1 op2 dst code : Nat)
    (h : s.addBinaryOPStmt op1 op2 dst code = some (e, t)) : EdgeStep s t := by
  rw [addBinaryOPStmt_eq] at h
  obtain ⟨-, ht⟩ := of_ite_some h
  have := edgeStep_lookupOrCreate_labeled s
    { kind := PEDGEK.BinaryOp, src := op1, dst := dst, label := EdgeLabel.opnd op2, opVars := [op1, op2], opcode := code } rfl
  rw [ht] at this
  exact this

theorem edgeStep_addUnaryOPStmt {s t : SVFIR} {e : Nat} (src dst opcode : Nat)
    (h : s.addUnaryOPStmt src dst opcode = some (e, t)) : EdgeStep s t := by
  rw [addUnaryOPStmt_eq] at h
  obtain ⟨-, ht⟩ := of_ite_some h
  have := edgeStep_lookupOrCreate_nonlabeled s
    { kind := PEDGEK.UnaryOp, src := src, dst := dst, opcode := opcode } rfl
  rw [ht] at this
  exact this

theorem edgeStep_addBranchStmt {s t : SVFIR} {e : Nat} (br cond : Nat) (succs : List Nat)
    (h : s.addBranchStmt br cond succs = some (e, t)) : EdgeStep s t := by
  rw [addBranchStmt_eq] at h
  obtain ⟨-, ht⟩ := of_ite_some h
  have := edgeStep_lookupOrCreate_nonlabeled s
    { kind := PEDGEK.Branch, src := cond, dst := br, successors := succs } rfl
  rw [ht] at this
  exact this

theorem edgeStep_addLoadStmt {s t : SVFIR} {e : Nat} (src dst : Nat)
    (h : s.addLoadStmt src dst = some (e, t)) : EdgeStep s t := by
  rw [addLoadStmt_eq] at h
  obtain ⟨-, ht⟩ := of_ite_some h
  have := edgeStep_lookupOrCreate_nonlabeled s
    { kind := PEDGEK.Load, src := src, dst := dst } rfl
  rw [ht] at this
  exact this

theorem edgeStep_addStoreStmt {s t : SVFIR} {e : Nat} (src dst cs : Nat)
    (h : s.addStoreStmt src dst cs = some (e, t)) : EdgeStep s t := by
  rw [addStoreStmt_eq] at h
  obtain ⟨-, ht⟩ := of_ite_some h
  have := edgeStep_lookupOrCreate_labeled s
    { kind := PEDGEK.Store, src := src, dst := dst, label := EdgeLabel.icfgNode cs } rfl
  rw [ht] at this
  exact this

theorem edgeStep_addCallPE {s t : SVFIR} {e : Nat} (src dst cs : Nat)
    (h : s.addCallPE src dst cs = some (e, t)) : EdgeStep s t := by
  rw [addCallPE_eq] at h
  obtain ⟨-, ht⟩ := of_ite_some h
  have := edgeStep_lookupOrCreate_labeled s
    { kind := PEDGEK.Call, src := src, dst := dst, label := EdgeLabel.icfgNode cs } rfl
  rw [ht] at this
  exact this

theorem edgeStep_addRetPE {s t : SVFIR} {e : Nat} (src dst cs : Nat)
    (h : s.addRetPE src dst cs = some (e, t)) : EdgeStep s t := by
  rw [addRetPE_eq] at h
  obtain ⟨-, ht⟩ := of_ite_some h
  have := edgeStep_lookupOrCreate_labeled s
    { kind := PEDGEK.Ret, src := src, dst := dst, label := EdgeLabel.icfgNode cs } rfl
  rw [ht] at this
  exact this

theorem edgeStep_addThreadForkPE {s t : SVFIR} {e : Nat} (src dst cs : Nat)
    (h : s.addThreadForkPE src dst cs = some (e, t)) : EdgeStep s t := by
  rw [addThreadForkPE_eq] at h
  obtain ⟨-, ht⟩ := of_ite_some h
  have := edgeStep_lookupOrCreate_labeled s
    { kind := PEDGEK.ThreadFork, src := src, dst := dst, label := EdgeLabel.icfgNode cs } rfl
  rw [ht] at this
  exact this

theorem edgeStep_addThreadJoinPE {s t : SVFIR} {e : Nat} (src dst cs : Nat)
    (h : s.addThreadJoinPE src dst cs = some (e, t)) : EdgeStep s t := by
  rw [addThreadJoinPE_eq] at h
  obtain ⟨-, ht⟩ := of_ite_some h
  have := edgeStep_lookupOrCreate_labeled s
    { kind := PEDGEK.ThreadJoin, src := src, dst := dst, label := EdgeLabel.icfgNode cs } rfl
  rw [ht] at this
  exact this

theorem edgeStep_addBlackHoleAddrStmt {s t : SVFIR} {e : Nat} (n : NodeID)
    (h : s.addBlackHoleAddrStmt n = some (e, t)) : EdgeStep s t := by
  unfold addBlackHoleAddrStmt at h
  split at h
  · exact edgeStep_addAddrStmt _ _ h
  · exact edgeStep_addCopyStmt _ _ h

theorem edgeStep_addPhiStmt {s t : SVFIR} {e : Nat} (res op : NodeID)
    (h : s.addPhiStmt res op = some (e, t)) : EdgeStep s t := by
  unfold addPhiStmt at h
  split at h
  · split at h
    · simp only [Option.some.injEq, Prod.mk.injEq] at h
      obtain ⟨-, rfl⟩ := h
      exact Or.inr ⟨_, rfl, Or.inl rfl⟩
    · split at h
      · rename_i phi hphi
        simp only [Option.some.injEq, Prod.mk.injEq] at h
        obtain ⟨-, rfl⟩ := h
        exact Or.inl (map_edgeKey_set _ _ _ _ hphi)
      · cases h
  · cases h

/-! ### The Gep constructors in lookup-or-create form -/

theorem addNormalGepStmt_of_base (s : SVFIR) (src dst base : NodeID) (ls baseLS : LocationSet)
    (hLS : s.getLocationSetFromBaseNode src = some baseLS)
    (hB : s.getBaseValVar src = some base) :
    s.addNormalGepStmt src dst ls =
      if (s.getGNode base).isSome ∧ (s.getGNode dst).isSome then
        some (s.lookupOrCreate (s.hasNonlabeledEdge base dst PEDGEK.NormalGep)
          { kind := PEDGEK.NormalGep, src := base, dst := dst, ls := ls + baseLS })
      else none := by
  unfold addNormalGepStmt lookupOrCreate
  simp only [hLS, hB]
  cases s.getGNode base <;> cases s.getGNode dst <;> simp
  cases s.hasNonlabeledEdge base dst PEDGEK.NormalGep <;> rfl

theorem addNormalGepStmt_some {s t : SVFIR} {e : Nat} (src dst : NodeID) (ls : LocationSet)
    (h : s.addNormalGepStmt src dst ls = some (e, t)) :
    ∃ base baseLS, s.getLocationSetFromBaseNode src = some baseLS ∧
      s.getBaseValVar src = some base ∧
      (s.getGNode base).isSome ∧ (s.getGNode dst).isSome ∧
      s.lookupOrCreate (s.hasNonlabeledEdge base dst PEDGEK.NormalGep)
        { kind := PEDGEK.NormalGep, src := base, dst := dst, ls := ls + baseLS } = (e, t) := by
  cases hLS : s.getLocationSetFromBaseNode src with
  | none => simp [addNormalGepStmt, hLS] at h
  | some baseLS =>
    cases hB : s.getBaseValVar src with
    | none => simp [addNormalGepStmt, hLS, hB] at h
    | some base =>
      rw [addNormalGepStmt_of_base s src dst base ls baseLS hLS hB] at h
      obtain ⟨hreg, ht⟩ := of_ite_some h
      exact ⟨base, baseLS, rfl, rfl, hreg.1, hreg.2, ht⟩

theorem addVariantGepStmt_of_base (s : SVFIR) (src dst base : NodeID)
    (hB : s.getBaseValVar src = some base) :
    s.addVariantGepStmt src dst =
      if (s.getGNode base).isSome ∧ (s.getGNode dst).isSome then
        some (s.lookupOrCreate (s.hasNonlabeledEdge base dst PEDGEK.VariantGep)
          { kind := PEDGEK.VariantGep, src := base, dst := dst })
      else none := by
  unfold addVariantGepStmt lookupOrCreate
  simp only [hB]
  cases s.getGNode base <;> cases s.getGNode dst <;> simp
  cases s.hasNonlabeledEdge base dst PEDGEK.VariantGep <;> rfl

theorem addVariantGepStmt_some {s t : SVFIR} {e : Nat} (src dst : NodeID)
    (h : s.addVariantGepStmt src dst = some (e, t)) :
    ∃ base, s.getBaseValVar src = some base ∧
      (s.getGNode base).isSome ∧ (s.getGNode dst).isSome ∧
      s.lookupOrCreate (s.hasNonlabeledEdge base dst PEDGEK.VariantGep)
        { kind := PEDGEK.VariantGep, src := base, dst := dst } = (e, t) := by
  cases hB : s.getBaseValVar src with
  | none => simp [addVariantGepStmt, hB] at h
  | some base =>
    rw [addVariantGepStmt_of_base s src dst base hB] at h
    obtain ⟨hreg, ht⟩ := of_ite_some h
    exact ⟨base, rfl, hreg.1, hreg.2, ht⟩

theorem addGepStmt_eq (s : SVFIR) (src dst : NodeID) (ls : LocationSet) (constGep : Bool)
    (hsrc : (s.getGNode src).isSome) :
    s.addGepStmt src dst ls constGep =
      if (!constGep || s.hasIncomingVariantGepEdge src) = true then s.addVariantGepStmt src dst
      else s.addNormalGepStmt src dst ls := by
  obtain ⟨n, hn⟩ := Option.isSome_iff_exists.1 hsrc
  simp only [addGepStmt, hn]

theorem edgeStep_addNormalGepStmt {s t : SVFIR} {e : Nat} (src dst : NodeID) (ls : LocationSet)
    (h : s.addNormalGepStmt src dst ls = some (e, t)) : EdgeStep s t := by
  obtain ⟨base, baseLS, -, -, -, -, ht⟩ := addNormalGepStmt_some src dst ls h
  have := edgeStep_lookupOrCreate_nonlabeled s
    { kind := PEDGEK.NormalGep, src := base, dst := dst, ls := ls + baseLS } rfl
  rw [ht] at this
  exact this

theorem edgeStep_addVariantGepStmt {s t : SVFIR} {e : Nat} (src dst : NodeID)
    (h : s.addVariantGepStmt src dst = some (e, t)) : EdgeStep s t := by
  obtain ⟨base, -, -, -, ht⟩ := addVariantGepStmt_some src dst h
  have := edgeStep_lookupOrCreate_nonlabeled s
    { kind := PEDGEK.VariantGep, src := base, dst := dst } rfl
  rw [ht] at this
  exact this

theorem edgeStep_addGepStmt {s t : SVFIR} {e : Nat} (src dst : NodeID) (ls : LocationSet)
    (c : Bool) (h : s.addGepStmt src dst ls c = some (e, t)) : EdgeStep s t := by
  unfold addGepStmt at h
  split at h
  · cases h
  · split at h
    · exact edgeStep_addVariantGepStmt _ _ h
    · exact edgeStep_addNormalGepStmt _ _ _ h

theorem getGepObjVar_edges {al : NodeID → Nat → Nat → NodeID} {s t : SVFIR} {i : NodeID}
    (obj : MemObj) (ls : LocationSet) (h : getGepObjVar al s obj ls = some (i, t)) :
    t.edges = s.edges := by
  unfold getGepObjVar at h
  simp only at h
  split at h
  · simp only [Option.some.injEq, Prod.mk.injEq] at h
    rw [← h.2]
  · split at h
    · simp only [Option.some.injEq, Prod.mk.injEq] at h
      rw [← h.2]
    · split at h
      · unfold addGepObjNode at h
        simp only at h
        split at h
        · cases h
        · simp only [Option.some.injEq] at h
          rw [← (Prod.mk.inj h).2]
          rfl
      · simp only [Option.some.injEq, Prod.mk.injEq] at h
        rw [← h.2]

/-- Every reachable state has at most one edge per lookup key. -/
theorem Reachable.uniqueEdges {s : SVFIR} (h : Reachable s) : UniqueEdges s := by
  induction h with
  | init s hE hP hK =>
    constructor
    · intro k a b _
      simp [countEdges, hE]
    · intro k a b l _ _
      simp [countLabeledEdges, hE]
  | node i n _ ih => exact ih.step (EdgeStep.of_edges_eq rfl)
  | addr a b _ h ih => exact ih.step (edgeStep_addAddrStmt a b h)
  | copy a b _ h ih => exact ih.step (edgeStep_addCopyStmt a b h)
  | phi res op _ h ih => exact ih.step (edgeStep_addPhiStmt res op h)
  | cmp a b d p _ h ih => exact ih.step (edgeStep_addCmpStmt a b d p h)
  | binary a b d p _ h ih => exact ih.step (edgeStep_addBinaryOPStmt a b d p h)
  | unary a b p _ h ih => exact ih.step (edgeStep_addUnaryOPStmt a b p h)
  | branch br cond succs _ h ih => exact ih.step (edgeStep_addBranchStmt br cond succs h)
  | load a b _ h ih => exact ih.step (edgeStep_addLoadStmt a b h)
  | store a b l _ h ih => exact ih.step (edgeStep_addStoreStmt a b l h)
  | call a b l _ h ih => exact ih.step (edgeStep_addCallPE a b l h)
  | ret a b l _ h ih => exact ih.step (edgeStep_addRetPE a b l h)
  | blackHole n _ h ih => exact ih.step (edgeStep_addBlackHoleAddrStmt n h)
  | fork a b l _ h ih => exact ih.step (edgeStep_addThreadForkPE a b l h)
  | join a b l _ h ih => exact ih.step (edgeStep_addThreadJoinPE a b l h)
  | gep a b ls c _ h ih => exact ih.step (edgeStep_addGepStmt a b ls c h)
  | normalGep a b ls _ h ih => exact ih.step (edgeStep_addNormalGepStmt a b ls h)
  | variantGep a b _ h ih => exact ih.step (edgeStep_addVariantGepStmt a b h)
  | gepObj al obj ls _ h ih => exact ih.step (EdgeStep.of_edges_eq (getGepObjVar_edges obj ls h))
  | fiObj obj _ ih => exact ih.step (EdgeStep.of_edges_eq rfl)
  | blackHoleFlag b _ ih => exact ih.step (EdgeStep.of_edges_eq rfl)

theorem addCmpStmt_demo : demo.addCmpStmt 1 2 4 0 = some (0, demoOneCmp) := by decide

theorem addCmpStmt_demoOneCmp : demoOneCmp.addCmpStmt 1 3 4 0 = some (1, demoTwoCmp) := by
  decide

theorem reachable_demoTwoCmp : Reachable demoTwoCmp :=
  Reachable.cmp 1 3 4 0 (Reachable.cmp 1 2 4 0 (Reachable.init demo rfl rfl rfl) addCmpStmt_demo)
    addCmpStmt_demoOneCmp

/-- C4, as stated, fails: on the graph `demo`, addCmpStmt(1, 2, 4, 0) followed by
addCmpStmt(1, 3, 4, 0) reaches a state with two Compare edges between the
ordered pair (1, 4), and likewise addBinaryOPStmt gives two Binary-Op edges;
so not every reachable state has at most one edge per pair for each of the
nine kinds the claim lists. -/
theorem unlabeled_uniqueness_fails_for_cmp :
    (demo.addCmpStmt 1 2 4 0 = some (0, demoOneCmp) ∧
      demoOneCmp.addCmpStmt 1 3 4 0 = some (1, demoTwoCmp) ∧
      demoTwoCmp.countEdges PEDGEK.Cmp 1 4 = 2) ∧
    (∃ t1 t2, demo.addBinaryOPStmt 1 2 4 0 = some (0, t1) ∧
      t1.addBinaryOPStmt 1 3 4 0 = some (1, t2) ∧ t2.countEdges PEDGEK.BinaryOp 1 4 = 2) ∧
    ¬ (∀ s : SVFIR, Reachable s →
        ∀ k ∈ [PEDGEK.Addr, PEDGEK.Copy, PEDGEK.Cmp, PEDGEK.BinaryOp, PEDGEK.UnaryOp,
          PEDGEK.Branch, PEDGEK.Load, PEDGEK.NormalGep, PEDGEK.VariantGep],
        ∀ a b, s.countEdges k a b ≤ 1) := by
  refine ⟨⟨addCmpStmt_demo, addCmpStmt_demoOneCmp, by decide⟩,
    ⟨_, _, rfl, rfl, by decide⟩, ?_⟩
  intro h
  have h2 := h demoTwoCmp reachable_demoTwoCmp PEDGEK.Cmp (by simp) 1 4
  revert h2
  decide

/-- C4, amended. In every state reachable from a graph without edges through
the construction calls, at most one edge exists between any ordered node pair
for each of the kinds Address-of, Copy, Unary-Op, Branch, Load, Normal-Gep and
Variant-Gep; for Compare and Binary-Op at most one edge exists per ordered
pair (first operand, result) and second operand. -/
theorem unique_edges_per_lookup_key (s : SVFIR) (h : Reachable s) :
    (∀ k ∈ [PEDGEK.Addr, PEDGEK.Copy, PEDGEK.UnaryOp, PEDGEK.Branch, PEDGEK.Load,
        PEDGEK.NormalGep, PEDGEK.VariantGep],
      ∀ a b, s.countEdges k a b ≤ 1) ∧
    (∀ k ∈ [PEDGEK.Cmp, PEDGEK.BinaryOp],
      ∀ op1 dst op2, s.countLabeledEdges k op1 dst (EdgeLabel.opnd op2) ≤ 1) := by
  have hu := h.uniqueEdges
  constructor
  · intro k hk a b
    apply hu.1
    simp only [List.mem_cons, List.mem_singleton, List.not_mem_nil, or_false] at hk
    rcases hk with rfl | rfl | rfl | rfl | rfl | rfl | rfl <;> rfl
  · intro k hk op1 dst op2
    simp only [List.mem_cons, List.mem_singleton, List.not_mem_nil, or_false] at hk
    rcases hk with rfl | rfl
    · exact hu.2 _ _ _ _ rfl (by decide)
    · exact hu.2 _ _ _ _ rfl (by decide)

/-- C4, amended, at the reachable graph `demoTwoCmp`. -/
theorem unique_edges_per_lookup_key_witness :
    Reachable demoTwoCmp ∧
    (∀ k ∈ [PEDGEK.Addr, PEDGEK.Copy, PEDGEK.UnaryOp, PEDGEK.Branch, PEDGEK.Load,
        PEDGEK.NormalGep, PEDGEK.VariantGep],
      ∀ a b, demoTwoCmp.countEdges k a b ≤ 1) ∧
    (∀ k ∈ [PEDGEK.Cmp, PEDGEK.BinaryOp],
      ∀ op1 dst op2, demoTwoCmp.countLabeledEdges k op1 dst (EdgeLabel.opnd op2) ≤ 1) :=
  ⟨reachable_demoTwoCmp, unique_edges_per_lookup_key demoTwoCmp reachable_demoTwoCmp⟩

/-! ## Field-object resolution: C5 - C9 -/

theorem getModulusOffset_add_limit (obj : MemObj) (o : Nat) :
    getModulusOffset obj ⟨o + obj.getMaxFieldOffsetLimit⟩ = getModulusOffset obj ⟨o⟩ := by
  simp [getModulusOffset]

theorem getGepObjVar_congr (al : NodeID → Nat → Nat → NodeID) (s : SVFIR) (obj : MemObj)
    (ls1 ls2 : LocationSet) (h : getModulusOffset obj ls1 = getModulusOffset obj ls2) :
    getGepObjVar al s obj ls1 = getGepObjVar al s obj ls2 := by
  simp only [getGepObjVar, h]

/-- The result of `getGepObjVar` on a field-insensitive object. -/
theorem getGepObjVar_fieldInsensitive (al : NodeID → Nat → Nat → NodeID) (s : SVFIR)
    (obj : MemObj) (ls : LocationSet) (h : obj.isFieldInsensitive = true) :
    getGepObjVar al s obj ls = some (getFIObjVar obj, s) := by
  simp [getGepObjVar, h]

/-- The result of `getGepObjVar` when the first field is the base. -/
theorem getGepObjVar_firstField (al : NodeID → Nat → Nat → NodeID) (s : SVFIR)
    (obj : MemObj) (ls : LocationSet) (h : obj.isFieldInsensitive = false)
    (hF : s.FirstFieldEqBase = true) (h0 : (getModulusOffset obj ls).getOffset = 0) :
    getGepObjVar al s obj ls = some (obj.getId, s) := by
  simp [getGepObjVar, h, hF, h0]

/-- The result of `getGepObjVar` when the field-object map has the entry. -/
theorem getGepObjVar_found (al : NodeID → Nat → Nat → NodeID) (s : SVFIR)
    (obj : MemObj) (ls : LocationSet) (id : NodeID) (h : obj.isFieldInsensitive = false)
    (hF : (s.FirstFieldEqBase && (getModulusOffset obj ls).getOffset == 0) = false)
    (hL : s.GepObjVarMap.lookup (obj.getId, getModulusOffset obj ls) = some id) :
    getGepObjVar al s obj ls = some (id, s) := by
  simp only [getGepObjVar, h, hF, hL]
  simp

/-- The result of `getGepObjVar` when the field-object map lacks the entry: a
node is allocated and registered. -/
theorem getGepObjVar_fresh (al : NodeID → Nat → Nat → NodeID) (s : SVFIR)
    (obj : MemObj) (ls : LocationSet) (h : obj.isFieldInsensitive = false)
    (hF : (s.FirstFieldEqBase && (getModulusOffset obj ls).getOffset == 0) = false)
    (hL : s.GepObjVarMap.lookup (obj.getId, getModulusOffset obj ls) = none) :
    getGepObjVar al s obj ls =
      some (al obj.getId (getModulusOffset obj ls).getOffset s.maxFieldLimit,
        { s with
          GepObjVarMap := ((obj.getId, getModulusOffset obj ls),
            al obj.getId (getModulusOffset obj ls).getOffset s.maxFieldLimit) :: s.GepObjVarMap
          memToFieldsMap := (obj.getId,
            insert (al obj.getId (getModulusOffset obj ls).getOffset s.maxFieldLimit)
              (s.memToFields obj.getId)) :: s.memToFieldsMap
          IDToNodeMap := (al obj.getId (getModulusOffset obj ls).getOffset s.maxFieldLimit,
            { kind := PNODEK.GepObjNode, memObj := some obj, ls := getModulusOffset obj ls })
            :: s.IDToNodeMap }) := by
  simp only [getGepObjVar, h, hF, hL, addGepObjNode]
  simp [setMemToFields, addObjNode, addGNode, memToFields]

/-- Resolution always returns, and resolving again right away returns the same
identifier and leaves the state as it is. -/
theorem getGepObjVar_twice (al : NodeID → Nat → Nat → NodeID) (s : SVFIR) (obj : MemObj)
    (ls : LocationSet) :
    ∃ i t, getGepObjVar al s obj ls = some (i, t) ∧ getGepObjVar al t obj ls = some (i, t) := by
  cases h : obj.isFieldInsensitive with
  | true => exact ⟨_, _, getGepObjVar_fieldInsensitive al s obj ls h,
      getGepObjVar_fieldInsensitive al s obj ls h⟩
  | false =>
    cases hF : (s.FirstFieldEqBase && (getModulusOffset obj ls).getOffset == 0) with
    | true =>
      simp only [Bool.and_eq_true, beq_iff_eq] at hF
      exact ⟨_, _, getGepObjVar_firstField al s obj ls h hF.1 hF.2,
        getGepObjVar_firstField al s obj ls h hF.1 hF.2⟩
    | false =>
      cases hL : s.GepObjVarMap.lookup (obj.getId, getModulusOffset obj ls) with
      | some id => exact ⟨_, _, getGepObjVar_found al s obj ls id h hF hL,
          getGepObjVar_found al s obj ls id h hF hL⟩
      | none =>
        refine ⟨_, _, getGepObjVar_fresh al s obj ls h hF hL, ?_⟩
        exact getGepObjVar_found al _ obj ls _ h hF (by simp)

/-- C5. Field wrap-around: for an object with maximum field count k > 0 and
every offset o, getGepObjVar(obj, o) and getGepObjVar(obj, o + k) return the
same node identifier, whether both are resolved in the same state or one after
the other; both equal the resolution of o modulo k. -/
theorem field_wrap_around (al : NodeID → Nat → Nat → NodeID) (s : SVFIR) (obj : MemObj)
    (o : Nat) (hk : 0 < obj.getMaxFieldOffsetLimit) :
    getGepObjVar al s obj ⟨o + obj.getMaxFieldOffsetLimit⟩ = getGepObjVar al s obj ⟨o⟩ ∧
    getGepObjVar al s obj ⟨o⟩ = getGepObjVar al s obj ⟨o % obj.getMaxFieldOffsetLimit⟩ ∧
    (o % obj.getMaxFieldOffsetLimit < obj.getMaxFieldOffsetLimit) ∧
    ∃ i t, getGepObjVar al s obj ⟨o⟩ = some (i, t) ∧
      getGepObjVar al t obj ⟨o + obj.getMaxFieldOffsetLimit⟩ = some (i, t) := by
  refine ⟨getGepObjVar_congr al s obj _ _ (getModulusOffset_add_limit obj o),
    getGepObjVar_congr al s obj _ _ (by simp [getModulusOffset]), Nat.mod_lt _ hk, ?_⟩
  obtain ⟨i, t, h1, h2⟩ := getGepObjVar_twice al s obj ⟨o⟩
  exact ⟨i, t, h1, by
    rw [getGepObjVar_congr al t obj _ _ (getModulusOffset_add_limit obj o)]; exact h2⟩

/-- C5 at the graph `demo`: offsets 1 and 5 of `demoObj` (k = 4). -/
theorem field_wrap_around_witness :
    0 < demoObj.getMaxFieldOffsetLimit ∧
    getGepObjVar demoAlloc demo demoObj ⟨1 + 4⟩ = getGepObjVar demoAlloc demo demoObj ⟨1⟩ ∧
    ∃ i t, getGepObjVar demoAlloc demo demoObj ⟨1⟩ = some (i, t) ∧
      getGepObjVar demoAlloc t demoObj ⟨1 + 4⟩ = some (i, t) :=
  have h := field_wrap_around demoAlloc demo demoObj 1 (by decide)
  ⟨by decide, h.1, h.2.2.2⟩

/-- C6. Field resolution is idempotent: for every graph state, memory object
and offset, getGepObjVar returns, and resolving the same pair again returns the
same identifier together with the very same state, so the second call creates
no node and leaves the field-object map and the per-base field sets unchanged. -/
theorem field_resolution_idempotent (al : NodeID → Nat → Nat → NodeID) (s : SVFIR)
    (obj : MemObj) (ls : LocationSet) :
    ∃ i t, getGepObjVar al s obj ls = some (i, t) ∧ getGepObjVar al t obj ls = some (i, t) :=
  getGepObjVar_twice al s obj ls

/-- C7. Field-insensitive collapse: for an object marked field-insensitive and
any two offsets, getGepObjVar returns the object's single field-insensitive
node identifier and leaves the state (so also the field-object map) unchanged;
getFieldsAfterCollapse on a node of such an object returns the singleton set
of that identifier. -/
theorem field_insensitive_collapse (al : NodeID → Nat → Nat → NodeID) (s : SVFIR)
    (obj : MemObj) (o1 o2 : LocationSet) (id : NodeID) (node : SVFVar)
    (hfi : obj.isFieldInsensitive = true) (hnode : s.getGNode id = some node)
    (hobj : isObjVar node = true) (hmem : node.memObj = some obj) :
    getGepObjVar al s obj o1 = some (getFIObjVar obj, s) ∧
    getGepObjVar al s obj o2 = some (getFIObjVar obj, s) ∧
    s.getFieldsAfterCollapse id = some {getFIObjVar obj} := by
  refine ⟨getGepObjVar_fieldInsensitive al s obj o1 hfi,
    getGepObjVar_fieldInsensitive al s obj o2 hfi, ?_⟩
  simp [getFieldsAfterCollapse, hnode, hobj, hmem, hfi]

/-- C7 at the graph `demo`: the field-insensitive object `demoFIObj` behind node 11. -/
theorem field_insensitive_collapse_witness :
    demoFIObj.isFieldInsensitive = true ∧
    demo.getGNode 11 = some { kind := PNODEK.FIObjNode, memObj := some demoFIObj } ∧
    getGepObjVar demoAlloc demo demoFIObj ⟨0⟩ = some (11, demo) ∧
    getGepObjVar demoAlloc demo demoFIObj ⟨3⟩ = some (11, demo) ∧
    demo.getFieldsAfterCollapse 11 = some {11} :=
  ⟨rfl, rfl, field_insensitive_collapse demoAlloc demo demoFIObj ⟨0⟩ ⟨3⟩ 11
    { kind := PNODEK.FIObjNode, memObj := some demoFIObj } rfl rfl rfl rfl⟩

/-- C8. First field equals base: for a field-sensitive object and an offset
that normalizes to zero, getGepObjVar returns the base object's identifier and
leaves the state unchanged when FirstFieldEqBase is on; when it is off, every
offset (zero included) goes through the field-object map: the stored
identifier if the entry exists, otherwise a newly allocated node registered in
the map, in the per-base field set and in the graph. -/
theorem first_field_eq_base (al : NodeID → Nat → Nat → NodeID) (s : SVFIR) (obj : MemObj)
    (ls : LocationSet) (hfs : obj.isFieldInsensitive = false)
    (h0 : (getModulusOffset obj ls).getOffset = 0) :
    (s.FirstFieldEqBase = true → getGepObjVar al s obj ls = some (obj.getId, s)) ∧
    (s.FirstFieldEqBase = false →
      (∀ x : LocationSet, getGepObjVar al s obj x =
        match s.GepObjVarMap.lookup (obj.getId, getModulusOffset obj x) with
        | some id => some (id, s)
        | none => addGepObjNode al s obj (getModulusOffset obj x)) ∧
      (∀ id, s.GepObjVarMap.lookup (obj.getId, ⟨0⟩) = some id →
        getGepObjVar al s obj ls = some (id, s)) ∧
      (s.GepObjVarMap.lookup (obj.getId, ⟨0⟩) = none →
        ∃ t, getGepObjVar al s obj ls = some (al obj.getId 0 s.maxFieldLimit, t) ∧
          t.GepObjVarMap =
            ((obj.getId, ⟨0⟩), al obj.getId 0 s.maxFieldLimit) :: s.GepObjVarMap ∧
          t.memToFields obj.getId =
            insert (al obj.getId 0 s.maxFieldLimit) (s.memToFields obj.getId) ∧
          t.getGNode (al obj.getId 0 s.maxFieldLimit) =
            some { kind := PNODEK.GepObjNode, memObj := some obj, ls := ⟨0⟩ })) := by
  have hz : getModulusOffset obj ls = ⟨0⟩ := by
    cases hm : getModulusOffset obj ls with
    | mk n => rw [hm] at h0; simp only [LocationSet.getOffset] at h0; rw [h0]
  refine ⟨fun hF => getGepObjVar_firstField al s obj ls hfs hF h0, fun hF => ⟨?_, ?_, ?_⟩⟩
  · intro x
    simp only [getGepObjVar, hfs, hF]
    cases s.GepObjVarMap.lookup (obj.getId, getModulusOffset obj x) <;> simp
  · intro id hid
    exact getGepObjVar_found al s obj ls id hfs (by simp [hF]) (by rw [hz]; exact hid)
  · intro hnone
    have hf := getGepObjVar_fresh al s obj ls hfs (by simp [hF]) (by rw [hz]; exact hnone)
    rw [hz] at hf
    refine ⟨_, hf, rfl, ?_, ?_⟩
    · simp [memToFields, LocationSet.getOffset]
    · simp [getGNode, LocationSet.getOffset]

/-- C8 at `demoFirstField` (policy on) and `demo` (policy off): offset 4 of
`demoObj` normalizes to zero. -/
theorem first_field_eq_base_witness :
    demoObj.isFieldInsensitive = false ∧ (getModulusOffset demoObj ⟨4⟩).getOffset = 0 ∧
    demoFirstField.FirstFieldEqBase = true ∧ demo.FirstFieldEqBase = false ∧
    demo.GepObjVarMap.lookup (10, ⟨0⟩) = none ∧
    getGepObjVar demoAlloc demoFirstField demoObj ⟨4⟩ = some (10, demoFirstField) ∧
    ∃ t, getGepObjVar demoAlloc demo demoObj ⟨4⟩ = some (1010, t) ∧
      t.GepObjVarMap = [((10, ⟨0⟩), 1010)] ∧
      t.memToFields 10 = insert 1010 (demo.memToFields 10) ∧
      t.getGNode 1010 = some { kind := PNODEK.GepObjNode, memObj := some demoObj, ls := ⟨0⟩ } :=
  ⟨rfl, rfl, rfl, rfl, rfl,
    (first_field_eq_base demoAlloc demoFirstField demoObj ⟨4⟩ rfl rfl).1 rfl,
    ((first_field_eq_base demoAlloc demo demoObj ⟨4⟩ rfl rfl).2 rfl).2.2 rfl⟩

theorem gepMapAllocated_of_nil (al : NodeID → Nat → Nat → NodeID) (s : SVFIR)
    (h : s.GepObjVarMap = []) : GepMapAllocated al s := by
  intro base ls id hl
  rw [h] at hl
  cases hl

/-- In a state whose map entries are allocator-made, resolution of a
field-sensitive object returns `fieldObjId`, and the new state is of the same
kind with the same options. -/
theorem getGepObjVar_allocated (al : NodeID → Nat → Nat → NodeID) (s : SVFIR) (obj : MemObj)
    (ls : LocationSet) (hfs : obj.isFieldInsensitive = false) (hmap : GepMapAllocated al s) :
    ∃ t, getGepObjVar al s obj ls = some (fieldObjId al s obj ls, t) ∧
      GepMapAllocated al t ∧ t.FirstFieldEqBase = s.FirstFieldEqBase ∧
      t.maxFieldLimit = s.maxFieldLimit := by
  cases hF : (s.FirstFieldEqBase && (getModulusOffset obj ls).getOffset == 0) with
  | true =>
    have hF2 := hF
    simp only [Bool.and_eq_true, beq_iff_eq] at hF2
    refine ⟨s, ?_, hmap, rfl, rfl⟩
    rw [getGepObjVar_firstField al s obj ls hfs hF2.1 hF2.2]
    simp [fieldObjId, hF]
  | false =>
    cases hL : s.GepObjVarMap.lookup (obj.getId, getModulusOffset obj ls) with
    | some id =>
      refine ⟨s, ?_, hmap, rfl, rfl⟩
      rw [getGepObjVar_found al s obj ls id hfs hF hL, hmap _ _ _ hL]
      simp [fieldObjId, hF]
    | none =>
      have hf := getGepObjVar_fresh al s obj ls hfs hF hL
      have hid : al obj.getId (getModulusOffset obj ls).getOffset s.maxFieldLimit
          = fieldObjId al s obj ls := by simp [fieldObjId, hF]
      rw [hid] at hf
      refine ⟨_, hf, ?_, rfl, rfl⟩
      intro base l id hl
      simp only [List.lookup_cons] at hl
      by_cases hkey : (base, l) = (obj.getId, getModulusOffset obj ls)
      · simp only [hkey, beq_self_eq_true, Option.some.injEq] at hl
        simp only [Prod.mk.injEq] at hkey
        rw [← hl, hkey.1, hkey.2, ← hid]
      · have hb : ((base, l) == (obj.getId, getModulusOffset obj ls)) = false := by
          simpa using hkey
        simp only [hb] at hl
        exact hmap base l id hl

/-- With an allocator that is injective in the offset and, under
FirstFieldEqBase, never returns the base identifier, two resolved identifiers
agree exactly when the normalized offsets agree. -/
theorem fieldObjId_eq_iff (al : NodeID → Nat → Nat → NodeID) (s : SVFIR) (obj : MemObj)
    (a b : Nat)
    (hinj : ∀ x y, al obj.getId x s.maxFieldLimit = al obj.getId y s.maxFieldLimit → x = y)
    (hbase : s.FirstFieldEqBase = true → ∀ x, al obj.getId x s.maxFieldLimit ≠ obj.getId) :
    fieldObjId al s obj ⟨a⟩ = fieldObjId al s obj ⟨b⟩ ↔
      a % obj.getMaxFieldOffsetLimit = b % obj.getMaxFieldOffsetLimit := by
  simp only [fieldObjId, getModulusOffset, LocationSet.getOffset]
  constructor
  · intro h
    split at h <;> split at h
    · rename_i h1 h2
      simp only [Bool.and_eq_true, beq_iff_eq] at h1 h2
      rw [h1.2, h2.2]
    · rename_i h1 h2
      simp only [Bool.and_eq_true, beq_iff_eq] at h1
      exact absurd h.symm (hbase h1.1 _)
    · rename_i h1 h2
      simp only [Bool.and_eq_true, beq_iff_eq] at h2
      exact absurd h (hbase h2.1 _)
    · exact hinj _ _ h
  · intro h
    rw [h]

theorem fieldObjId_congr (al : NodeID → Nat → Nat → NodeID) (s t : SVFIR) (obj : MemObj)
    (ls : LocationSet) (hF : t.FirstFieldEqBase = s.FirstFieldEqBase)
    (hM : t.maxFieldLimit = s.maxFieldLimit) :
    fieldObjId al t obj ls = fieldObjId al s obj ls := by
  simp only [fieldObjId, hF, hM]

/-- C9. Field nodes are unique per (base, normalized offset): for a
field-sensitive object with maximum field count k > 0, in a state whose
field-object map was filled by the allocator, four offsets a, b, c, d resolved
one after the other yield identifiers of which any two are equal exactly when
the two offsets agree modulo k.  The allocator is assumed injective in the
offset and, under FirstFieldEqBase, never to return the base identifier. -/
theorem field_nodes_unique (al : NodeID → Nat → Nat → NodeID) (s : SVFIR) (obj : MemObj)
    (a b c d : Nat) (hfs : obj.isFieldInsensitive = false)
    (hk : 0 < obj.getMaxFieldOffsetLimit) (hmap : GepMapAllocated al s)
    (hinj : ∀ x y, al obj.getId x s.maxFieldLimit = al obj.getId y s.maxFieldLimit → x = y)
    (hbase : s.FirstFieldEqBase = true → ∀ x, al obj.getId x s.maxFieldLimit ≠ obj.getId) :
    ∃ ia ib ic id ta tb tc td,
      getGepObjVar al s obj ⟨a⟩ = some (ia, ta) ∧ getGepObjVar al ta obj ⟨b⟩ = some (ib, tb) ∧
      getGepObjVar al tb obj ⟨c⟩ = some (ic, tc) ∧ getGepObjVar al tc obj ⟨d⟩ = some (id, td) ∧
      (ia = ib ↔ a % obj.getMaxFieldOffsetLimit = b % obj.getMaxFieldOffsetLimit) ∧
      (ia = ic ↔ a % obj.getMaxFieldOffsetLimit = c % obj.getMaxFieldOffsetLimit) ∧
      (ia = id ↔ a % obj.getMaxFieldOffsetLimit = d % obj.getMaxFieldOffsetLimit) ∧
      (ib = ic ↔ b % obj.getMaxFieldOffsetLimit = c % obj.getMaxFieldOffsetLimit) ∧
      (ib = id ↔ b % obj.getMaxFieldOffsetLimit = d % obj.getMaxFieldOffsetLimit) ∧
      (ic = id ↔ c % obj.getMaxFieldOffsetLimit = d % obj.getMaxFieldOffsetLimit) ∧
      a % obj.getMaxFieldOffsetLimit < obj.getMaxFieldOffsetLimit := by
  obtain ⟨ta, ha, mapa, fa, ma⟩ := getGepObjVar_allocated al s obj ⟨a⟩ hfs hmap
  obtain ⟨tb, hb, mapb, fb, mb⟩ := getGepObjVar_allocated al ta obj ⟨b⟩ hfs mapa
  obtain ⟨tc, hc, mapc, fc, mc⟩ := getGepObjVar_allocated al tb obj ⟨c⟩ hfs mapb
  obtain ⟨td, hd, -, -, -⟩ := getGepObjVar_allocated al tc obj ⟨d⟩ hfs mapc
  rw [fieldObjId_congr al s ta obj _ fa ma] at hb
  rw [fieldObjId_congr al s tb obj _ (fb.trans fa) (mb.trans ma)] at hc
  rw [fieldObjId_congr al s tc obj _ (fc.trans (fb.trans fa)) (mc.trans (mb.trans ma))] at hd
  exact ⟨_, _, _, _, ta, tb, tc, td, ha, hb, hc, hd,
    fieldObjId_eq_iff al s obj a b hinj hbase, fieldObjId_eq_iff al s obj a c hinj hbase,
    fieldObjId_eq_iff al s obj a d hinj hbase, fieldObjId_eq_iff al s obj b c hinj hbase,
    fieldObjId_eq_iff al s obj b d hinj hbase, fieldObjId_eq_iff al s obj c d hinj hbase,
    Nat.mod_lt _ hk⟩

theorem demoAlloc_injective (base m x y : Nat) (h : demoAlloc base x m = demoAlloc base y m) :
    x = y := by
  have h2 : (x + 1) * 1000 + base = (y + 1) * 1000 + base := h
  omega

/-- C9 at the graph `demo` with `demoObj` (k = 4): offsets 0 and 4 resolve to
one node, 1 and 5 to one node, and the 0/4 node differs from the 1/5 node. -/
theorem field_nodes_unique_witness :
    demoObj.isFieldInsensitive = false ∧ 0 < demoObj.getMaxFieldOffsetLimit ∧
    GepMapAllocated demoAlloc demo ∧
    (∀ x y, demoAlloc 10 x 512 = demoAlloc 10 y 512 → x = y) ∧
    ∃ i0 i4 i1 i5 t0 t4 t1 t5,
      getGepObjVar demoAlloc demo demoObj ⟨0⟩ = some (i0, t0) ∧
      getGepObjVar demoAlloc t0 demoObj ⟨4⟩ = some (i4, t4) ∧
      getGepObjVar demoAlloc t4 demoObj ⟨1⟩ = some (i1, t1) ∧
      getGepObjVar demoAlloc t1 demoObj ⟨5⟩ = some (i5, t5) ∧
      i0 = i4 ∧ i1 = i5 ∧ i0 ≠ i1 := by
  refine ⟨rfl, by decide, gepMapAllocated_of_nil _ _ rfl,
    fun x y => demoAlloc_injective 10 512 x y, ?_⟩
  obtain ⟨i0, i4, i1, i5, t0, t4, t1, t5, h0, h4, h1, h5, e04, e01, -, -, -, e15, -⟩ :=
    field_nodes_unique demoAlloc demo demoObj 0 4 1 5 rfl (by decide)
      (gepMapAllocated_of_nil _ _ rfl) (fun x y => demoAlloc_injective 10 512 x y)
      (fun h => by cases h)
  exact ⟨i0, i4, i1, i5, t0, t4, t1, t5, h0, h4, h1, h5, e04.2 (by decide), e15.2 (by decide),
    fun h => absurd (e01.1 h) (by decide)⟩

/-! ## C10: base recovery through a chain of two Normal-Gep edges -/

theorem LocationSet.add_def (a b : LocationSet) : a + b = ⟨a.fldIdx + b.fldIdx⟩ := rfl

theorem LocationSet.add_comm (a b : LocationSet) : a + b = b + a := by
  simp only [LocationSet.add_def, Nat.add_comm]

theorem LocationSet.add_zero (a : LocationSet) : a + ⟨0⟩ = a := by
  cases a
  simp [LocationSet.add_def]

theorem getIncomingEdges_lookupOrCreate_none (s : SVFIR) (g : SVFStmt) (x : NodeID)
    (k : PEDGEK) :
    (s.lookupOrCreate none g).2.getIncomingEdges x k =
      s.getIncomingEdges x k ++ (if g.dst = x ∧ g.kind = k then [g] else []) := by
  obtain ⟨gk, gs, gd, gl, go, gc, gls, gsu⟩ := g
  simp only [lookupOrCreate, getIncomingEdges, addEdge, addToStmt2TypeMap, List.filter_append]
  congr 1
  by_cases h : gd = x ∧ gk = k
  · simp [h]
  · rw [if_neg h]
    simp only [List.filter_cons, List.filter_nil]
    simp [h]

theorem hasNonlabeledEdge_none_of_incoming (s : SVFIR) (src dst : NodeID) (k : PEDGEK)
    (h : s.getIncomingEdges dst k = []) : s.hasNonlabeledEdge src dst k = none := by
  simp only [getIncomingEdges, List.filter_eq_nil_iff] at h
  simp only [hasNonlabeledEdge, List.findIdx?_eq_none_iff]
  intro e he
  have := h e he
  simp only [decide_eq_true_eq, not_and] at this
  simp only [decide_eq_false_iff_not, not_and]
  intro hk _ hd
  exact this hd hk

theorem getBaseValVar_of_no_gep (s : SVFIR) (x : NodeID) (hx : (s.getGNode x).isSome)
    (hN : s.getIncomingEdges x PEDGEK.NormalGep = [])
    (hV : s.getIncomingEdges x PEDGEK.VariantGep = []) : s.getBaseValVar x = some x := by
  obtain ⟨n, hn⟩ := Option.isSome_iff_exists.1 hx
  simp [getBaseValVar, hn, hasIncomingEdges, hN, hV]

theorem getBaseValVar_of_normal (s : SVFIR) (x : NodeID) (g : SVFStmt)
    (hx : (s.getGNode x).isSome) (hN : s.getIncomingEdges x PEDGEK.NormalGep = [g])
    (hV : s.getIncomingEdges x PEDGEK.VariantGep = []) : s.getBaseValVar x = some g.src := by
  obtain ⟨n, hn⟩ := Option.isSome_iff_exists.1 hx
  simp [getBaseValVar, hn, hasIncomingEdges, hN, hV]

theorem getLocationSetFromBaseNode_of_no_gep (s : SVFIR) (x : NodeID)
    (hx : (s.getGNode x).isSome) (hN : s.getIncomingEdges x PEDGEK.NormalGep = []) :
    s.getLocationSetFromBaseNode x = some ⟨0⟩ := by
  obtain ⟨n, hn⟩ := Option.isSome_iff_exists.1 hx
  simp [getLocationSetFromBaseNode, hn, hN]

theorem getLocationSetFromBaseNode_of_normal (s : SVFIR) (x : NodeID) (g : SVFStmt)
    (hx : (s.getGNode x).isSome) (hN : s.getIncomingEdges x PEDGEK.NormalGep = [g]) :
    s.getLocationSetFromBaseNode x = some g.ls := by
  obtain ⟨n, hn⟩ := Option.isSome_iff_exists.1 hx
  simp [getLocationSetFromBaseNode, hn, hN]

/-- One constant-offset Gep step from a source whose base and offset are known,
into a destination without incoming Normal-Gep edge: a Normal-Gep edge from
the base is appended, carrying the composed offset. -/
theorem addGepStmt_const_new (s : SVFIR) (src dst base : NodeID) (ls baseLS : LocationSet)
    (hsrc : (s.getGNode src).isSome) (hdst : (s.getGNode dst).isSome)
    (hbase : (s.getGNode base).isSome)
    (hV : s.getIncomingEdges src PEDGEK.VariantGep = [])
    (hB : s.getBaseValVar src = some base)
    (hLS : s.getLocationSetFromBaseNode src = some baseLS)
    (hD : s.getIncomingEdges dst PEDGEK.NormalGep = []) :
    s.addGepStmt src dst ls true = some (s.edges.length, (s.lookupOrCreate none
      { kind := PEDGEK.NormalGep, src := base, dst := dst, ls := ls + baseLS }).2) := by
  rw [addGepStmt_eq s src dst ls true hsrc]
  have hv : s.hasIncomingVariantGepEdge src = false := by
    simp [hasIncomingVariantGepEdge, hasIncomingEdges, hV]
  rw [hv]
  simp only [Bool.not_true, Bool.or_self, Bool.false_eq_true, if_false]
  rw [addNormalGepStmt_of_base s src dst base ls baseLS hLS hB, if_pos ⟨hbase, hdst⟩,
    hasNonlabeledEdge_none_of_incoming s base dst _ hD]
  rfl

/-- C10. Base recovery round trip: for registered nodes B, n1, n2 with n1 and
n2 different and none of the three having an incoming Normal-Gep or
Variant-Gep edge, addGepStmt(B, n1, a, true) followed by
addGepStmt(n1, n2, b, true) both return; afterwards getBaseValVar(n2) = B and
getLocationSetFromBaseNode(n2) = a + b, and the second edge is a Normal-Gep
edge from B (not from n1) to n2. -/
theorem base_recovery_round_trip (s : SVFIR) (B n1 n2 : NodeID) (a b : LocationSet)
    (hB : (s.getGNode B).isSome) (h1 : (s.getGNode n1).isSome) (h2 : (s.getGNode n2).isSome)
    (hne : n1 ≠ n2)
    (hBN : s.getIncomingEdges B PEDGEK.NormalGep = [])
    (hBV : s.getIncomingEdges B PEDGEK.VariantGep = [])
    (h1N : s.getIncomingEdges n1 PEDGEK.NormalGep = [])
    (h1V : s.getIncomingEdges n1 PEDGEK.VariantGep = [])
    (h2N : s.getIncomingEdges n2 PEDGEK.NormalGep = [])
    (h2V : s.getIncomingEdges n2 PEDGEK.VariantGep = []) :
    ∃ e1 t1 e2 t2 st, s.addGepStmt B n1 a true = some (e1, t1) ∧
      t1.addGepStmt n1 n2 b true = some (e2, t2) ∧
      t2.getBaseValVar n2 = some B ∧ t2.getLocationSetFromBaseNode n2 = some (a + b) ∧
      t2.getStmt e2 = some st ∧ st.kind = PEDGEK.NormalGep ∧ st.src = B ∧ st.dst = n2 ∧
      st.ls = a + b := by
  have step1 := addGepStmt_const_new s B n1 B a ⟨0⟩ hB h1 hB hBV
    (getBaseValVar_of_no_gep s B hB hBN hBV) (getLocationSetFromBaseNode_of_no_gep s B hB hBN)
    h1N
  rw [LocationSet.add_zero] at step1
  generalize hg1 : ({ kind := PEDGEK.NormalGep, src := B, dst := n1, ls := a } : SVFStmt) = g1
    at step1
  have hg1k : g1.kind = PEDGEK.NormalGep := by rw [← hg1]
  have hg1s : g1.src = B := by rw [← hg1]
  have hg1d : g1.dst = n1 := by rw [← hg1]
  have hg1l : g1.ls = a := by rw [← hg1]
  generalize ht1 : (s.lookupOrCreate none g1).2 = t1 at step1
  have reg1 : ∀ i, t1.getGNode i = s.getGNode i := fun i => by
    rw [← ht1, getGNode_lookupOrCreate]
  have inc1 : ∀ x k, t1.getIncomingEdges x k =
      s.getIncomingEdges x k ++ (if g1.dst = x ∧ g1.kind = k then [g1] else []) := fun x k => by
    rw [← ht1, getIncomingEdges_lookupOrCreate_none]
  have t1n1N : t1.getIncomingEdges n1 PEDGEK.NormalGep = [g1] := by
    rw [inc1, h1N, if_pos ⟨hg1d, hg1k⟩]; rfl
  have t1n1V : t1.getIncomingEdges n1 PEDGEK.VariantGep = [] := by
    rw [inc1, h1V, if_neg (by rw [hg1k]; simp)]; rfl
  have t1n2N : t1.getIncomingEdges n2 PEDGEK.NormalGep = [] := by
    rw [inc1, h2N, if_neg (by rw [hg1d]; simp [hne])]; rfl
  have t1n2V : t1.getIncomingEdges n2 PEDGEK.VariantGep = [] := by
    rw [inc1, h2V, if_neg (by rw [hg1k]; simp)]; rfl
  have step2 := addGepStmt_const_new t1 n1 n2 B b a (by rw [reg1]; exact h1)
    (by rw [reg1]; exact h2) (by rw [reg1]; exact hB) t1n1V
    (by rw [getBaseValVar_of_normal t1 n1 g1 (by rw [reg1]; exact h1) t1n1N t1n1V, hg1s])
    (by rw [getLocationSetFromBaseNode_of_normal t1 n1 g1 (by rw [reg1]; exact h1) t1n1N, hg1l])
    t1n2N
  rw [LocationSet.add_comm b a] at step2
  have reg2 : ∀ i, (t1.lookupOrCreate none
      { kind := PEDGEK.NormalGep, src := B, dst := n2, ls := a + b }).2.getGNode i
        = s.getGNode i := fun i => by rw [getGNode_lookupOrCreate, reg1]
  have t2n2N : (t1.lookupOrCreate none
      { kind := PEDGEK.NormalGep, src := B, dst := n2, ls := a + b }).2.getIncomingEdges n2
        PEDGEK.NormalGep = [{ kind := PEDGEK.NormalGep, src := B, dst := n2, ls := a + b }] := by
    rw [getIncomingEdges_lookupOrCreate_none, t1n2N, if_pos ⟨rfl, rfl⟩]; rfl
  have t2n2V : (t1.lookupOrCreate none
      { kind := PEDGEK.NormalGep, src := B, dst := n2, ls := a + b }).2.getIncomingEdges n2
        PEDGEK.VariantGep = [] := by
    rw [getIncomingEdges_lookupOrCreate_none, t1n2V, if_neg (by simp)]; rfl
  refine ⟨_, t1, _, _, { kind := PEDGEK.NormalGep, src := B, dst := n2, ls := a + b },
    step1, step2, ?_, ?_, ?_, rfl, rfl, rfl, rfl⟩
  · rw [getBaseValVar_of_normal _ n2 _ (by rw [reg2]; exact h2) t2n2N t2n2V]
  · rw [getLocationSetFromBaseNode_of_normal _ n2 _ (by rw [reg2]; exact h2) t2n2N]
  · simp [lookupOrCreate, getStmt, addEdge, addToStmt2TypeMap]

/-- C10 at the graph `demo`: base 1, chain 1 -> 2 -> 3 with offsets 2 and 3. -/
theorem base_recovery_round_trip_witness :
    (demo.getGNode 1).isSome ∧ (demo.getGNode 2).isSome ∧ (demo.getGNode 3).isSome ∧
    (2 : NodeID) ≠ 3 ∧ demo.edges = [] ∧
    ∃ e1 t1 e2 t2 st, demo.addGepStmt 1 2 ⟨2⟩ true = some (e1, t1) ∧
      t1.addGepStmt 2 3 ⟨3⟩ true = some (e2, t2) ∧
      t2.getBaseValVar 3 = some 1 ∧ t2.getLocationSetFromBaseNode 3 = some ⟨5⟩ ∧
      t2.getStmt e2 = some st ∧ st.kind = PEDGEK.NormalGep ∧ st.src = 1 ∧ st.dst = 3 ∧
      st.ls = ⟨5⟩ :=
  ⟨by decide, by decide, by decide, by decide, rfl,
    base_recovery_round_trip demo 1 2 3 ⟨2⟩ ⟨3⟩ (by decide) (by decide) (by decide) (by decide)
      rfl rfl rfl rfl rfl rfl⟩

/-! ## C13, C14: base and offset of a node, and when base recovery fails -/

theorem getBaseValVar_of_variant (s : SVFIR) (x : NodeID) (g : SVFStmt)
    (hx : (s.getGNode x).isSome) (hN : s.getIncomingEdges x PEDGEK.NormalGep = [])
    (hV : s.getIncomingEdges x PEDGEK.VariantGep = [g]) : s.getBaseValVar x = some g.src := by
  obtain ⟨n, hn⟩ := Option.isSome_iff_exists.1 hx
  simp [getBaseValVar, hn, hasIncomingEdges, hN, hV]

theorem getBaseValVar_eq_none_iff (s : SVFIR) (x : NodeID) (hx : (s.getGNode x).isSome) :
    s.getBaseValVar x = none ↔
      1 < (s.getIncomingEdges x PEDGEK.NormalGep).length +
        (s.getIncomingEdges x PEDGEK.VariantGep).length := by
  obtain ⟨n, hn⟩ := Option.isSome_iff_exists.1 hx
  simp only [getBaseValVar, hn, hasIncomingEdges]
  generalize s.getIncomingEdges x PEDGEK.NormalGep = N
  generalize s.getIncomingEdges x PEDGEK.VariantGep = V
  rcases N with _ | ⟨a, _ | ⟨a2, N⟩⟩ <;> rcases V with _ | ⟨b, _ | ⟨b2, V⟩⟩ <;> simp
  all_goals omega

/-- C13. Base and offset of a node: for every registered node n, with no
incoming Normal-Gep or Variant-Gep edge getBaseValVar(n) = n and
getLocationSetFromBaseNode(n) is the zero LocationSet; with exactly one
incoming pointer-arithmetic edge e, getBaseValVar(n) is the source of e, and
getLocationSetFromBaseNode(n) is the LocationSet stored in e when e is
Normal-Gep and the zero LocationSet when e is Variant-Gep. -/
theorem base_and_offset_of_node (s : SVFIR) (n : NodeID) (hn : (s.getGNode n).isSome) :
    (s.getIncomingEdges n PEDGEK.NormalGep = [] → s.getIncomingEdges n PEDGEK.VariantGep = [] →
      s.getBaseValVar n = some n ∧ s.getLocationSetFromBaseNode n = some ⟨0⟩) ∧
    (∀ e, s.getIncomingEdges n PEDGEK.NormalGep = [e] →
      s.getIncomingEdges n PEDGEK.VariantGep = [] →
      s.getBaseValVar n = some e.src ∧ s.getLocationSetFromBaseNode n = some e.ls) ∧
    (∀ e, s.getIncomingEdges n PEDGEK.NormalGep = [] →
      s.getIncomingEdges n PEDGEK.VariantGep = [e] →
      s.getBaseValVar n = some e.src ∧ s.getLocationSetFromBaseNode n = some ⟨0⟩) :=
  ⟨fun hN hV => ⟨getBaseValVar_of_no_gep s n hn hN hV,
      getLocationSetFromBaseNode_of_no_gep s n hn hN⟩,
    fun e hN hV => ⟨getBaseValVar_of_normal s n e hn hN hV,
      getLocationSetFromBaseNode_of_normal s n e hn hN⟩,
    fun e hN hV => ⟨getBaseValVar_of_variant s n e hn hN hV,
      getLocationSetFromBaseNode_of_no_gep s n hn hN⟩⟩

/-- C13 at the graph `demoGeps`: node 1 has no incoming gep edge, node 2 one
Normal-Gep edge from 1 with offset 2, node 3 one Variant-Gep edge from 1. -/
theorem base_and_offset_of_node_witness :
    (demoGeps.getGNode 1).isSome ∧ (demoGeps.getGNode 2).isSome ∧
    (demoGeps.getGNode 3).isSome ∧
    (demoGeps.getBaseValVar 1 = some 1 ∧ demoGeps.getLocationSetFromBaseNode 1 = some ⟨0⟩) ∧
    (demoGeps.getBaseValVar 2 = some 1 ∧ demoGeps.getLocationSetFromBaseNode 2 = some ⟨2⟩) ∧
    (demoGeps.getBaseValVar 3 = some 1 ∧ demoGeps.getLocationSetFromBaseNode 3 = some ⟨0⟩) :=
  ⟨by decide, by decide, by decide,
    (base_and_offset_of_node demoGeps 1 (by decide)).1 rfl rfl,
    (base_and_offset_of_node demoGeps 2 (by decide)).2.1
      { kind := PEDGEK.NormalGep, src := 1, dst := 2, ls := ⟨2⟩ } rfl rfl,
    (base_and_offset_of_node demoGeps 3 (by decide)).2.2
      { kind := PEDGEK.VariantGep, src := 1, dst := 3 } rfl rfl⟩

/-- C14. For every registered node, getBaseValVar fails exactly when the node
has more than one incoming pointer-arithmetic edge, Normal-Gep and Variant-Gep
counted together; with zero or one such edge it returns a node identifier. -/
theorem getBaseValVar_fails_iff (s : SVFIR) (n : NodeID) (hn : (s.getGNode n).isSome) :
    (s.getBaseValVar n = none ↔
      1 < (s.getIncomingEdges n PEDGEK.NormalGep).length +
        (s.getIncomingEdges n PEDGEK.VariantGep).length) ∧
    ((s.getIncomingEdges n PEDGEK.NormalGep).length +
        (s.getIncomingEdges n PEDGEK.VariantGep).length ≤ 1 →
      ∃ b, s.getBaseValVar n = some b) := by
  refine ⟨getBaseValVar_eq_none_iff s n hn, fun hle => ?_⟩
  cases h : s.getBaseValVar n with
  | some b => exact ⟨b, rfl⟩
  | none =>
    have := (getBaseValVar_eq_none_iff s n hn).1 h
    omega

/-- C14 at the graphs `demoGeps` (node 2: one incoming gep edge, base 1) and
`demoTwoGeps` (node 3: two incoming gep edges, failure). -/
theorem getBaseValVar_fails_iff_witness :
    (demoGeps.getGNode 2).isSome ∧ (demoTwoGeps.getGNode 3).isSome ∧
    (demoGeps.getIncomingEdges 2 PEDGEK.NormalGep).length +
      (demoGeps.getIncomingEdges 2 PEDGEK.VariantGep).length ≤ 1 ∧
    1 < (demoTwoGeps.getIncomingEdges 3 PEDGEK.NormalGep).length +
      (demoTwoGeps.getIncomingEdges 3 PEDGEK.VariantGep).length ∧
    (∃ b, demoGeps.getBaseValVar 2 = some b) ∧ demoTwoGeps.getBaseValVar 3 = none :=
  ⟨by decide, by decide, by decide, by decide,
    (getBaseValVar_fails_iff demoGeps 2 (by decide)).2 (by decide),
    (getBaseValVar_fails_iff demoTwoGeps 3 (by decide)).1.2 (by decide)⟩

/-! ## C11: variant poisoning -/

theorem filter_kind_lookupOrCreate (s : SVFIR) (found : Option Nat) (e : SVFStmt) (k : PEDGEK)
    (hk : e.kind ≠ k) :
    (s.lookupOrCreate found e).2.edges.filter (fun x => decide (x.kind = k)) =
      s.edges.filter (fun x => decide (x.kind = k)) := by
  cases found with
  | some i => rfl
  | none =>
    simp only [lookupOrCreate, addEdge, addToStmt2TypeMap, List.filter_append]
    simp [hk]

/-- C11. Variant poisoning: when the offset is not constant, or src has an
incoming Variant-Gep edge (whatever constGep is), every edge that
addGepStmt(src, dst, ls, constGep) returns is a Variant-Gep edge from
getBaseValVar(src) to dst, and the Normal-Gep edges of the graph stay as they
are; the call does return when src and dst are registered and
getBaseValVar(src) is defined and registered. -/
theorem variant_poisoning (s : SVFIR) (src dst : NodeID) (ls : LocationSet) (constGep : Bool)
    (hv : constGep = false ∨ s.hasIncomingVariantGepEdge src = true) :
    (∀ e t, s.addGepStmt src dst ls constGep = some (e, t) →
      ∃ st base, s.getBaseValVar src = some base ∧ t.getStmt e = some st ∧
        st.kind = PEDGEK.VariantGep ∧ st.src = base ∧ st.dst = dst ∧
        t.edges.filter (fun x => decide (x.kind = PEDGEK.NormalGep)) =
          s.edges.filter (fun x => decide (x.kind = PEDGEK.NormalGep))) ∧
    (∀ base, (s.getGNode src).isSome → (s.getGNode dst).isSome →
      s.getBaseValVar src = some base → (s.getGNode base).isSome →
      ∃ e t, s.addGepStmt src dst ls constGep = some (e, t)) := by
  have hc : (!constGep || s.hasIncomingVariantGepEdge src) = true := by
    rcases hv with h | h <;> simp [h]
  constructor
  · intro e t h
    have hsrc : (s.getGNode src).isSome := by
      cases hg : s.getGNode src with
      | none => simp [addGepStmt, hg] at h
      | some _ => rfl
    rw [addGepStmt_eq s src dst ls constGep hsrc, if_pos hc] at h
    obtain ⟨base, hB, -, -, ht⟩ := addVariantGepStmt_some src dst h
    obtain ⟨st, hst, hk, hs, hd⟩ := getStmt_lookupOrCreate_nonlabeled s
      { kind := PEDGEK.VariantGep, src := base, dst := dst }
    have hf := filter_kind_lookupOrCreate s
      (s.hasNonlabeledEdge base dst PEDGEK.VariantGep)
      { kind := PEDGEK.VariantGep, src := base, dst := dst } PEDGEK.NormalGep
      (fun h => PEDGEK.noConfusion h)
    simp only [ht] at hst hf
    exact ⟨st, base, hB, hst, hk, hs, hd, hf⟩
  · intro base hsrc hdst hB hbase
    rw [addGepStmt_eq s src dst ls constGep hsrc, if_pos hc,
      addVariantGepStmt_of_base s src dst base hB, if_pos ⟨hbase, hdst⟩]
    exact ⟨_, _, rfl⟩

/-- C11 at `demoGeps` (node 3 has an incoming Variant-Gep edge from 1; constant
offset) and at `demo` (no gep edge; offset not constant). -/
theorem variant_poisoning_witness :
    demoGeps.hasIncomingVariantGepEdge 3 = true ∧
    (demoGeps.getGNode 3).isSome ∧ (demoGeps.getGNode 4).isSome ∧
    demoGeps.getBaseValVar 3 = some 1 ∧ (demoGeps.getGNode 1).isSome ∧
    (∃ e t st, demoGeps.addGepStmt 3 4 ⟨2⟩ true = some (e, t) ∧ t.getStmt e = some st ∧
      st.kind = PEDGEK.VariantGep ∧ st.src = 1 ∧ st.dst = 4 ∧
      t.edges.filter (fun x => decide (x.kind = PEDGEK.NormalGep)) =
        demoGeps.edges.filter (fun x => decide (x.kind = PEDGEK.NormalGep))) ∧
    (∃ e t st, demo.addGepStmt 1 2 ⟨2⟩ false = some (e, t) ∧ t.getStmt e = some st ∧
      st.kind = PEDGEK.VariantGep ∧ st.src = 1 ∧ st.dst = 2 ∧
      t.edges.filter (fun x => decide (x.kind = PEDGEK.NormalGep)) =
        demo.edges.filter (fun x => decide (x.kind = PEDGEK.NormalGep))) := by
  have hA := variant_poisoning demoGeps 3 4 ⟨2⟩ true (Or.inr (by decide))
  have hB := variant_poisoning demo 1 2 ⟨2⟩ false (Or.inl rfl)
  refine ⟨by decide, by decide, by decide, by decide, by decide, ?_, ?_⟩
  · obtain ⟨e, t, h⟩ := hA.2 1 (by decide) (by decide) (by decide) (by decide)
    obtain ⟨st, base, hb, h1, h2, h3, h4, h5⟩ := hA.1 e t h
    have hb1 : base = 1 := by
      have : demoGeps.getBaseValVar 3 = some 1 := by decide
      rw [this] at hb
      exact (Option.some.inj hb).symm
    exact ⟨e, t, st, h, h1, h2, h3.trans hb1, h4, h5⟩
  · obtain ⟨e, t, h⟩ := hB.2 1 (by decide) (by decide) (by decide) (by decide)
    obtain ⟨st, base, hb, h1, h2, h3, h4, h5⟩ := hB.1 e t h
    have hb1 : base = 1 := by
      have : demo.getBaseValVar 1 = some 1 := by decide
      rw [this] at hb
      exact (Option.some.inj hb).symm
    exact ⟨e, t, st, h, h1, h2, h3.trans hb1, h4, h5⟩

/-! ## C12: the single incoming gep edge is not kept by the constructors -/

/-- C12, evaluated: on the graph `demo`, addGepStmt(1, 3, 2, true) followed by
addGepStmt(2, 3, 5, true) reaches `demoTwoGeps`, where node 3 has two incoming
Normal-Gep edges (from the bases 1 and 2) and getBaseValVar(3) fails; and
addGepStmt(1, 2, 2, true) followed by addGepStmt(1, 2, 2, false) gives node 2
one incoming Normal-Gep and one incoming Variant-Gep edge. -/
theorem two_incoming_gep_edges :
    (∃ t1, demo.addGepStmt 1 3 ⟨2⟩ true = some (0, t1) ∧
      t1.addGepStmt 2 3 ⟨5⟩ true = some (1, demoTwoGeps) ∧ Reachable demoTwoGeps) ∧
    (demoTwoGeps.getIncomingEdges 3 PEDGEK.NormalGep).length +
      (demoTwoGeps.getIncomingEdges 3 PEDGEK.VariantGep).length = 2 ∧
    demoTwoGeps.getBaseValVar 3 = none ∧
    (∃ t1 t2, demo.addGepStmt 1 2 ⟨2⟩ true = some (0, t1) ∧
      t1.addGepStmt 1 2 ⟨2⟩ false = some (1, t2) ∧ Reachable t2 ∧
      (t2.getIncomingEdges 2 PEDGEK.NormalGep).length = 1 ∧
      (t2.getIncomingEdges 2 PEDGEK.VariantGep).length = 1 ∧
      t2.getBaseValVar 2 = none) := by
  have a1 : demo.addGepStmt 1 3 ⟨2⟩ true = some (0,
      { demo with
        edges := [{ kind := PEDGEK.NormalGep, src := 1, dst := 3, ls := ⟨2⟩ }]
        KindToSVFStmtSetMap := [(PEDGEK.NormalGep, 0)] }) := by decide
  have a2 : ({ demo with
        edges := [{ kind := PEDGEK.NormalGep, src := 1, dst := 3, ls := ⟨2⟩ }]
        KindToSVFStmtSetMap := [(PEDGEK.NormalGep, 0)] } : SVFIR).addGepStmt 2 3 ⟨5⟩ true
      = some (1, demoTwoGeps) := by decide
  have b1 : demo.addGepStmt 1 2 ⟨2⟩ true = some (0,
      { demo with
        edges := [{ kind := PEDGEK.NormalGep, src := 1, dst := 2, ls := ⟨2⟩ }]
        KindToSVFStmtSetMap := [(PEDGEK.NormalGep, 0)] }) := by decide
  have b2 : ({ demo with
        edges := [{ kind := PEDGEK.NormalGep, src := 1, dst := 2, ls := ⟨2⟩ }]
        KindToSVFStmtSetMap := [(PEDGEK.NormalGep, 0)] } : SVFIR).addGepStmt 1 2 ⟨2⟩ false
      = some (1, { demo with
        edges := [{ kind := PEDGEK.NormalGep, src := 1, dst := 2, ls := ⟨2⟩ },
                  { kind := PEDGEK.VariantGep, src := 1, dst := 2 }]
        KindToSVFStmtSetMap := [(PEDGEK.NormalGep, 0), (PEDGEK.VariantGep, 1)] }) := by decide
  have r0 : Reachable demo := Reachable.init demo rfl rfl rfl
  exact ⟨⟨_, a1, a2, Reachable.gep 2 3 ⟨5⟩ true (Reachable.gep 1 3 ⟨2⟩ true r0 a1) a2⟩,
    by decide, by decide,
    ⟨_, _, b1, b2, Reachable.gep 1 2 ⟨2⟩ false (Reachable.gep 1 2 ⟨2⟩ true r0 b1) b2,
      by decide, by decide, by decide⟩⟩

/-! ## C19: Normal-Gep composition -/

theorem getStmt_lookupOrCreate_none (s : SVFIR) (e : SVFStmt) :
    (s.lookupOrCreate none e).2.getStmt s.edges.length = some e := by
  obtain ⟨gk, gs, gd, gl, go, gc, gls, gsu⟩ := e
  simp [lookupOrCreate, getStmt, addEdge, addToStmt2TypeMap]

theorem getStmt_of_hasNonlabeledEdge (s : SVFIR) (a b : NodeID) (k : PEDGEK) (i : Nat)
    (h : s.hasNonlabeledEdge a b k = some i) :
    ∃ st, s.getStmt i = some st ∧ st.kind = k ∧ st.src = a ∧ st.dst = b := by
  rw [hasNonlabeledEdge, List.findIdx?_eq_some_iff_getElem] at h
  obtain ⟨hi, hp, -⟩ := h
  refine ⟨s.edges[i], ?_, ?_⟩
  · simp [getStmt, hi]
  · simpa using hp

/-- C19, as stated, fails when the edge is reused: on the graph `demo`,
addGepStmt(1, 2, 1, true) builds a Normal-Gep edge 1->2 with LocationSet 1; a
second addGepStmt(1, 2, 2, true) returns that edge, whose LocationSet is still
1 and not 2 composed with getLocationSetFromBaseNode(1) = 0. -/
theorem reused_gep_keeps_its_offset :
    ∃ t st, demo.addGepStmt 1 2 ⟨1⟩ true = some (0, t) ∧
      t.hasIncomingVariantGepEdge 1 = false ∧ t.getBaseValVar 1 = some 1 ∧
      t.getLocationSetFromBaseNode 1 = some ⟨0⟩ ∧
      t.addGepStmt 1 2 ⟨2⟩ true = some (0, t) ∧ t.getStmt 0 = some st ∧
      st.kind = PEDGEK.NormalGep ∧ st.ls = ⟨1⟩ ∧ st.ls ≠ (⟨2⟩ : LocationSet) + ⟨0⟩ := by
  have a1 : demo.addGepStmt 1 2 ⟨1⟩ true = some (0,
      { demo with
        edges := [{ kind := PEDGEK.NormalGep, src := 1, dst := 2, ls := ⟨1⟩ }]
        KindToSVFStmtSetMap := [(PEDGEK.NormalGep, 0)] }) := by decide
  exact ⟨_, { kind := PEDGEK.NormalGep, src := 1, dst := 2, ls := ⟨1⟩ }, a1, by decide,
    by decide, by decide, by decide, by decide, rfl, rfl, by decide⟩

/-- C19, amended. For registered src and dst, with src without incoming
Variant-Gep edge and getBaseValVar(src) = base, getLocationSetFromBaseNode(src)
= baseLS defined, addGepStmt(src, dst, ls, true) returns a Normal-Gep edge
from base to dst.  If no Normal-Gep edge base->dst existed, the edge is newly
appended and its LocationSet is ls composed with baseLS; if one existed, that
edge is returned as it is and the graph is unchanged. -/
theorem normal_gep_composition (s : SVFIR) (src dst base : NodeID) (ls baseLS : LocationSet)
    (hsrc : (s.getGNode src).isSome) (hdst : (s.getGNode dst).isSome)
    (hV : s.hasIncomingVariantGepEdge src = false)
    (hB : s.getBaseValVar src = some base) (hbase : (s.getGNode base).isSome)
    (hLS : s.getLocationSetFromBaseNode src = some baseLS) :
    ∃ e t st, s.addGepStmt src dst ls true = some (e, t) ∧ t.getStmt e = some st ∧
      st.kind = PEDGEK.NormalGep ∧ st.src = base ∧ st.dst = dst ∧
      (s.hasNonlabeledEdge base dst PEDGEK.NormalGep = none →
        e = s.edges.length ∧ st.ls = ls + baseLS ∧ t.edges = s.edges ++ [st]) ∧
      (∀ i, s.hasNonlabeledEdge base dst PEDGEK.NormalGep = some i →
        e = i ∧ t = s ∧ s.getStmt i = some st) := by
  have hc : (!true || s.hasIncomingVariantGepEdge src) = false := by simp [hV]
  have hcall : s.addGepStmt src dst ls true =
      some (s.lookupOrCreate (s.hasNonlabeledEdge base dst PEDGEK.NormalGep)
        { kind := PEDGEK.NormalGep, src := base, dst := dst, ls := ls + baseLS }) := by
    rw [addGepStmt_eq s src dst ls true hsrc, hc]
    simp only [Bool.false_eq_true, if_false]
    rw [addNormalGepStmt_of_base s src dst base ls baseLS hLS hB, if_pos ⟨hbase, hdst⟩]
  cases hf : s.hasNonlabeledEdge base dst PEDGEK.NormalGep with
  | none =>
    rw [hf] at hcall
    refine ⟨_, _, _, hcall, getStmt_lookupOrCreate_none s _, rfl, rfl, rfl, ?_, ?_⟩
    · intro _
      exact ⟨rfl, rfl, rfl⟩
    · intro i hi
      cases hi
  | some j =>
    rw [hf] at hcall
    obtain ⟨st, hst, hk, hs, hd⟩ := getStmt_of_hasNonlabeledEdge s base dst _ j hf
    refine ⟨j, s, st, hcall, hst, hk, hs, hd, ?_, ?_⟩
    · intro h
      cases h
    · intro i hi
      simp only [Option.some.injEq] at hi
      subst hi
      exact ⟨rfl, rfl, hst⟩

/-- C19, amended, at the graph `demoGeps`: from node 2 (base 1, offset 2) a
new edge into node 4 with offset 3 carries 3 + 2, and a repeated call into
node 2 from node 1 returns the existing edge 0 with its offset 2. -/
theorem normal_gep_composition_witness :
    (demoGeps.getGNode 2).isSome ∧ (demoGeps.getGNode 4).isSome ∧
    demoGeps.hasIncomingVariantGepEdge 2 = false ∧ demoGeps.getBaseValVar 2 = some 1 ∧
    (demoGeps.getGNode 1).isSome ∧ demoGeps.getLocationSetFromBaseNode 2 = some ⟨2⟩ ∧
    demoGeps.hasNonlabeledEdge 1 4 PEDGEK.NormalGep = none ∧
    demoGeps.hasNonlabeledEdge 1 2 PEDGEK.NormalGep = some 0 ∧
    (∃ e t st, demoGeps.addGepStmt 2 4 ⟨3⟩ true = some (e, t) ∧ t.getStmt e = some st ∧
      st.kind = PEDGEK.NormalGep ∧ st.src = 1 ∧ st.dst = 4 ∧ e = 2 ∧ st.ls = ⟨3⟩ + ⟨2⟩) ∧
    (∃ e t st, demoGeps.addGepStmt 1 2 ⟨9⟩ true = some (e, t) ∧ t.getStmt e = some st ∧
      st.kind = PEDGEK.NormalGep ∧ st.src = 1 ∧ st.dst = 2 ∧ e = 0 ∧ t = demoGeps) := by
  refine ⟨by decide, by decide, by decide, by decide, by decide, by decide, by decide,
    by decide, ?_, ?_⟩
  · obtain ⟨e, t, st, h1, h2, h3, h4, h5, h6, -⟩ :=
      normal_gep_composition demoGeps 2 4 1 ⟨3⟩ ⟨2⟩ (by decide) (by decide) (by decide)
        (by decide) (by decide) (by decide)
    exact ⟨e, t, st, h1, h2, h3, h4, h5, (h6 (by decide)).1, (h6 (by decide)).2.1⟩
  · obtain ⟨e, t, st, h1, h2, h3, h4, h5, -, h7⟩ :=
      normal_gep_composition demoGeps 1 2 1 ⟨9⟩ ⟨0⟩ (by decide) (by decide) (by decide)
        (by decide) (by decide) (by decide)
    exact ⟨e, t, st, h1, h2, h3, h4, h5, (h7 0 (by decide)).1, (h7 0 (by decide)).2.1⟩

/-! ## C15: unknown-origin policy -/

theorem countEdges_lookupOrCreate (s : SVFIR) (e : SVFStmt)
    (h : s.countEdges e.kind e.src e.dst ≤ 1) :
    (s.lookupOrCreate (s.hasNonlabeledEdge e.src e.dst e.kind) e).2.countEdges
      e.kind e.src e.dst = 1 := by
  cases hf : s.hasNonlabeledEdge e.src e.dst e.kind with
  | some i =>
    obtain ⟨st, hst, hk, hs, hd⟩ := getStmt_of_hasNonlabeledEdge s _ _ _ i hf
    have hmem : st ∈ s.edges.filter
        (fun x => decide (x.kind = e.kind ∧ x.src = e.src ∧ x.dst = e.dst)) := by
      rw [List.mem_filter]
      exact ⟨List.getElem?_mem hst, by simp [hk, hs, hd]⟩
    have hpos := List.length_pos_of_mem hmem
    simp only [lookupOrCreate, countEdges] at h ⊢
    omega
  | none =>
    have hz := countEdges_zero_of_none s _ _ _ hf
    obtain ⟨gk, gs, gd, gl, go, gc, gls, gsu⟩ := e
    simp only [countEdges] at hz
    simp only [lookupOrCreate, countEdges, addEdge, addToStmt2TypeMap, List.filter_append,
      List.length_append, hz]
    simp

/-- C15. Unknown-origin policy: in a reachable state, for every registered
node n, addBlackHoleAddrStmt(n) returns an Address-of edge from the black-hole
node to n when HandBlackHole is on (the black-hole node being registered), and
a Copy edge from the null-pointer node to n when it is off (the null-pointer
node being registered); afterwards exactly one such edge exists and the edges
of the other kind are as before; handleBlackHole(b) sets the flag to b and
changes nothing else. -/
theorem unknown_origin_policy (s : SVFIR) (n : NodeID) (b : Bool) (hr : Reachable s)
    (hn : (s.getGNode n).isSome) :
    (s.HandBlackHole = true → (s.getGNode s.blackHoleNode).isSome →
      ∃ e t st, s.addBlackHoleAddrStmt n = some (e, t) ∧ t.getStmt e = some st ∧
        st.kind = PEDGEK.Addr ∧ st.src = s.blackHoleNode ∧ st.dst = n ∧
        t.countEdges PEDGEK.Addr s.blackHoleNode n = 1 ∧
        t.edges.filter (fun x => decide (x.kind = PEDGEK.Copy)) =
          s.edges.filter (fun x => decide (x.kind = PEDGEK.Copy))) ∧
    (s.HandBlackHole = false → (s.getGNode s.nullPtr).isSome →
      ∃ e t st, s.addBlackHoleAddrStmt n = some (e, t) ∧ t.getStmt e = some st ∧
        st.kind = PEDGEK.Copy ∧ st.src = s.nullPtr ∧ st.dst = n ∧
        t.countEdges PEDGEK.Copy s.nullPtr n = 1 ∧
        t.edges.filter (fun x => decide (x.kind = PEDGEK.Addr)) =
          s.edges.filter (fun x => decide (x.kind = PEDGEK.Addr))) ∧
    (s.handleBlackHole b).HandBlackHole = b ∧
    s.handleBlackHole b = { s with HandBlackHole := b } := by
  have hu := hr.uniqueEdges
  refine ⟨fun hflag hbh => ?_, fun hflag hnull => ?_, rfl, rfl⟩
  · obtain ⟨st, hst, hk, hs, hd⟩ := getStmt_lookupOrCreate_nonlabeled s
      { kind := PEDGEK.Addr, src := s.blackHoleNode, dst := n }
    refine ⟨_, _, st, ?_, hst, hk, hs, hd,
      countEdges_lookupOrCreate s { kind := PEDGEK.Addr, src := s.blackHoleNode, dst := n }
        (hu.1 _ _ _ rfl),
      filter_kind_lookupOrCreate s _ _ _ (fun h => PEDGEK.noConfusion h)⟩
    rw [addBlackHoleAddrStmt, if_pos hflag, addAddrStmt_eq, if_pos ⟨hbh, hn⟩]
  · obtain ⟨st, hst, hk, hs, hd⟩ := getStmt_lookupOrCreate_nonlabeled s
      { kind := PEDGEK.Copy, src := s.nullPtr, dst := n }
    refine ⟨_, _, st, ?_, hst, hk, hs, hd,
      countEdges_lookupOrCreate s { kind := PEDGEK.Copy, src := s.nullPtr, dst := n }
        (hu.1 _ _ _ rfl),
      filter_kind_lookupOrCreate s _ _ _ (fun h => PEDGEK.noConfusion h)⟩
    rw [addBlackHoleAddrStmt, if_neg (by simp [hflag]), addCopyStmt_eq, if_pos ⟨hnull, hn⟩]

/-- C15 at the graph `demoBlackHole` (flag on) and at the same graph after
handleBlackHole(false), for node 5. -/
theorem unknown_origin_policy_witness :
    Reachable demoBlackHole ∧ Reachable (demoBlackHole.handleBlackHole false) ∧
    (demoBlackHole.getGNode 5).isSome ∧ (demoBlackHole.getGNode 0).isSome ∧
    (demoBlackHole.getGNode 3).isSome ∧ demoBlackHole.HandBlackHole = true ∧
    (demoBlackHole.handleBlackHole false).HandBlackHole = false ∧
    (∃ e t st, demoBlackHole.addBlackHoleAddrStmt 5 = some (e, t) ∧ t.getStmt e = some st ∧
      st.kind = PEDGEK.Addr ∧ st.src = 0 ∧ st.dst = 5 ∧ t.countEdges PEDGEK.Addr 0 5 = 1 ∧
      t.edges.filter (fun x => decide (x.kind = PEDGEK.Copy)) =
        demoBlackHole.edges.filter (fun x => decide (x.kind = PEDGEK.Copy))) ∧
    (∃ e t st, (demoBlackHole.handleBlackHole false).addBlackHoleAddrStmt 5 = some (e, t) ∧
      t.getStmt e = some st ∧ st.kind = PEDGEK.Copy ∧ st.src = 3 ∧ st.dst = 5 ∧
      t.countEdges PEDGEK.Copy 3 5 = 1 ∧
      t.edges.filter (fun x => decide (x.kind = PEDGEK.Addr)) =
        (demoBlackHole.handleBlackHole false).edges.filter
          (fun x => decide (x.kind = PEDGEK.Addr))) :=
  have r0 : Reachable demoBlackHole := Reachable.init demoBlackHole rfl rfl rfl
  have r1 : Reachable (demoBlackHole.handleBlackHole false) := Reachable.blackHoleFlag false r0
  ⟨r0, r1, by decide, by decide, by decide, rfl, rfl,
    (unknown_origin_policy demoBlackHole 5 false r0 (by decide)).1 rfl (by decide),
    (unknown_origin_policy (demoBlackHole.handleBlackHole false) 5 false r1 (by decide)).2.1
      rfl (by decide)⟩

/-! ## C20: deduplication ignores the payload -/

theorem two_le_length_filter {α : Type} (p : α → Bool) (l : List α) (i j : Nat) (a b : α)
    (hij : i ≠ j) (hi : l[i]? = some a) (hj : l[j]? = some b) (pa : p a = true)
    (pb : p b = true) : 2 ≤ (l.filter p).length := by
  induction l generalizing i j with
  | nil => simp at hi
  | cons x xs ih =>
    cases i with
    | zero =>
      cases j with
      | zero => exact absurd rfl hij
      | succ j =>
        simp only [List.getElem?_cons_zero, Option.some.injEq] at hi
        simp only [List.getElem?_cons_succ] at hj
        subst hi
        have hmem : b ∈ xs.filter p := List.mem_filter.2 ⟨List.getElem?_mem hj, pb⟩
        have := List.length_pos_of_mem hmem
        simp only [List.filter_cons, pa, if_true, List.length_cons]
        omega
    | succ i =>
      cases j with
      | zero =>
        simp only [List.getElem?_cons_zero, Option.some.injEq] at hj
        simp only [List.getElem?_cons_succ] at hi
        subst hj
        have hmem : a ∈ xs.filter p := List.mem_filter.2 ⟨List.getElem?_mem hi, pa⟩
        have := List.length_pos_of_mem hmem
        simp only [List.filter_cons, pb, if_true, List.length_cons]
        omega
      | succ j =>
        simp only [List.getElem?_cons_succ] at hi hj
        have := ih i j (fun h => hij (by rw [h])) hi hj
        have hle : (xs.filter p).length ≤ ((x :: xs).filter p).length := by
          simp only [List.filter_cons]
          split <;> simp
        omega

/-- A second call with the same lookup key and any payload returns the edge of
the first call and changes nothing. -/
theorem payloadIgnored_of_find (f g : SVFIR → Option (Nat × SVFIR)) (reg : SVFIR → Prop)
    [DecidablePred reg] (find : SVFIR → Option Nat) (e1 e2 : SVFStmt)
    (payload : SVFStmt → Prop) (hp : payload e1)
    (hreg : ∀ (u : SVFIR) (found : Option Nat), reg (u.lookupOrCreate found e1).2 ↔ reg u)
    (hf : ∀ u : SVFIR, f u = if reg u then some (u.lookupOrCreate (find u) e1) else none)
    (hg : ∀ u : SVFIR, g u = if reg u then some (u.lookupOrCreate (find u) e2) else none)
    (s : SVFIR) (hs : reg s)
    (hidem : find (s.lookupOrCreate (find s) e1).2 = some (s.lookupOrCreate (find s) e1).1)
    (hget : ∃ st, (s.lookupOrCreate (find s) e1).2.getStmt (s.lookupOrCreate (find s) e1).1
      = some st) :
    PayloadIgnored f g s (find s = none) payload := by
  obtain ⟨st, hst⟩ := hget
  refine ⟨_, _, st, ?_, ?_, hst, ?_⟩
  · rw [hf s, if_pos hs]
  · rw [hg, if_pos ((hreg s _).2 hs), hidem, lookupOrCreate_some]
  · intro hnone
    rw [hnone] at hst
    have h2 := getStmt_lookupOrCreate_none s e1
    have : (s.lookupOrCreate none e1).1 = s.edges.length := rfl
    rw [this, h2] at hst
    rw [← Option.some.inj hst]
    exact hp

/-- Two labeled lookup-or-create calls with the same kind and node pair but
different labels yield two different edges between the pair. -/
theorem secondOperandSeparates_of_labels (f g : SVFIR → Option (Nat × SVFIR))
    (regf reg : SVFIR → Prop) [DecidablePred regf] [DecidablePred reg] (e1 e2 : SVFStmt)
    (hk : e2.kind = e1.kind) (hsrc : e2.src = e1.src) (hdst : e2.dst = e1.dst)
    (hlab : e1.label ≠ e2.label)
    (hreg : ∀ (u : SVFIR) (found : Option Nat) (e : SVFStmt),
      reg (u.lookupOrCreate found e).2 ↔ reg u)
    (hf : ∀ u : SVFIR, f u =
      if regf u then
        some (u.lookupOrCreate (u.hasLabeledEdge e1.src e1.dst e1.kind e1.label) e1)
      else none)
    (hg : ∀ u : SVFIR, g u =
      if reg u then some (u.lookupOrCreate (u.hasLabeledEdge e2.src e2.dst e2.kind e2.label) e2)
      else none)
    (s : SVFIR) (hsf : regf s) (hs : reg s) :
    SecondOperandSeparates f g s e1.kind e1.src e1.dst := by
  obtain ⟨st1, hst1, h1⟩ := getStmt_lookupOrCreate_labeled s e1
  obtain ⟨st2, hst2, h2⟩ := getStmt_lookupOrCreate_labeled
    (s.lookupOrCreate (s.hasLabeledEdge e1.src e1.dst e1.kind e1.label) e1).2 e2
  have hst1' := getStmt_lookupOrCreate_of_getStmt _
    ((s.lookupOrCreate (s.hasLabeledEdge e1.src e1.dst e1.kind e1.label) e1).2.hasLabeledEdge
      e2.src e2.dst e2.kind e2.label) e2 st1 _ hst1
  have hne : (s.lookupOrCreate (s.hasLabeledEdge e1.src e1.dst e1.kind e1.label) e1).1 ≠
      ((s.lookupOrCreate (s.hasLabeledEdge e1.src e1.dst e1.kind e1.label) e1).2.lookupOrCreate
        ((s.lookupOrCreate (s.hasLabeledEdge e1.src e1.dst e1.kind e1.label)
          e1).2.hasLabeledEdge e2.src e2.dst e2.kind e2.label) e2).1 := by
    intro hEq
    rw [hEq, hst2] at hst1'
    have hl : st2.label = st1.label := by rw [Option.some.inj hst1']
    rw [h1.2.2.2, h2.2.2.2] at hl
    exact hlab hl.symm
  refine ⟨_, (s.lookupOrCreate (s.hasLabeledEdge e1.src e1.dst e1.kind e1.label) e1).2,
    _, _, st1, st2, ?_, ?_, hne, hst1', hst2, h1.1, h1.2.1, h1.2.2.1,
    h2.1.trans hk, h2.2.1.trans hsrc, h2.2.2.1.trans hdst, ?_⟩
  · rw [hf s, if_pos hsf]
  · rw [hg, if_pos ((hreg s _ _).2 hs)]
  · exact two_le_length_filter _ _ _ _ st1 st2 hne hst1' hst2
      (by simp [h1.1, h1.2.1, h1.2.2.1])
      (by simp [h2.1.trans hk, h2.2.1.trans hsrc, h2.2.2.1.trans hdst])

/-- C20. Deduplication ignores the payload: for registered nodes, a second
addCmpStmt(op1, op2, dst, p2) after addCmpStmt(op1, op2, dst, p1) returns the
edge of the first call and changes nothing, so an edge built by the first call
keeps predicate p1; a call with another second operand yields a second
Compare edge between (op1, dst).  The same holds for addBinaryOPStmt, and
addUnaryOPStmt and addBranchStmt return the existing edge unchanged when
called again with another opcode or successor list. -/
theorem dedup_ignores_payload (s : SVFIR) (op1 op2 op2' dst p1 p2 : Nat)
    (succs1 succs2 : List Nat) (h1 : (s.getGNode op1).isSome) (h2 : (s.getGNode op2).isSome)
    (h2' : (s.getGNode op2').isSome) (hd : (s.getGNode dst).isSome) (hne : op2 ≠ op2') :
    PayloadIgnored (fun u => u.addCmpStmt op1 op2 dst p1) (fun u => u.addCmpStmt op1 op2 dst p2)
      s (s.hasLabeledEdge op1 dst PEDGEK.Cmp (EdgeLabel.opnd op2) = none)
      (fun st => st.opcode = p1) ∧
    SecondOperandSeparates (fun u => u.addCmpStmt op1 op2 dst p1)
      (fun u => u.addCmpStmt op1 op2' dst p2) s PEDGEK.Cmp op1 dst ∧
    PayloadIgnored (fun u => u.addBinaryOPStmt op1 op2 dst p1)
      (fun u => u.addBinaryOPStmt op1 op2 dst p2)
      s (s.hasLabeledEdge op1 dst PEDGEK.BinaryOp (EdgeLabel.opnd op2) = none)
      (fun st => st.opcode = p1) ∧
    SecondOperandSeparates (fun u => u.addBinaryOPStmt op1 op2 dst p1)
      (fun u => u.addBinaryOPStmt op1 op2' dst p2) s PEDGEK.BinaryOp op1 dst ∧
    PayloadIgnored (fun u => u.addUnaryOPStmt op1 dst p1) (fun u => u.addUnaryOPStmt op1 dst p2)
      s (s.hasNonlabeledEdge op1 dst PEDGEK.UnaryOp = none) (fun st => st.opcode = p1) ∧
    PayloadIgnored (fun u => u.addBranchStmt dst op1 succs1)
      (fun u => u.addBranchStmt dst op1 succs2)
      s (s.hasNonlabeledEdge op1 dst PEDGEK.Branch = none)
      (fun st => st.successors = succs1) := by
  refine ⟨?_, ?_, ?_, ?_, ?_, ?_⟩
  · exact payloadIgnored_of_find (fun u => u.addCmpStmt op1 op2 dst p1)
      (fun u => u.addCmpStmt op1 op2 dst p2)
      (fun u => (u.getGNode op1).isSome ∧ (u.getGNode op2).isSome ∧ (u.getGNode dst).isSome)
      (fun u => u.hasLabeledEdge op1 dst PEDGEK.Cmp (EdgeLabel.opnd op2))
      { kind := PEDGEK.Cmp, src := op1, dst := dst, label := EdgeLabel.opnd op2,
        opVars := [op1, op2], opcode := p1 }
      { kind := PEDGEK.Cmp, src := op1, dst := dst, label := EdgeLabel.opnd op2,
        opVars := [op1, op2], opcode := p2 }
      (fun st => st.opcode = p1) rfl (fun u found => by simp only [getGNode_lookupOrCreate])
      (fun u => addCmpStmt_eq u op1 op2 dst p1) (fun u => addCmpStmt_eq u op1 op2 dst p2) s
      ⟨h1, h2, hd⟩
      (hasLabeledEdge_lookupOrCreate s
        { kind := PEDGEK.Cmp, src := op1, dst := dst, label := EdgeLabel.opnd op2,
          opVars := [op1, op2], opcode := p1 })
      ((getStmt_lookupOrCreate_labeled s
        { kind := PEDGEK.Cmp, src := op1, dst := dst, label := EdgeLabel.opnd op2,
          opVars := [op1, op2], opcode := p1 }).imp fun _ h => h.1)
  · exact secondOperandSeparates_of_labels (fun u => u.addCmpStmt op1 op2 dst p1)
      (fun u => u.addCmpStmt op1 op2' dst p2)
      (fun u => (u.getGNode op1).isSome ∧ (u.getGNode op2).isSome ∧ (u.getGNode dst).isSome)
      (fun u => (u.getGNode op1).isSome ∧ (u.getGNode op2').isSome ∧ (u.getGNode dst).isSome)
      { kind := PEDGEK.Cmp, src := op1, dst := dst, label := EdgeLabel.opnd op2,
        opVars := [op1, op2], opcode := p1 }
      { kind := PEDGEK.Cmp, src := op1, dst := dst, label := EdgeLabel.opnd op2',
        opVars := [op1, op2'], opcode := p2 }
      rfl rfl rfl (fun h => hne (by injection h))
      (fun u found e => by simp only [getGNode_lookupOrCreate])
      (fun u => addCmpStmt_eq u op1 op2 dst p1) (fun u => addCmpStmt_eq u op1 op2' dst p2) s
      ⟨h1, h2, hd⟩ ⟨h1, h2', hd⟩
  · exact payloadIgnored_of_find (fun u => u.addBinaryOPStmt op1 op2 dst p1)
      (fun u => u.addBinaryOPStmt op1 op2 dst p2)
      (fun u => (u.getGNode op1).isSome ∧ (u.getGNode op2).isSome ∧ (u.getGNode dst).isSome)
      (fun u => u.hasLabeledEdge op1 dst PEDGEK.BinaryOp (EdgeLabel.opnd op2))
      { kind := PEDGEK.BinaryOp, src := op1, dst := dst, label := EdgeLabel.opnd op2,
        opVars := [op1, op2], opcode := p1 }
      { kind := PEDGEK.BinaryOp, src := op1, dst := dst, label := EdgeLabel.opnd op2,
        opVars := [op1, op2], opcode := p2 }
      (fun st => st.opcode = p1) rfl (fun u found => by simp only [getGNode_lookupOrCreate])
      (fun u => addBinaryOPStmt_eq u op1 op2 dst p1) (fun u => addBinaryOPStmt_eq u op1 op2 dst p2) s
      ⟨h1, h2, hd⟩
      (hasLabeledEdge_lookupOrCreate s
        { kind := PEDGEK.BinaryOp, src := op1, dst := dst, label := EdgeLabel.opnd op2,
          opVars := [op1, op2], opcode := p1 })
      ((getStmt_lookupOrCreate_labeled s
        { kind := PEDGEK.BinaryOp, src := op1, dst := dst, label := EdgeLabel.opnd op2,
          opVars := [op1, op2], opcode := p1 }).imp fun _ h => h.1)
  · exact secondOperandSeparates_of_labels (fun u => u.addBinaryOPStmt op1 op2 dst p1)
      (fun u => u.addBinaryOPStmt op1 op2' dst p2)
      (fun u => (u.getGNode op1).isSome ∧ (u.getGNode op2).isSome ∧ (u.getGNode dst).isSome)
      (fun u => (u.getGNode op1).isSome ∧ (u.getGNode op2').isSome ∧ (u.getGNode dst).isSome)
      { kind := PEDGEK.BinaryOp, src := op1, dst := dst, label := EdgeLabel.opnd op2,
        opVars := [op1, op2], opcode := p1 }
      { kind := PEDGEK.BinaryOp, src := op1, dst := dst, label := EdgeLabel.opnd op2',
        opVars := [op1, op2'], opcode := p2 }
      rfl rfl rfl (fun h => hne (by injection h))
      (fun u found e => by simp only [getGNode_lookupOrCreate])
      (fun u => addBinaryOPStmt_eq u op1 op2 dst p1) (fun u => addBinaryOPStmt_eq u op1 op2' dst p2) s
      ⟨h1, h2, hd⟩ ⟨h1, h2', hd⟩
  · exact payloadIgnored_of_find (fun u => u.addUnaryOPStmt op1 dst p1)
      (fun u => u.addUnaryOPStmt op1 dst p2)
      (fun u => (u.getGNode op1).isSome ∧ (u.getGNode dst).isSome)
      (fun u => u.hasNonlabeledEdge op1 dst PEDGEK.UnaryOp)
      { kind := PEDGEK.UnaryOp, src := op1, dst := dst, opcode := p1 }
      { kind := PEDGEK.UnaryOp, src := op1, dst := dst, opcode := p2 }
      (fun st => st.opcode = p1) rfl (fun u found => by simp only [getGNode_lookupOrCreate])
      (fun u => addUnaryOPStmt_eq u op1 dst p1) (fun u => addUnaryOPStmt_eq u op1 dst p2) s
      ⟨h1, hd⟩
      (hasNonlabeledEdge_lookupOrCreate s
        { kind := PEDGEK.UnaryOp, src := op1, dst := dst, opcode := p1 })
      ((getStmt_lookupOrCreate_nonlabeled s
        { kind := PEDGEK.UnaryOp, src := op1, dst := dst, opcode := p1 }).imp fun _ h => h.1)
  · exact payloadIgnored_of_find (fun u => u.addBranchStmt dst op1 succs1)
      (fun u => u.addBranchStmt dst op1 succs2)
      (fun u => (u.getGNode op1).isSome ∧ (u.getGNode dst).isSome)
      (fun u => u.hasNonlabeledEdge op1 dst PEDGEK.Branch)
      { kind := PEDGEK.Branch, src := op1, dst := dst, successors := succs1 }
      { kind := PEDGEK.Branch, src := op1, dst := dst, successors := succs2 }
      (fun st => st.successors = succs1) rfl
      (fun u found => by simp only [getGNode_lookupOrCreate])
      (fun u => addBranchStmt_eq u dst op1 succs1) (fun u => addBranchStmt_eq u dst op1 succs2)
      s ⟨h1, hd⟩
      (hasNonlabeledEdge_lookupOrCreate s
        { kind := PEDGEK.Branch, src := op1, dst := dst, successors := succs1 })
      ((getStmt_lookupOrCreate_nonlabeled s
        { kind := PEDGEK.Branch, src := op1, dst := dst, successors := succs1 }).imp
          fun _ h => h.1)

/-- C20 at the graph `demo`: operands 1, 2 (and 3 as the other second operand),
result 4, payloads 7 and 8, successor lists [0] and [1]. -/
theorem dedup_ignores_payload_witness :
    (demo.getGNode 1).isSome ∧ (demo.getGNode 2).isSome ∧ (demo.getGNode 3).isSome ∧
    (demo.getGNode 4).isSome ∧ (2 : Nat) ≠ 3 ∧
    PayloadIgnored (fun u => u.addCmpStmt 1 2 4 7) (fun u => u.addCmpStmt 1 2 4 8)
      demo (demo.hasLabeledEdge 1 4 PEDGEK.Cmp (EdgeLabel.opnd 2) = none)
      (fun st => st.opcode = 7) ∧
    SecondOperandSeparates (fun u => u.addCmpStmt 1 2 4 7)
      (fun u => u.addCmpStmt 1 3 4 8) demo PEDGEK.Cmp 1 4 ∧
    PayloadIgnored (fun u => u.addBinaryOPStmt 1 2 4 7) (fun u => u.addBinaryOPStmt 1 2 4 8)
      demo (demo.hasLabeledEdge 1 4 PEDGEK.BinaryOp (EdgeLabel.opnd 2) = none)
      (fun st => st.opcode = 7) ∧
    SecondOperandSeparates (fun u => u.addBinaryOPStmt 1 2 4 7)
      (fun u => u.addBinaryOPStmt 1 3 4 8) demo PEDGEK.BinaryOp 1 4 ∧
    PayloadIgnored (fun u => u.addUnaryOPStmt 1 4 7) (fun u => u.addUnaryOPStmt 1 4 8)
      demo (demo.hasNonlabeledEdge 1 4 PEDGEK.UnaryOp = none) (fun st => st.opcode = 7) ∧
    PayloadIgnored (fun u => u.addBranchStmt 4 1 [0]) (fun u => u.addBranchStmt 4 1 [1])
      demo (demo.hasNonlabeledEdge 1 4 PEDGEK.Branch = none)
      (fun st => st.successors = [0]) :=
  ⟨by decide, by decide, by decide, by decide, by decide,
    dedup_ignores_payload demo 1 2 3 4 7 8 [0] [1] (by decide) (by decide) (by decide)
      (by decide) (by decide)⟩

/-! ## C16: candidate selection -/

theorem lookup_isSome_iff {β : Type} (l : List (NodeID × β)) (k : NodeID) :
    (l.lookup k).isSome = true ↔ k ∈ l.map Prod.fst := by
  induction l with
  | nil => simp
  | cons p ps ih =>
    obtain ⟨a, b⟩ := p
    by_cases h : k = a
    · subst h
      simp [List.lookup_cons]
    · have hb : (k == a) = false := by simpa using h
      simp [List.lookup_cons, hb, ih, h]

theorem isValidPointer_of_registered (attrs : VarAttrs) (s : SVFIR) (n : NodeID)
    (hn : (s.getGNode n).isSome) :
    s.isValidPointer attrs n =
      some (if (s.getInEdges n).isEmpty && (s.getOutEdges n).isEmpty then false
        else attrs.isPointer n) := by
  obtain ⟨v, hv⟩ := Option.isSome_iff_exists.1 hn
  simp only [isValidPointer, hv]
  split <;> rfl

theorem isValidPointer_eq_true_iff (attrs : VarAttrs) (s : SVFIR) (n : NodeID)
    (hn : (s.getGNode n).isSome) :
    s.isValidPointer attrs n = some true ↔
      (s.getInEdges n ≠ [] ∨ s.getOutEdges n ≠ []) ∧ attrs.isPointer n = true := by
  rw [isValidPointer_of_registered attrs s n hn]
  cases hi : s.getInEdges n <;> cases ho : s.getOutEdges n <;> simp

theorem isValidPointer_congr (attrs : VarAttrs) (s u : SVFIR) (n : NodeID)
    (hN : u.IDToNodeMap = s.IDToNodeMap) (hE : u.edges = s.edges) :
    u.isValidPointer attrs n = s.isValidPointer attrs n := by
  simp only [isValidPointer, getGNode, getInEdges, getOutEdges, hN, hE]

/-- The loop visits registered nodes only, never fails, changes nothing but the
candidate set, and adds exactly the visited nodes that are valid pointers. -/
theorem initialiseCandidatePointersLoop_spec (attrs : VarAttrs) (s0 : SVFIR) :
    ∀ (l : List (NodeID × SVFVar)) (s : SVFIR),
      (∀ p ∈ l, (s0.getGNode p.1).isSome) → s.IDToNodeMap = s0.IDToNodeMap →
      s.edges = s0.edges →
      ∃ t, initialiseCandidatePointersLoop attrs l s = some t ∧
        t = { s with candidatePointers := t.candidatePointers } ∧
        ∀ n, n ∈ t.candidatePointers ↔
          n ∈ s.candidatePointers ∨
            (n ∈ l.map Prod.fst ∧ s0.isValidPointer attrs n = some true) := by
  intro l
  induction l with
  | nil =>
    intro s _ _ _
    exact ⟨s, rfl, rfl, fun n => by simp⟩
  | cons p ps ih =>
    intro s hreg hN hE
    obtain ⟨k, v⟩ := p
    have hk : (s0.getGNode k).isSome := hreg (k, v) (List.mem_cons_self _ _)
    have hrest : ∀ q ∈ ps, (s0.getGNode q.1).isSome := fun q hq =>
      hreg q (List.mem_cons_of_mem _ hq)
    have hval := isValidPointer_congr attrs s0 s k hN hE
    rw [isValidPointer_of_registered attrs s0 k hk] at hval
    cases hb : (if (s0.getInEdges k).isEmpty && (s0.getOutEdges k).isEmpty then false
        else attrs.isPointer k) with
    | false =>
      rw [hb] at hval
      obtain ⟨t, ht, hsame, hmem⟩ := ih s hrest hN hE
      refine ⟨t, ?_, hsame, fun n => ?_⟩
      · simp only [initialiseCandidatePointersLoop, hval]
        exact ht
      · rw [hmem n]
        have hk0 : s0.isValidPointer attrs k ≠ some true := by
          rw [isValidPointer_of_registered attrs s0 k hk, hb]
          simp
        constructor
        · rintro (h | ⟨h1, h2⟩)
          · exact Or.inl h
          · exact Or.inr ⟨by simp [h1], h2⟩
        · rintro (h | ⟨h1, h2⟩)
          · exact Or.inl h
          · simp only [List.map_cons, List.mem_cons] at h1
            rcases h1 with rfl | h1
            · exact absurd h2 hk0
            · exact Or.inr ⟨h1, h2⟩
    | true =>
      rw [hb] at hval
      obtain ⟨t, ht, hsame, hmem⟩ :=
        ih { s with candidatePointers := insert k s.candidatePointers } hrest hN hE
      refine ⟨t, ?_, ?_, fun n => ?_⟩
      · simp only [initialiseCandidatePointersLoop, hval]
        exact ht
      · rw [hsame]
      · rw [hmem n]
        have hk1 : s0.isValidPointer attrs k = some true := by
          rw [isValidPointer_of_registered attrs s0 k hk, hb]
        simp only [Finset.mem_insert, List.map_cons, List.mem_cons]
        constructor
        · rintro ((rfl | h) | ⟨h1, h2⟩)
          · exact Or.inr ⟨Or.inl rfl, hk1⟩
          · exact Or.inl h
          · exact Or.inr ⟨Or.inr h1, h2⟩
        · rintro (h | ⟨rfl | h1, h2⟩)
          · exact Or.inl (Or.inr h)
          · exact Or.inl (Or.inl rfl)
          · exact Or.inr ⟨h1, h2⟩

/-- C16. Candidate selection: starting from an empty candidate set,
initialiseCandidatePointers returns, and afterwards a node is in
candidatePointers exactly when it is registered, has at least one incoming or
outgoing edge and is classified as a pointer; a node without incident edges
is never a candidate; nothing but the candidate set changes. -/
theorem candidate_selection (attrs : VarAttrs) (s : SVFIR)
    (hempty : s.candidatePointers = ∅) :
    ∃ t, s.initialiseCandidatePointers attrs = some t ∧
      (∀ n, n ∈ t.candidatePointers ↔
        (s.getGNode n).isSome ∧ (s.getInEdges n ≠ [] ∨ s.getOutEdges n ≠ []) ∧
          attrs.isPointer n = true) ∧
      (∀ n, s.getInEdges n = [] → s.getOutEdges n = [] → n ∉ t.candidatePointers) ∧
      t = { s with candidatePointers := t.candidatePointers } := by
  have hreg : ∀ p ∈ s.IDToNodeMap, (s.getGNode p.1).isSome := fun p hp => by
    rw [getGNode, lookup_isSome_iff]
    exact List.mem_map_of_mem _ hp
  obtain ⟨t, ht, hsame, hmem⟩ :=
    initialiseCandidatePointersLoop_spec attrs s s.IDToNodeMap s hreg rfl rfl
  have hiff : ∀ n, n ∈ t.candidatePointers ↔
      (s.getGNode n).isSome ∧ (s.getInEdges n ≠ [] ∨ s.getOutEdges n ≠ []) ∧
        attrs.isPointer n = true := by
    intro n
    rw [hmem n, hempty, ← lookup_isSome_iff]
    simp only [Finset.not_mem_empty, false_or]
    constructor
    · rintro ⟨h1, h2⟩
      exact ⟨h1, (isValidPointer_eq_true_iff attrs s n h1).1 h2⟩
    · rintro ⟨h1, h2⟩
      exact ⟨h1, (isValidPointer_eq_true_iff attrs s n h1).2 h2⟩
  refine ⟨t, ht, hiff, fun n hi ho hn => ?_, hsame⟩
  rcases ((hiff n).1 hn).2.1 with h | h
  · exact h hi
  · exact h ho

/-- C16 at the graph `demoGeps` (edges 1->2 and 1->3) with `demoAttrs`: the
candidates are 1 and 3; node 2 has an edge but is no pointer, node 4 is a
pointer without edge. -/
theorem candidate_selection_witness :
    demoGeps.candidatePointers = ∅ ∧
    ∃ t, demoGeps.initialiseCandidatePointers demoAttrs = some t ∧
      1 ∈ t.candidatePointers ∧ 3 ∈ t.candidatePointers ∧ 2 ∉ t.candidatePointers ∧
      4 ∉ t.candidatePointers ∧ t = { demoGeps with candidatePointers := t.candidatePointers } := by
  obtain ⟨t, ht, hiff, hiso, hsame⟩ := candidate_selection demoAttrs demoGeps rfl
  exact ⟨rfl, t, ht, (hiff 1).2 (by decide), (hiff 3).2 (by decide),
    fun h => absurd ((hiff 2).1 h).2.2 (by decide), hiso 4 rfl rfl, hsame⟩

/-! ## C17: the top-level predicate -/

/-- C17, as stated, fails: in the graph `demoAddr` the object node 10 has an
edge, is a pointer, carries a value that is no formal parameter of an uncalled
function, so isValidPointer(10) holds with both extra conditions; but node 10
is not a top-level pointer and isValidTopLevelPtr(10) is false. -/
theorem valid_pointer_not_top_level :
    demoAddr.isValidPointer demoAttrs 10 = some true ∧
    demoAttrs.getValue 10 = some 10 ∧ demoAttrs.ArgInNoCallerFunction 10 = false ∧
    demoAttrs.isTopLevelPtr 10 = false ∧
    demoAddr.isValidTopLevelPtr demoAttrs 10 = some false := by
  decide

/-- C17, amended. For every registered node, isValidTopLevelPtr(node) is true
exactly when the node is a top-level pointer, isValidPointer(node) holds, the
node carries a source value, and that value is not a formal parameter of a
function with no caller; so isValidTopLevelPtr implies isValidPointer, and a
formal parameter of an uncalled function is never a valid top-level pointer. -/
theorem top_level_predicate (attrs : VarAttrs) (s : SVFIR) (n : NodeID)
    (hn : (s.getGNode n).isSome) :
    ∃ v w, s.isValidPointer attrs n = some v ∧ s.isValidTopLevelPtr attrs n = some w ∧
      (w = true ↔ attrs.isTopLevelPtr n = true ∧ v = true ∧
        ∃ val, attrs.getValue n = some val ∧ attrs.ArgInNoCallerFunction val = false) ∧
      (w = true → v = true) ∧
      (∀ val, attrs.getValue n = some val → attrs.ArgInNoCallerFunction val = true →
        w = false) := by
  have hv := isValidPointer_of_registered attrs s n hn
  generalize (if (s.getInEdges n).isEmpty && (s.getOutEdges n).isEmpty then false
    else attrs.isPointer n) = v at hv
  have hw : ∃ w, s.isValidTopLevelPtr attrs n = some w ∧
      (w = true ↔ attrs.isTopLevelPtr n = true ∧ v = true ∧
        ∃ val, attrs.getValue n = some val ∧ attrs.ArgInNoCallerFunction val = false) := by
    simp only [isValidTopLevelPtr, hv]
    cases attrs.isTopLevelPtr n <;> cases hval : attrs.getValue n <;> cases v <;> simp
    cases attrs.ArgInNoCallerFunction _ <;> simp
  obtain ⟨w, hw1, hw2⟩ := hw
  refine ⟨v, w, hv, hw1, hw2, fun h => (hw2.1 h).2.1, fun val h1 h2 => ?_⟩
  cases hwv : w with
  | false => rfl
  | true =>
    obtain ⟨-, -, val', hv1, hv2⟩ := hw2.1 hwv
    rw [h1] at hv1
    cases hv1
    rw [h2] at hv2
    cases hv2

/-- C17, amended, at the graph `demoGeps` with `demoAttrs`: node 1 is a valid
top-level pointer; node 3, whose value is a formal parameter of an uncalled
function, is a valid pointer but not a valid top-level pointer. -/
theorem top_level_predicate_witness :
    (demoGeps.getGNode 1).isSome ∧ (demoGeps.getGNode 3).isSome ∧
    (∃ v w, demoGeps.isValidPointer demoAttrs 1 = some v ∧
      demoGeps.isValidTopLevelPtr demoAttrs 1 = some w ∧ w = true ∧ v = true) ∧
    (∃ v w, demoGeps.isValidPointer demoAttrs 3 = some v ∧
      demoGeps.isValidTopLevelPtr demoAttrs 3 = some w ∧ w = false) := by
  refine ⟨by decide, by decide, ?_, ?_⟩
  · obtain ⟨v, w, h1, h2, h3, h4, -⟩ := top_level_predicate demoAttrs demoGeps 1 (by decide)
    have hv : v = true := by
      have : demoGeps.isValidPointer demoAttrs 1 = some true := by decide
      rw [this] at h1
      exact (Option.some.inj h1).symm
    exact ⟨v, w, h1, h2, h3.2 ⟨by decide, hv, 1, by decide, by decide⟩, hv⟩
  · obtain ⟨v, w, h1, h2, -, -, h5⟩ := top_level_predicate demoAttrs demoGeps 3 (by decide)
    exact ⟨v, w, h1, h2, h5 3 (by decide) (by decide)⟩

/-! ## C18: field queries on a node that is no object node -/

/-- C18. For a node registered under id (object nodes carrying their memory
object), getGepObjVar(id, ls) fails exactly when the node is not an object
node (field object, field-insensitive object or dummy object), and so do
getAllFieldsObjVars(id) and getFieldsAfterCollapse(id); on an object node all
three return. -/
theorem field_queries_fail_iff (al : NodeID → Nat → Nat → NodeID) (s : SVFIR) (id : NodeID)
    (ls : LocationSet) (node : SVFVar) (hnode : s.getGNode id = some node)
    (hwf : isObjVar node = true → node.memObj.isSome = true) :
    (getGepObjVarById al s id ls = none ↔ isObjVar node = false) ∧
    (s.getAllFieldsObjVarsById id = none ↔ isObjVar node = false) ∧
    (s.getFieldsAfterCollapse id = none ↔ isObjVar node = false) ∧
    (isObjVar node = true →
      (∃ i t, getGepObjVarById al s id ls = some (i, t)) ∧
      (∃ fs, s.getAllFieldsObjVarsById id = some fs) ∧
      (∃ fs, s.getFieldsAfterCollapse id = some fs)) := by
  obtain ⟨kind, memObj, nls⟩ := node
  have hres : ∀ (m : MemObj) (l : LocationSet), getGepObjVar al s m l ≠ none := by
    intro m l h
    obtain ⟨i, t, h1, -⟩ := getGepObjVar_twice al s m l
    rw [h] at h1
    cases h1
  have hres2 : ∀ (m : MemObj) (l : LocationSet), ∃ i t, getGepObjVar al s m l = some (i, t) :=
    fun m l => (getGepObjVar_twice al s m l).imp fun _ h => h.imp fun _ h2 => h2.1
  cases kind <;> cases memObj <;>
    simp_all [getGepObjVarById, getAllFieldsObjVarsById, getFieldsAfterCollapse, isObjVar,
      getAllFieldsObjVars]
  all_goals split <;> simp

/-- C18 at the graph `demo`: node 1 is a value node and all three queries fail;
node 10 is the object node of `demoObj` and all three return. -/
theorem field_queries_fail_iff_witness :
    demo.getGNode 1 = some { kind := PNODEK.ValNode } ∧
    demo.getGNode 10 = some { kind := PNODEK.FIObjNode, memObj := some demoObj } ∧
    (getGepObjVarById demoAlloc demo 1 ⟨1⟩ = none ∧ demo.getAllFieldsObjVarsById 1 = none ∧
      demo.getFieldsAfterCollapse 1 = none) ∧
    ((∃ i t, getGepObjVarById demoAlloc demo 10 ⟨1⟩ = some (i, t)) ∧
      (∃ fs, demo.getAllFieldsObjVarsById 10 = some fs) ∧
      (∃ fs, demo.getFieldsAfterCollapse 10 = some fs)) :=
  have h1 := field_queries_fail_iff demoAlloc demo 1 ⟨1⟩ { kind := PNODEK.ValNode } rfl
    (fun h => by cases h)
  have h10 := field_queries_fail_iff demoAlloc demo 10 ⟨1⟩
    { kind := PNODEK.FIObjNode, memObj := some demoObj } rfl (fun _ => rfl)
  ⟨rfl, rfl, ⟨h1.1.2 rfl, h1.2.1.2 rfl, h1.2.2.1.2 rfl⟩, h10.2.2.2 rfl⟩

/-! ## C21: the operands of a Phi statement form a list -/

theorem set_of_getElem? {α : Type} (l : List α) (i : Nat) (x : α) (h : l[i]? = some x) :
    l.set i x = l := by
  induction l generalizing i with
  | nil => rfl
  | cons y ys ih =>
    cases i with
    | zero =>
      simp only [List.getElem?_cons_zero, Option.some.injEq] at h
      simp [h]
    | succ n =>
      simp only [List.getElem?_cons_succ] at h
      simp [ih n h]

/-- Once res has its Phi statement, every further call returns that statement
and appends its operand. -/
theorem addPhiStmts_next (res p : NodeID) :
    ∀ (ops : List NodeID) (s : SVFIR) (phi : SVFStmt), (s.getGNode res).isSome →
      (∀ o ∈ ops, (s.getGNode o).isSome) → s.phiNodeMap.lookup res = some p →
      s.edges[p]? = some phi →
      ∃ t, s.addPhiStmts res ops = some (List.replicate ops.length p, t) ∧
        t.edges = s.edges.set p { phi with opVars := phi.opVars ++ ops } ∧
        t.phiNodeMap = s.phiNodeMap ∧ t.IDToNodeMap = s.IDToNodeMap := by
  intro ops
  induction ops with
  | nil =>
    intro s phi _ _ _ hp
    refine ⟨s, rfl, ?_, rfl, rfl⟩
    rw [List.append_nil]
    exact (set_of_getElem? s.edges p phi hp).symm
  | cons op ops ih =>
    intro s phi hres hops hphi hp
    obtain ⟨t1, h1, e1, m1, n1⟩ := addPhiStmt_next s res op p phi hres
      (hops op (List.mem_cons_self _ _)) hphi hp
    have reg1 : ∀ i, t1.getGNode i = s.getGNode i := fun i => by simp only [getGNode, n1]
    have hlt : p < s.edges.length := (List.getElem?_eq_some_iff.1 hp).1
    obtain ⟨t, h2, e2, m2, n2⟩ := ih t1 (addOpVar phi op) (by rw [reg1]; exact hres)
      (fun o ho => by rw [reg1]; exact hops o (List.mem_cons_of_mem _ ho))
      (by rw [m1]; exact hphi) (by rw [e1]; exact List.getElem?_set_self hlt)
    refine ⟨t, ?_, ?_, m2.trans m1, n2.trans n1⟩
    · simp only [addPhiStmts, h1, h2, List.length_cons, List.replicate_succ]
    · rw [e2, e1, List.set_set]
      simp [addOpVar]

/-- C21. Phi operands are a list: for a registered result node res without a
Phi statement, the calls addPhiStmt(res, op_1), ..., addPhiStmt(res, op_n)
with registered operands (n >= 1, repetitions allowed) all return the same
statement; it is a Phi edge from op_1 to res whose operand list is exactly
op_1, ..., op_n in call order; this edge is the only edge the calls add. -/
theorem phi_operands_are_a_list (s : SVFIR) (res op1 : NodeID) (ops : List NodeID)
    (hres : (s.getGNode res).isSome) (hops : ∀ o ∈ op1 :: ops, (s.getGNode o).isSome)
    (hphi : s.phiNodeMap.lookup res = none) :
    ∃ p t, s.addPhiStmts res (op1 :: ops) = some (List.replicate (ops.length + 1) p, t) ∧
      t.getStmt p =
        some { kind := PEDGEK.Phi, src := op1, dst := res, opVars := op1 :: ops } ∧
      t.edges =
        s.edges ++ [{ kind := PEDGEK.Phi, src := op1, dst := res, opVars := op1 :: ops }] ∧
      t.getIncomingEdges res PEDGEK.Phi = s.getIncomingEdges res PEDGEK.Phi ++
        [{ kind := PEDGEK.Phi, src := op1, dst := res, opVars := op1 :: ops }] := by
  obtain ⟨t1, h1, e1, m1, n1⟩ := addPhiStmt_first s res op1 hres
    (hops op1 (List.mem_cons_self _ _)) hphi
  have reg1 : ∀ i, t1.getGNode i = s.getGNode i := fun i => by simp only [getGNode, n1]
  obtain ⟨t, h2, e2, -, -⟩ := addPhiStmts_next res s.edges.length ops t1
    { kind := PEDGEK.Phi, src := op1, dst := res, opVars := [op1] }
    (by rw [reg1]; exact hres)
    (fun o ho => by rw [reg1]; exact hops o (List.mem_cons_of_mem _ ho))
    (by simp [m1]) (by simp [e1])
  have he : t.edges =
      s.edges ++ [{ kind := PEDGEK.Phi, src := op1, dst := res, opVars := op1 :: ops }] := by
    rw [e2, e1]
    simp
  refine ⟨s.edges.length, t, ?_, ?_, he, ?_⟩
  · simp only [addPhiStmts, h1, h2, List.replicate_succ]
  · simp [getStmt, he]
  · simp [getIncomingEdges, he, List.filter_append]

/-- C21 at the graph `demo`: result node 4 and the operands 1, 1, 2. -/
theorem phi_operands_are_a_list_witness :
    (demo.getGNode 4).isSome ∧ (∀ o ∈ [1, 1, 2], (demo.getGNode o).isSome) ∧
    demo.phiNodeMap.lookup 4 = none ∧
    ∃ p t, demo.addPhiStmts 4 [1, 1, 2] = some ([p, p, p], t) ∧
      t.getStmt p = some { kind := PEDGEK.Phi, src := 1, dst := 4, opVars := [1, 1, 2] } ∧
      t.edges = [{ kind := PEDGEK.Phi, src := 1, dst := 4, opVars := [1, 1, 2] }] ∧
      t.getIncomingEdges 4 PEDGEK.Phi =
        [{ kind := PEDGEK.Phi, src := 1, dst := 4, opVars := [1, 1, 2] }] :=
  ⟨by decide, by decide, by decide,
    phi_operands_are_a_list demo 4 1 [1, 2] (by decide) (by decide) (by decide)⟩

/-! ## C22: field resolution by node identifier -/

/-- C22. Field resolution by node identifier composes offsets: for a node
registered under id that carries the memory object m, getGepObjVar(id, b)
equals getGepObjVar(m, a + b) when the node is a field-object node with
LocationSet a, and getGepObjVar(m, b) when it is a field-insensitive or dummy
object node; and a field node f that getGepObjVar(obj, a) has just created
satisfies getGepObjVar(f, b) = getGepObjVar(obj, a' + b), a' being the
normalized offset the node was created with. -/
theorem field_resolution_by_id (al : NodeID → Nat → Nat → NodeID) (s : SVFIR) (id : NodeID)
    (b : LocationSet) (node : SVFVar) (m : MemObj) (hnode : s.getGNode id = some node)
    (hmem : node.memObj = some m) :
    (node.kind = PNODEK.GepObjNode →
      getGepObjVarById al s id b = getGepObjVar al s m (node.ls + b)) ∧
    (node.kind = PNODEK.FIObjNode ∨ node.kind = PNODEK.DummyObjNode →
      getGepObjVarById al s id b = getGepObjVar al s m b) ∧
    (∀ (obj : MemObj) (a : LocationSet) (f : NodeID) (t : SVFIR),
      getGepObjVar al s obj a = some (f, t) → t ≠ s →
      t.getGNode f =
        some { kind := PNODEK.GepObjNode, memObj := some obj, ls := getModulusOffset obj a } ∧
      getGepObjVarById al t f b = getGepObjVar al t obj (getModulusOffset obj a + b)) := by
  refine ⟨fun hk => ?_, fun hk => ?_, fun obj a f t hres hne => ?_⟩
  · simp only [getGepObjVarById, hnode, hk, hmem]
  · rcases hk with hk | hk <;> simp only [getGepObjVarById, hnode, hk, hmem]
  · have hcreated : t.getGNode f =
        some { kind := PNODEK.GepObjNode, memObj := some obj, ls := getModulusOffset obj a } := by
      cases h : obj.isFieldInsensitive with
      | true =>
        rw [getGepObjVar_fieldInsensitive al s obj a h] at hres
        simp only [Option.some.injEq, Prod.mk.injEq] at hres
        exact absurd hres.2.symm hne
      | false =>
        cases hF : (s.FirstFieldEqBase && (getModulusOffset obj a).getOffset == 0) with
        | true =>
          have hF2 := hF
          simp only [Bool.and_eq_true, beq_iff_eq] at hF2
          rw [getGepObjVar_firstField al s obj a h hF2.1 hF2.2] at hres
          simp only [Option.some.injEq, Prod.mk.injEq] at hres
          exact absurd hres.2.symm hne
        | false =>
          cases hL : s.GepObjVarMap.lookup (obj.getId, getModulusOffset obj a) with
          | some i =>
            rw [getGepObjVar_found al s obj a i h hF hL] at hres
            simp only [Option.some.injEq, Prod.mk.injEq] at hres
            exact absurd hres.2.symm hne
          | none =>
            rw [getGepObjVar_fresh al s obj a h hF hL] at hres
            simp only [Option.some.injEq, Prod.mk.injEq] at hres
            obtain ⟨rfl, rfl⟩ := hres
            simp [getGNode]
    refine ⟨hcreated, ?_⟩
    simp only [getGepObjVarById, hcreated]

/-- C22 at the graph `demoField`, which getGepObjVar(demoObj, 1) creates from
`demo`: the field node 2010 (offset 1) with offset 2 resolves like
(demoObj, 1 + 2), to node 4010; the object node 10 with offset 2 resolves like
(demoObj, 2), to node 3010. -/
theorem field_resolution_by_id_witness :
    demoField.getGNode 2010 =
      some { kind := PNODEK.GepObjNode, memObj := some demoObj, ls := ⟨1⟩ } ∧
    demoField.getGNode 10 = some { kind := PNODEK.FIObjNode, memObj := some demoObj } ∧
    getGepObjVar demoAlloc demo demoObj ⟨1⟩ = some (2010, demoField) ∧
    getGepObjVarById demoAlloc demoField 2010 ⟨2⟩ =
      getGepObjVar demoAlloc demoField demoObj (⟨1⟩ + ⟨2⟩) ∧
    (getGepObjVarById demoAlloc demoField 2010 ⟨2⟩).map Prod.fst = some 4010 ∧
    getGepObjVarById demoAlloc demoField 10 ⟨2⟩ =
      getGepObjVar demoAlloc demoField demoObj ⟨2⟩ ∧
    (getGepObjVarById demoAlloc demoField 10 ⟨2⟩).map Prod.fst = some 3010 ∧
    getGepObjVarById demoAlloc demoField 2010 ⟨2⟩ =
      getGepObjVar demoAlloc demoField demoObj (getModulusOffset demoObj ⟨1⟩ + ⟨2⟩) :=
  have hf := field_resolution_by_id demoAlloc demoField 2010 ⟨2⟩
    { kind := PNODEK.GepObjNode, memObj := some demoObj, ls := ⟨1⟩ } demoObj rfl rfl
  have hb := field_resolution_by_id demoAlloc demoField 10 ⟨2⟩
    { kind := PNODEK.FIObjNode, memObj := some demoObj } demoObj rfl rfl
  have hc := field_resolution_by_id demoAlloc demo 10 ⟨2⟩
    { kind := PNODEK.FIObjNode, memObj := some demoObj } demoObj rfl rfl
  ⟨rfl, rfl, by decide, hf.1 rfl, by decide, hb.2.1 (Or.inl rfl), by decide,
    (hc.2.2 demoObj ⟨1⟩ 2010 demoField (by decide) (by decide)).2⟩

end SVFIR

end SVF
